import Mathlib

/-! # Opening Master backend: repertoires, practice sessions, statistics, tokens

A shallow embedding of the Go backend (`backend/internal/models`,
`backend/internal/repository`, `backend/internal/handlers`).

Modelling conventions.

* A `primitive.ObjectID` is twelve bytes; it is kept as the natural number the
  bytes denote (big endian). `primitive.NilObjectID` is `0`.
* `time.Time` is a natural number of clock ticks, `*time.Time` an `Option`.
* Go `int` fields that count list elements (`Ply`, the counters of
  `PracticeStats`) are natural numbers: they are bounded by the length of a
  slice, which is far below `2^63`, so no wrap-around can happen. Caller
  supplied `int` fields (evaluations, `MaxMoves`) are integers.
* A `float64` is a binary64 value (`Float64` below): significand and exponent,
  `+Inf` or `NaN`. Conversion from `int`, division and multiplication round to
  nearest, ties to even, as the hardware does. Only non-negative operands
  occur (counts and the constant `100`), so the sign bit is left out.
* A MongoDB collection is the list of its documents in insertion order. The
  database is taken to be reachable and to answer in time; the only storage
  error kept is the duplicate `_id` error of `InsertOne`.
* A handler is a function from the database, the values it reads from the
  outside world (clock, fresh identifier) and the request to a response and
  a new database.
-/

namespace OpeningMaster

/-! ## Models (`internal/models`) -/

/-- The type `primitive.ObjectID`, as the value of its twelve bytes. -/
abbrev ObjectID := Nat

/-- The zero identifier `primitive.NilObjectID`. -/
def NilObjectID : ObjectID := 0

/-- The type `time.Time`, as a tick count. -/
abbrev Time := Nat

/-! ## Binary64 arithmetic (Go's `float64`) -/

/-- A binary64 value without sign: the finite number `mant · 2 ^ exp`, stored as the
format stores it (`mant < 2 ^ 53`, `exp ≥ -1074`, and `mant ≥ 2 ^ 52` unless
`exp = -1074`), `+Inf`, or `NaN`. -/
inductive Float64 where
  | finite (mant : Nat) (exp : Int)
  | inf
  | nan
  deriving DecidableEq, Repr

/-- The position of the leading bit of `n` (`⌊log₂ n⌋`, `0` for `n < 2`), read off
in at most `fuel` halvings; `fuel = n` is always enough. -/
def bitLog : Nat → Nat → Nat
  | 0, _ => 0
  | fuel + 1, n => if n ≥ 2 then bitLog fuel (n / 2) + 1 else 0

/-- The float `+0`. -/
def Float64.zero : Float64 := .finite 0 (-1074)

/-- The exponent of the spacing `2 ^ s` of the floats around `a / b · 2 ^ k`
(`a, b > 0`): with `e` the exponent of the leading bit of the value, `s = e - 52`,
and not below the subnormal spacing `2 ^ -1074`. -/
def Float64.spacing (a b : Nat) (k : Int) : Int :=
  let d : Int := (bitLog a a : Int) - (bitLog b b : Int)
  let atLeast : Bool :=
    if d ≥ 0 then decide (a ≥ b * 2 ^ d.toNat) else decide (a * 2 ^ (-d).toNat ≥ b)
  let e : Int := (if atLeast then d else d - 1) + k
  max (e - 52) (-1074)

/-- The integer nearest to `n / den`, ties to even. -/
def Float64.roundQuotient (n den : Nat) : Nat :=
  let q : Nat := n / den
  let r : Nat := n % den
  if 2 * r < den then q else if 2 * r > den then q + 1 else if q % 2 = 0 then q else q + 1

/-- The float `q · 2 ^ s` for a rounded significand `q ≤ 2 ^ 53`: a significand
of `2 ^ 53` moves to the next exponent, a result beyond the largest finite float
is `+Inf`. -/
def Float64.pack (q : Nat) (s : Int) : Float64 :=
  let m : Nat := if q = 2 ^ 53 then 2 ^ 52 else q
  let s' : Int := if q = 2 ^ 53 then s + 1 else s
  if s' > 971 then .inf else .finite m s'

/-- The binary64 nearest to `a / b · 2 ^ k` (`a, b > 0`), ties to even: the value
is divided by the spacing of the floats around it, rounded to an integer and
packed. -/
def Float64.round (a b : Nat) (k : Int) : Float64 :=
  let s : Int := Float64.spacing a b k
  let t : Int := k - s
  let n : Nat := if t ≥ 0 then a * 2 ^ t.toNat else a
  let den : Nat := if t ≥ 0 then b else b * 2 ^ (-t).toNat
  Float64.pack (Float64.roundQuotient n den) s

/-- The conversion `float64(n)` of a non-negative integer. -/
def Float64.ofNat (n : Nat) : Float64 :=
  if n = 0 then Float64.zero else Float64.round n 1 0

/-- Division of two floats (IEEE 754): `0 / 0` and `Inf / Inf` are `NaN`, a
non-zero number over `0` is `+Inf`. -/
def Float64.div : Float64 → Float64 → Float64
  | .nan, _ => .nan
  | _, .nan => .nan
  | .inf, .inf => .nan
  | .inf, .finite _ _ => .inf
  | .finite _ _, .inf => Float64.zero
  | .finite m₁ e₁, .finite m₂ e₂ =>
    if m₂ = 0 then (if m₁ = 0 then .nan else .inf)
    else if m₁ = 0 then Float64.zero
    else Float64.round m₁ m₂ (e₁ - e₂)

/-- Multiplication of two floats (IEEE 754): `0 · Inf` is `NaN`. -/
def Float64.mul : Float64 → Float64 → Float64
  | .nan, _ => .nan
  | _, .nan => .nan
  | .inf, .inf => .inf
  | .inf, .finite m _ => if m = 0 then .nan else .inf
  | .finite m _, .inf => if m = 0 then .nan else .inf
  | .finite m₁ e₁, .finite m₂ e₂ =>
    if m₁ = 0 ∨ m₂ = 0 then Float64.zero else Float64.round (m₁ * m₂) 1 (e₁ + e₂)

instance Float64.instDiv : Div Float64 := ⟨Float64.div⟩

instance Float64.instMul : Mul Float64 := ⟨Float64.mul⟩

/-- A numeric constant used as a `float64`, such as the `100` of `calculateStats`. -/
instance Float64.instOfNat (n : Nat) : OfNat Float64 n := ⟨Float64.ofNat n⟩

/-- The exact value of a finite float; `none` for `+Inf` and `NaN`. -/
def Float64.toRat : Float64 → Option ℚ
  | .finite mant exp =>
    some (if exp ≥ 0 then (mant : ℚ) * (2 : ℚ) ^ exp.toNat
      else (mant : ℚ) / (2 : ℚ) ^ (-exp).toNat)
  | .inf => none
  | .nan => none

/-- The struct `models.PracticeMove`. -/
structure PracticeMove where
  Ply : Nat
  FENBefore : String
  FENAfter : String
  UserMove : String
  ExpectedMove : String
  Category : String
  EvalBefore : Int
  EvalAfter : Int
  CentipawnLoss : Int
  deriving DecidableEq, Repr

/-- The struct `models.PracticeStats`; the zero value is `{}` with every field `0`. -/
structure PracticeStats where
  TotalMoves : Nat := 0
  BookMoves : Nat := 0
  BestMoves : Nat := 0
  GoodMoves : Nat := 0
  Inaccuracies : Nat := 0
  Mistakes : Nat := 0
  Blunders : Nat := 0
  AccuracyPercentage : Float64 := 0
  deriving DecidableEq, Repr

/-- The struct `models.PracticeConfig`. -/
structure PracticeConfig where
  MaxMoves : Int
  Difficulty : String
  AllowVariations : Bool
  deriving DecidableEq, Repr

/-- The struct `models.PracticeSession`. -/
structure PracticeSession where
  ID : ObjectID
  UserID : ObjectID
  RepertoireID : ObjectID
  OpeningID : ObjectID
  Mode : String
  Color : String
  StartedAt : Time
  EndedAt : Option Time
  Moves : List PracticeMove
  Stats : PracticeStats
  Config : PracticeConfig
  deriving DecidableEq, Repr

/-- The struct `models.StartPracticeRequest`; `Config` is a pointer in the source. -/
structure StartPracticeRequest where
  RepertoireID : String
  OpeningID : String
  Mode : String
  Config : Option PracticeConfig
  deriving DecidableEq, Repr

/-- The struct `models.SubmitMoveRequest`. -/
structure SubmitMoveRequest where
  FENBefore : String
  FENAfter : String
  UserMove : String
  ExpectedMove : String
  Category : String
  EvalBefore : Int
  EvalAfter : Int
  CentipawnLoss : Int
  deriving DecidableEq, Repr

/-- The struct `models.MoveNode`, a node of an opening's move tree. -/
inductive MoveNode where
  | mk (FEN Move UCI Comment : String) (IsMainLine : Bool) (Children : List MoveNode)

/-- The field `FEN` of a `MoveNode`. -/
def MoveNode.FEN : MoveNode → String
  | .mk fen _ _ _ _ _ => fen

/-- The field `Children` of a `MoveNode`. -/
def MoveNode.Children : MoveNode → List MoveNode
  | .mk _ _ _ _ _ children => children

mutual
/-- Equality of move trees is decidable. -/
def MoveNode.decEq : (a b : MoveNode) → Decidable (a = b)
  | .mk f1 m1 u1 c1 i1 ch1, .mk f2 m2 u2 c2 i2 ch2 =>
    if h : f1 = f2 ∧ m1 = m2 ∧ u1 = u2 ∧ c1 = c2 ∧ i1 = i2 then
      match MoveNode.decEqList ch1 ch2 with
      | isTrue hc => isTrue (by obtain ⟨rfl, rfl, rfl, rfl, rfl⟩ := h; rw [hc])
      | isFalse hc => isFalse (by intro he; injection he with _ _ _ _ _ h6; exact hc h6)
    else
      isFalse (by intro he; injection he with h1 h2 h3 h4 h5 h6; exact h ⟨h1, h2, h3, h4, h5⟩)
/-- Equality of lists of move trees is decidable. -/
def MoveNode.decEqList : (a b : List MoveNode) → Decidable (a = b)
  | [], [] => isTrue rfl
  | [], _ :: _ => isFalse (by simp)
  | _ :: _, [] => isFalse (by simp)
  | x :: xs, y :: ys =>
    match MoveNode.decEq x y, MoveNode.decEqList xs ys with
    | isTrue h1, isTrue h2 => isTrue (by rw [h1, h2])
    | isFalse h1, _ => isFalse (by intro he; injection he with a b; exact h1 a)
    | _, isFalse h2 => isFalse (by intro he; injection he with a b; exact h2 b)
end

instance MoveNode.instDecidableEq : DecidableEq MoveNode := MoveNode.decEq

/-- The struct `models.Opening`. -/
structure Opening where
  ID : ObjectID
  Name : String
  ECO : String
  StartingFEN : String
  Moves : List MoveNode
  deriving DecidableEq

/-- The struct `models.Repertoire`. -/
structure Repertoire where
  ID : ObjectID
  UserID : ObjectID
  Name : String
  Color : String
  Openings : List Opening
  CreatedAt : Time
  UpdatedAt : Time
  deriving DecidableEq

/-- The struct `models.CreateRepertoireRequest`. -/
structure CreateRepertoireRequest where
  Name : String
  Color : String
  deriving DecidableEq

/-- The struct `models.AddOpeningRequest`. -/
structure AddOpeningRequest where
  Name : String
  ECO : String
  StartingFEN : String
  Moves : List MoveNode
  deriving DecidableEq

/-- The struct `models.UserPreferences`. -/
structure UserPreferences where
  BoardTheme : String
  PieceSet : String
  BoardOrientation : String
  deriving DecidableEq

/-- The struct `models.User`. -/
structure User where
  ID : ObjectID
  Email : String
  PasswordHash : String
  Username : String
  Preferences : UserPreferences
  CreatedAt : Time
  UpdatedAt : Time
  deriving DecidableEq

/-- The struct `models.AuthResponse`. -/
structure AuthResponse where
  AccessToken : String
  RefreshToken : String
  User : User
  deriving DecidableEq

/-- The struct `models.RefreshRequest`. -/
structure RefreshRequest where
  RefreshToken : String
  deriving DecidableEq

/-! ## Statistics (`handlers/practice.go`, `calculateStats`) -/

/-- One iteration of the `for _, move := range moves` loop of `calculateStats`:
the `switch move.Category`, its cases in source order. -/
def countMove (stats : PracticeStats) (move : PracticeMove) : PracticeStats :=
  if move.Category = "repertoire" then { stats with BookMoves := stats.BookMoves + 1 }
  else if move.Category = "mistake" then { stats with Mistakes := stats.Mistakes + 1 }
  else if move.Category = "book" then { stats with BookMoves := stats.BookMoves + 1 }
  else if move.Category = "best" then { stats with BestMoves := stats.BestMoves + 1 }
  else if move.Category = "good" then { stats with GoodMoves := stats.GoodMoves + 1 }
  else if move.Category = "inaccuracy" then { stats with Inaccuracies := stats.Inaccuracies + 1 }
  else if move.Category = "blunder" then { stats with Blunders := stats.Blunders + 1 }
  else stats

/-- The function `calculateStats`: the counters are filled by the loop, then the
accuracy is computed under the guard `stats.TotalMoves > 0`. -/
def calculateStats (moves : List PracticeMove) : PracticeStats :=
  let stats := moves.foldl countMove { TotalMoves := moves.length }
  if stats.TotalMoves > 0 then
    let correctMoves := stats.BookMoves + stats.BestMoves + stats.GoodMoves
    { stats with
      AccuracyPercentage :=
        Float64.ofNat correctMoves / Float64.ofNat stats.TotalMoves * 100 }
  else stats

/-- The moves a counter of `PracticeStats` counts: those with one of the labels. -/
def labelled (labels : List String) (moves : List PracticeMove) : Nat :=
  moves.countP (fun move => decide (move.Category ∈ labels))

/-- The counters of `calculateStats`, before the accuracy is filled in. -/
def counters (moves : List PracticeMove) : PracticeStats :=
  { TotalMoves := moves.length,
    BookMoves := labelled ["book", "repertoire"] moves,
    BestMoves := labelled ["best"] moves,
    GoodMoves := labelled ["good"] moves,
    Inaccuracies := labelled ["inaccuracy"] moves,
    Mistakes := labelled ["mistake"] moves,
    Blunders := labelled ["blunder"] moves }

/-- Renames the category `old` to `new` in a move and leaves every other move as it is. -/
def relabel (old new : String) (move : PracticeMove) : PracticeMove :=
  if move.Category = old then { move with Category := new } else move

/-! ## Identifiers (`primitive.ObjectIDFromHex`, used by `parseObjectID`) -/

/-- The value of one hexadecimal digit, as `encoding/hex` reads it (both cases). -/
def hexVal (c : Char) : Option Nat :=
  if '0' ≤ c ∧ c ≤ '9' then some (c.toNat - '0'.toNat)
  else if 'a' ≤ c ∧ c ≤ 'f' then some (c.toNat - 'a'.toNat + 10)
  else if 'A' ≤ c ∧ c ≤ 'F' then some (c.toNat - 'A'.toNat + 10)
  else none

/-- Reads a list of hexadecimal digits, most significant first. -/
def hexDecode : Nat → List Char → Option Nat
  | acc, [] => some acc
  | acc, c :: cs =>
    match hexVal c with
    | none => none
    | some v => hexDecode (acc * 16 + v) cs

/-- The library function `primitive.ObjectIDFromHex`: the string must be 24 bytes
long and consist of hexadecimal digits. -/
def ObjectIDFromHex (s : String) : Option ObjectID :=
  if s.utf8ByteSize ≠ 24 then none else hexDecode 0 s.data

/-- The helper `parseObjectID` of `handlers/repertoire.go`. -/
def parseObjectID (id : String) : Option ObjectID :=
  ObjectIDFromHex id

/-- The helper `getUserID`: `userIDStr` is `c.GetString("userID")`, the value the
authentication middleware left in the request context (empty when absent). -/
def getUserID (userIDStr : String) : Option ObjectID :=
  parseObjectID userIDStr

/-! ## The database -/

/-- The collections `repertoires`, `practice_sessions` and `users`. -/
structure DB where
  repertoires : List Repertoire
  practice_sessions : List PracticeSession
  users : List User := []

/-- The driver call `UpdateOne`: the first document matching the filter is
updated; when none matches nothing changes and no error is returned. -/
def updateOne {α : Type} (filter : α → Bool) (update : α → α) : List α → List α
  | [] => []
  | d :: ds => if filter d then update d :: ds else d :: updateOne filter update ds

/-! ## Repositories (`internal/repository`) -/

/-- The method `RepertoireRepository.FindByIDAndUserID`. -/
def RepertoireRepository.FindByIDAndUserID (collection : List Repertoire)
    (id userID : ObjectID) : Option Repertoire :=
  collection.find? (fun r => r.ID == id && r.UserID == userID)

/-- The method `PracticeRepository.Create`: fills in identity, start time, empty
moves and zero stats, then `InsertOne`, which fails on a duplicate `_id`.
Returns the session as the caller sees it afterwards and the new collection.
`newID` stands for `primitive.NewObjectID()`, which never yields the nil
identifier, so the `omitempty` of the `_id` tag plays no part. -/
def PracticeRepository.Create (collection : List PracticeSession) (newID : ObjectID)
    (now : Time) (session : PracticeSession) :
    Except String (PracticeSession × List PracticeSession) :=
  let session := { session with ID := newID, StartedAt := now, Moves := [], Stats := {} }
  if collection.any (fun s => s.ID == session.ID) then .error "duplicate key"
  else .ok (session, collection ++ [session])

/-- The method `PracticeRepository.FindByIDAndUserID`. -/
def PracticeRepository.FindByIDAndUserID (collection : List PracticeSession)
    (id userID : ObjectID) : Option PracticeSession :=
  collection.find? (fun s => s.ID == id && s.UserID == userID)

/-- The method `PracticeRepository.AddMove`: `$push` on `moves`, filtered by `_id`. -/
def PracticeRepository.AddMove (collection : List PracticeSession) (sessionID : ObjectID)
    (move : PracticeMove) : List PracticeSession :=
  updateOne (fun s => s.ID == sessionID) (fun s => { s with Moves := s.Moves ++ [move] })
    collection

/-- The method `PracticeRepository.EndSession`: `$set` of `ended_at` and `stats`,
filtered by `_id`. -/
def PracticeRepository.EndSession (collection : List PracticeSession) (sessionID : ObjectID)
    (now : Time) (stats : PracticeStats) : List PracticeSession :=
  updateOne (fun s => s.ID == sessionID)
    (fun s => { s with EndedAt := some now, Stats := stats }) collection

/-! ## Handlers (`handlers/practice.go`) -/

/-- What a handler passes to `c.JSON`: `error` is `gin.H{"error": msg}`, `message`
is `gin.H{"message": msg}`, `bindError` the error text of a failed binding. -/
inductive Body where
  | error (msg : String)
  | bindError
  | session (s : PracticeSession)
  | move (m : PracticeMove)
  | sessions (l : List PracticeSession)
  | message (msg : String)
  | repertoire (r : Repertoire)
  | repertoires (l : List Repertoire)
  | opening (o : Opening)
  | auth (r : AuthResponse)
  deriving DecidableEq

/-- An HTTP response: status code and JSON body. -/
structure Response where
  status : Nat
  body : Body
  deriving DecidableEq

/-- The constant `http.StatusOK`. -/
def StatusOK : Nat := 200

/-- The constant `http.StatusCreated`. -/
def StatusCreated : Nat := 201

/-- The constant `http.StatusBadRequest`. -/
def StatusBadRequest : Nat := 400

/-- The constant `http.StatusUnauthorized`. -/
def StatusUnauthorized : Nat := 401

/-- The constant `http.StatusNotFound`. -/
def StatusNotFound : Nat := 404

/-- The constant `http.StatusInternalServerError`. -/
def StatusInternalServerError : Nat := 500

/-- The call `c.ShouldBindJSON(&req)` for a `StartPracticeRequest`: `body` is the
decoded JSON (`none` when it does not decode); the `binding` tags require a
non-empty `repertoire_id` and a `mode` that is `specific` or `random`. -/
def bindStartPracticeRequest (body : Option StartPracticeRequest) :
    Option StartPracticeRequest :=
  match body with
  | none => none
  | some req =>
    if req.RepertoireID ≠ "" ∧ (req.Mode = "specific" ∨ req.Mode = "random") then some req
    else none

/-- The call `c.ShouldBindJSON(&req)` for a `SubmitMoveRequest`: the `binding` tags
require non-empty `fen_before`, `fen_after`, `user_move` and `category`. -/
def bindSubmitMoveRequest (body : Option SubmitMoveRequest) : Option SubmitMoveRequest :=
  match body with
  | none => none
  | some req =>
    if req.FENBefore ≠ "" ∧ req.FENAfter ≠ "" ∧ req.UserMove ≠ "" ∧ req.Category ≠ "" then
      some req
    else none

/-- The default `PracticeConfig` of `PracticeHandler.Start`. -/
def defaultConfig : PracticeConfig :=
  { MaxMoves := 30, Difficulty := "flexible", AllowVariations := false }

/-- The handler `PracticeHandler.Start`. `newID` is the value of
`primitive.NewObjectID()` and `now` of `time.Now()` inside `Create`. -/
def PracticeHandler.Start (db : DB) (newID : ObjectID) (now : Time) (userIDStr : String)
    (body : Option StartPracticeRequest) : Response × DB :=
  match getUserID userIDStr with
  | none => (⟨StatusUnauthorized, .error "unauthorized"⟩, db)
  | some userID =>
    match bindStartPracticeRequest body with
    | none => (⟨StatusBadRequest, .bindError⟩, db)
    | some req =>
      match parseObjectID req.RepertoireID with
      | none => (⟨StatusBadRequest, .error "invalid repertoire ID"⟩, db)
      | some repertoireID =>
        match RepertoireRepository.FindByIDAndUserID db.repertoires repertoireID userID with
        | none => (⟨StatusNotFound, .error "repertoire not found"⟩, db)
        | some repertoire =>
          let config := match req.Config with
            | none => defaultConfig
            | some config => config
          let session : PracticeSession :=
            { ID := NilObjectID, UserID := userID, RepertoireID := repertoireID,
              OpeningID := NilObjectID, Mode := req.Mode, Color := repertoire.Color,
              StartedAt := 0, EndedAt := none, Moves := [], Stats := {}, Config := config }
          let session :=
            if req.OpeningID ≠ "" then
              match parseObjectID req.OpeningID with
              | some openingID => { session with OpeningID := openingID }
              | none => session
            else session
          match PracticeRepository.Create db.practice_sessions newID now session with
          | .error _ => (⟨StatusInternalServerError, .error "failed to start session"⟩, db)
          | .ok (session, collection) =>
            (⟨StatusCreated, .session session⟩, { db with practice_sessions := collection })

/-- The handler `PracticeHandler.SubmitMove`; `sessionId` is `c.Param("sessionId")`. -/
def PracticeHandler.SubmitMove (db : DB) (userIDStr sessionId : String)
    (body : Option SubmitMoveRequest) : Response × DB :=
  match getUserID userIDStr with
  | none => (⟨StatusUnauthorized, .error "unauthorized"⟩, db)
  | some userID =>
    match parseObjectID sessionId with
    | none => (⟨StatusBadRequest, .error "invalid session ID"⟩, db)
    | some sessionID =>
      match PracticeRepository.FindByIDAndUserID db.practice_sessions sessionID userID with
      | none => (⟨StatusNotFound, .error "session not found"⟩, db)
      | some session =>
        if session.EndedAt ≠ none then
          (⟨StatusBadRequest, .error "session already ended"⟩, db)
        else
          match bindSubmitMoveRequest body with
          | none => (⟨StatusBadRequest, .bindError⟩, db)
          | some req =>
            let move : PracticeMove :=
              { Ply := session.Moves.length + 1, FENBefore := req.FENBefore,
                FENAfter := req.FENAfter, UserMove := req.UserMove,
                ExpectedMove := req.ExpectedMove, Category := req.Category,
                EvalBefore := req.EvalBefore, EvalAfter := req.EvalAfter,
                CentipawnLoss := req.CentipawnLoss }
            (⟨StatusOK, .move move⟩,
              { db with practice_sessions :=
                  PracticeRepository.AddMove db.practice_sessions sessionID move })

/-- The handler `PracticeHandler.End`. `repoNow` is the clock read by
`EndSession`, `handlerNow` the one read by the handler for its response. -/
def PracticeHandler.End (db : DB) (repoNow handlerNow : Time) (userIDStr sessionId : String) :
    Response × DB :=
  match getUserID userIDStr with
  | none => (⟨StatusUnauthorized, .error "unauthorized"⟩, db)
  | some userID =>
    match parseObjectID sessionId with
    | none => (⟨StatusBadRequest, .error "invalid session ID"⟩, db)
    | some sessionID =>
      match PracticeRepository.FindByIDAndUserID db.practice_sessions sessionID userID with
      | none => (⟨StatusNotFound, .error "session not found"⟩, db)
      | some session =>
        let stats := calculateStats session.Moves
        (⟨StatusOK, .session { session with Stats := stats, EndedAt := some handlerNow }⟩,
          { db with practice_sessions :=
              PracticeRepository.EndSession db.practice_sessions sessionID repoNow stats })

/-- One request to the practice API, with the values its handler reads from the
outside world. -/
inductive PracticeCall where
  | start (newID : ObjectID) (now : Time) (userIDStr : String)
      (body : Option StartPracticeRequest)
  | submitMove (userIDStr sessionId : String) (body : Option SubmitMoveRequest)
  | endSession (repoNow handlerNow : Time) (userIDStr sessionId : String)

/-- Serves one request. -/
def PracticeCall.serve (db : DB) : PracticeCall → Response × DB
  | .start newID now userIDStr body => PracticeHandler.Start db newID now userIDStr body
  | .submitMove userIDStr sessionId body => PracticeHandler.SubmitMove db userIDStr sessionId body
  | .endSession repoNow handlerNow userIDStr sessionId =>
    PracticeHandler.End db repoNow handlerNow userIDStr sessionId

/-- Serves requests one after another (no two overlap) and returns the database. -/
def serveAll (db : DB) (calls : List PracticeCall) : DB :=
  calls.foldl (fun db call => (call.serve db).2) db

/-! ## Reading sessions (`practice_repo.go`, `handlers/practice.go`) -/

/-- The method `PracticeRepository.FindByUserID`: the caller's sessions sorted by
`started_at` descending, cut at `limit` (a limit of `0` means no limit in the
driver). The sort is an insertion sort, which keeps ties in collection order. -/
def PracticeRepository.FindByUserID (collection : List PracticeSession) (userID : ObjectID)
    (limit : Nat) : List PracticeSession :=
  let sorted := (collection.filter (fun s => s.UserID == userID)).insertionSort
    (fun a b => a.StartedAt ≥ b.StartedAt)
  if limit = 0 then sorted else sorted.take limit

/-- The handler `PracticeHandler.History`. -/
def PracticeHandler.History (db : DB) (userIDStr : String) : Response × DB :=
  match getUserID userIDStr with
  | none => (⟨StatusUnauthorized, .error "unauthorized"⟩, db)
  | some userID =>
    (⟨StatusOK, .sessions (PracticeRepository.FindByUserID db.practice_sessions userID 50)⟩, db)

/-- The handler `PracticeHandler.GetSession`. -/
def PracticeHandler.GetSession (db : DB) (userIDStr sessionId : String) : Response × DB :=
  match getUserID userIDStr with
  | none => (⟨StatusUnauthorized, .error "unauthorized"⟩, db)
  | some userID =>
    match parseObjectID sessionId with
    | none => (⟨StatusBadRequest, .error "invalid session ID"⟩, db)
    | some sessionID =>
      match PracticeRepository.FindByIDAndUserID db.practice_sessions sessionID userID with
      | none => (⟨StatusNotFound, .error "session not found"⟩, db)
      | some session => (⟨StatusOK, .session session⟩, db)

/-! ## The repertoire repository (`repertoire_repo.go`) -/

/-- The method `RepertoireRepository.Create`: identity and both timestamps are
filled in, a nil opening list becomes the empty list, then `InsertOne`. -/
def RepertoireRepository.Create (collection : List Repertoire) (newID : ObjectID)
    (createdAt updatedAt : Time) (repertoire : Repertoire) :
    Except String (Repertoire × List Repertoire) :=
  let repertoire :=
    { repertoire with ID := newID, CreatedAt := createdAt, UpdatedAt := updatedAt }
  if collection.any (fun r => r.ID == repertoire.ID) then .error "duplicate key"
  else .ok (repertoire, collection ++ [repertoire])

/-- The method `RepertoireRepository.FindByUserID`. -/
def RepertoireRepository.FindByUserID (collection : List Repertoire) (userID : ObjectID) :
    List Repertoire :=
  collection.filter (fun r => r.UserID == userID)

/-- The method `RepertoireRepository.Update`: `$set` of the whole document,
filtered by `_id`. Returns the document as the caller sees it afterwards. -/
def RepertoireRepository.Update (collection : List Repertoire) (now : Time)
    (repertoire : Repertoire) : Repertoire × List Repertoire :=
  let repertoire := { repertoire with UpdatedAt := now }
  (repertoire, updateOne (fun r => r.ID == repertoire.ID) (fun _ => repertoire) collection)

/-- The method `RepertoireRepository.Delete`: `DeleteOne` filtered by `_id`. -/
def RepertoireRepository.Delete (collection : List Repertoire) (id : ObjectID) :
    List Repertoire :=
  collection.eraseP (fun r => r.ID == id)

/-- The method `RepertoireRepository.AddOpening`. The opening is received by value:
the identifier is set on the method's own copy, which is the one pushed. -/
def RepertoireRepository.AddOpening (collection : List Repertoire) (repertoireID : ObjectID)
    (newID : ObjectID) (now : Time) (opening : Opening) : List Repertoire :=
  let opening := { opening with ID := newID }
  updateOne (fun r => r.ID == repertoireID)
    (fun r => { r with Openings := r.Openings ++ [opening], UpdatedAt := now }) collection

/-- The method `RepertoireRepository.UpdateOpening`: the filter asks for the
repertoire `_id` and for an opening with the given `_id`; `openings.$` is the first
opening that matches. -/
def RepertoireRepository.UpdateOpening (collection : List Repertoire)
    (repertoireID openingID : ObjectID) (now : Time) (opening : Opening) : List Repertoire :=
  updateOne (fun r => r.ID == repertoireID && r.Openings.any (fun o => o.ID == openingID))
    (fun r => { r with
      Openings := updateOne (fun o => o.ID == openingID) (fun _ => opening) r.Openings,
      UpdatedAt := now }) collection

/-- The method `RepertoireRepository.DeleteOpening`: `$pull` of every opening with
the given `_id`, filtered by the repertoire `_id`. -/
def RepertoireRepository.DeleteOpening (collection : List Repertoire)
    (repertoireID openingID : ObjectID) (now : Time) : List Repertoire :=
  updateOne (fun r => r.ID == repertoireID)
    (fun r => { r with
      Openings := r.Openings.filter (fun o => !(o.ID == openingID)),
      UpdatedAt := now }) collection

/-! ## The repertoire handlers (`handlers/repertoire.go`) -/

/-- The call `c.ShouldBindJSON(&req)` for a `CreateRepertoireRequest`: a non-empty
`name` and a `color` that is `white` or `black`. -/
def bindCreateRepertoireRequest (body : Option CreateRepertoireRequest) :
    Option CreateRepertoireRequest :=
  match body with
  | none => none
  | some req =>
    if req.Name ≠ "" ∧ (req.Color = "white" ∨ req.Color = "black") then some req else none

/-- The call `c.ShouldBindJSON(&req)` for an `AddOpeningRequest`: a non-empty `name`. -/
def bindAddOpeningRequest (body : Option AddOpeningRequest) : Option AddOpeningRequest :=
  match body with
  | none => none
  | some req => if req.Name ≠ "" then some req else none

/-- The handler `RepertoireHandler.List`. -/
def RepertoireHandler.List (db : DB) (userIDStr : String) : Response × DB :=
  match getUserID userIDStr with
  | none => (⟨StatusUnauthorized, .error "unauthorized"⟩, db)
  | some userID =>
    (⟨StatusOK, .repertoires (RepertoireRepository.FindByUserID db.repertoires userID)⟩, db)

/-- The handler `RepertoireHandler.Create`. -/
def RepertoireHandler.Create (db : DB) (newID : ObjectID) (createdAt updatedAt : Time)
    (userIDStr : String) (body : Option CreateRepertoireRequest) : Response × DB :=
  match getUserID userIDStr with
  | none => (⟨StatusUnauthorized, .error "unauthorized"⟩, db)
  | some userID =>
    match bindCreateRepertoireRequest body with
    | none => (⟨StatusBadRequest, .bindError⟩, db)
    | some req =>
      let repertoire : Repertoire :=
        { ID := NilObjectID, UserID := userID, Name := req.Name, Color := req.Color,
          Openings := [], CreatedAt := 0, UpdatedAt := 0 }
      match RepertoireRepository.Create db.repertoires newID createdAt updatedAt repertoire with
      | .error _ => (⟨StatusInternalServerError, .error "failed to create repertoire"⟩, db)
      | .ok (repertoire, collection) =>
        (⟨StatusCreated, .repertoire repertoire⟩, { db with repertoires := collection })

/-- The handler `RepertoireHandler.Get`; `id` is `c.Param("id")`. -/
def RepertoireHandler.Get (db : DB) (userIDStr id : String) : Response × DB :=
  match getUserID userIDStr with
  | none => (⟨StatusUnauthorized, .error "unauthorized"⟩, db)
  | some userID =>
    match parseObjectID id with
    | none => (⟨StatusBadRequest, .error "invalid repertoire ID"⟩, db)
    | some id =>
      match RepertoireRepository.FindByIDAndUserID db.repertoires id userID with
      | none => (⟨StatusNotFound, .error "repertoire not found"⟩, db)
      | some repertoire => (⟨StatusOK, .repertoire repertoire⟩, db)

/-- The handler `RepertoireHandler.Update`. -/
def RepertoireHandler.Update (db : DB) (now : Time) (userIDStr id : String)
    (body : Option CreateRepertoireRequest) : Response × DB :=
  match getUserID userIDStr with
  | none => (⟨StatusUnauthorized, .error "unauthorized"⟩, db)
  | some userID =>
    match parseObjectID id with
    | none => (⟨StatusBadRequest, .error "invalid repertoire ID"⟩, db)
    | some id =>
      match RepertoireRepository.FindByIDAndUserID db.repertoires id userID with
      | none => (⟨StatusNotFound, .error "repertoire not found"⟩, db)
      | some repertoire =>
        match bindCreateRepertoireRequest body with
        | none => (⟨StatusBadRequest, .bindError⟩, db)
        | some req =>
          let repertoire := { repertoire with Name := req.Name, Color := req.Color }
          match RepertoireRepository.Update db.repertoires now repertoire with
          | (repertoire, collection) =>
            (⟨StatusOK, .repertoire repertoire⟩, { db with repertoires := collection })

/-- The handler `RepertoireHandler.Delete`. -/
def RepertoireHandler.Delete (db : DB) (userIDStr id : String) : Response × DB :=
  match getUserID userIDStr with
  | none => (⟨StatusUnauthorized, .error "unauthorized"⟩, db)
  | some userID =>
    match parseObjectID id with
    | none => (⟨StatusBadRequest, .error "invalid repertoire ID"⟩, db)
    | some id =>
      match RepertoireRepository.FindByIDAndUserID db.repertoires id userID with
      | none => (⟨StatusNotFound, .error "repertoire not found"⟩, db)
      | some _ =>
        (⟨StatusOK, .message "repertoire deleted"⟩,
          { db with repertoires := RepertoireRepository.Delete db.repertoires id })

/-- The handler `RepertoireHandler.AddOpening`. The response is the handler's own
`opening` value, which `RepertoireRepository.AddOpening` received as a copy. -/
def RepertoireHandler.AddOpening (db : DB) (newID : ObjectID) (now : Time)
    (userIDStr id : String) (body : Option AddOpeningRequest) : Response × DB :=
  match getUserID userIDStr with
  | none => (⟨StatusUnauthorized, .error "unauthorized"⟩, db)
  | some userID =>
    match parseObjectID id with
    | none => (⟨StatusBadRequest, .error "invalid repertoire ID"⟩, db)
    | some id =>
      match RepertoireRepository.FindByIDAndUserID db.repertoires id userID with
      | none => (⟨StatusNotFound, .error "repertoire not found"⟩, db)
      | some _ =>
        match bindAddOpeningRequest body with
        | none => (⟨StatusBadRequest, .bindError⟩, db)
        | some req =>
          let opening : Opening :=
            { ID := NilObjectID, Name := req.Name, ECO := req.ECO,
              StartingFEN := req.StartingFEN, Moves := req.Moves }
          (⟨StatusCreated, .opening opening⟩,
            { db with repertoires :=
                RepertoireRepository.AddOpening db.repertoires id newID now opening })

/-- The handler `RepertoireHandler.UpdateOpening`; `openingId` is
`c.Param("openingId")`. -/
def RepertoireHandler.UpdateOpening (db : DB) (now : Time) (userIDStr id openingId : String)
    (body : Option AddOpeningRequest) : Response × DB :=
  match getUserID userIDStr with
  | none => (⟨StatusUnauthorized, .error "unauthorized"⟩, db)
  | some userID =>
    match parseObjectID id with
    | none => (⟨StatusBadRequest, .error "invalid repertoire ID"⟩, db)
    | some repertoireID =>
      match parseObjectID openingId with
      | none => (⟨StatusBadRequest, .error "invalid opening ID"⟩, db)
      | some openingID =>
        match RepertoireRepository.FindByIDAndUserID db.repertoires repertoireID userID with
        | none => (⟨StatusNotFound, .error "repertoire not found"⟩, db)
        | some _ =>
          match bindAddOpeningRequest body with
          | none => (⟨StatusBadRequest, .bindError⟩, db)
          | some req =>
            let opening : Opening :=
              { ID := openingID, Name := req.Name, ECO := req.ECO,
                StartingFEN := req.StartingFEN, Moves := req.Moves }
            (⟨StatusOK, .opening opening⟩,
              { db with repertoires :=
                          RepertoireRepository.UpdateOpening db.repertoires repertoireID
                            openingID now opening })

/-- The handler `RepertoireHandler.DeleteOpening`. -/
def RepertoireHandler.DeleteOpening (db : DB) (now : Time)
    (userIDStr id openingId : String) : Response × DB :=
  match getUserID userIDStr with
  | none => (⟨StatusUnauthorized, .error "unauthorized"⟩, db)
  | some userID =>
    match parseObjectID id with
    | none => (⟨StatusBadRequest, .error "invalid repertoire ID"⟩, db)
    | some repertoireID =>
      match parseObjectID openingId with
      | none => (⟨StatusBadRequest, .error "invalid opening ID"⟩, db)
      | some openingID =>
        match RepertoireRepository.FindByIDAndUserID db.repertoires repertoireID userID with
        | none => (⟨StatusNotFound, .error "repertoire not found"⟩, db)
        | some _ =>
          (⟨StatusOK, .message "opening deleted"⟩,
            { db with repertoires :=
                RepertoireRepository.DeleteOpening db.repertoires repertoireID openingID now })

/-! ## Well-formed collections and the properties stated below -/

/-- No two documents of the collection share an `_id` (MongoDB's unique index). -/
def uniqueIDs (collection : List PracticeSession) : Prop :=
  (collection.map (fun s => s.ID)).Nodup

instance decidableUniqueIDs (collection : List PracticeSession) :
    Decidable (uniqueIDs collection) := by
  unfold uniqueIDs; infer_instance

/-- The plies of the stored moves are `1, 2, ..., N` in sequence order. -/
def contiguousPlies (session : PracticeSession) : Prop :=
  session.Moves.map (fun m => m.Ply) = List.range' 1 session.Moves.length

instance decidableContiguousPlies (session : PracticeSession) :
    Decidable (contiguousPlies session) := by
  unfold contiguousPlies; infer_instance

/-- The invariant of the `practice_sessions` collection: identifiers are unique and
every session has contiguous plies. -/
def sessionsInv (collection : List PracticeSession) : Prop :=
  uniqueIDs collection ∧ ∀ s ∈ collection, contiguousPlies s

/-- The move `SubmitMove` records for a request when `k` moves are stored. -/
def recordedMove (k : Nat) (req : SubmitMoveRequest) : PracticeMove :=
  { Ply := k + 1, FENBefore := req.FENBefore, FENAfter := req.FENAfter,
    UserMove := req.UserMove, ExpectedMove := req.ExpectedMove, Category := req.Category,
    EvalBefore := req.EvalBefore, EvalAfter := req.EvalAfter,
    CentipawnLoss := req.CentipawnLoss }

/-- The moves recorded for a run of requests submitted when `k` moves are stored. -/
def recordedMoves : Nat → List SubmitMoveRequest → List PracticeMove
  | _, [] => []
  | k, req :: reqs => recordedMove k req :: recordedMoves (k + 1) reqs

/-- The session `PracticeHandler.Start` builds and `Create` completes. -/
def createdSession (newID : ObjectID) (now : Time) (userID repertoireID : ObjectID)
    (req : StartPracticeRequest) (repertoire : Repertoire) : PracticeSession :=
  { ID := newID, UserID := userID, RepertoireID := repertoireID,
    OpeningID := if req.OpeningID ≠ "" then (parseObjectID req.OpeningID).getD NilObjectID
      else NilObjectID,
    Mode := req.Mode, Color := repertoire.Color, StartedAt := now, EndedAt := none,
    Moves := [], Stats := {},
    Config := match req.Config with
      | none => defaultConfig
      | some config => config }

/-! ## Sample data -/

/-- The identifier `0x…a1` of a user, as the middleware stores it. -/
def aliceHex : String := "0000000000000000000000a1"

/-- The identifier `0x…b2` of another user. -/
def bobHex : String := "0000000000000000000000b2"

/-- The identifier `7` of a session, as it appears in a request path. -/
def sessionHex : String := "000000000000000000000007"

/-- A repertoire of the user `0x…a1` with identifier `0x…c3`. -/
def sampleRepertoire : Repertoire :=
  { ID := 195, UserID := 161, Name := "Main", Color := "white", Openings := [],
    CreatedAt := 0, UpdatedAt := 0 }

/-- A database holding the sample repertoire and no session. -/
def sampleDB : DB := { repertoires := [sampleRepertoire], practice_sessions := [] }

/-- A start request against the sample repertoire without opening and config. -/
def sampleStart : StartPracticeRequest :=
  { RepertoireID := "0000000000000000000000c3", OpeningID := "", Mode := "random",
    Config := none }

/-- A move request with the given category. -/
def sampleMove (category : String) : SubmitMoveRequest :=
  { FENBefore := "start", FENAfter := "after", UserMove := "e4", ExpectedMove := "e4",
    Category := category, EvalBefore := 0, EvalAfter := 0, CentipawnLoss := 0 }

/-- The sample session (identifier `7`, owner `0x…a1`) after it was ended at tick `5`. -/
def endedSession : PracticeSession :=
  { ID := 7, UserID := 161, RepertoireID := 195, OpeningID := NilObjectID, Mode := "random",
    Color := "white", StartedAt := 1, EndedAt := some 5, Moves := [], Stats := {},
    Config := defaultConfig }

/-- The sample database with the ended sample session. -/
def endedDB : DB := { repertoires := [sampleRepertoire], practice_sessions := [endedSession] }

/-- The sample session while active, with no move yet. -/
def activeSession : PracticeSession := { endedSession with EndedAt := none }

/-- The sample database with the active sample session. -/
def activeDB : DB := { repertoires := [sampleRepertoire], practice_sessions := [activeSession] }

/-- The sample session with a `book` move and a `best` move recorded. -/
def playedSession : PracticeSession :=
  { activeSession with
    Moves := [recordedMove 0 (sampleMove "book"), recordedMove 1 (sampleMove "best")] }

/-! ## Repertoires: well-formedness, move trees, sample data -/

/-- No two repertoires of the collection share an `_id` (MongoDB's unique index). -/
def uniqueRepertoireIDs (collection : List Repertoire) : Prop :=
  (collection.map (fun r => r.ID)).Nodup

instance decidableUniqueRepertoireIDs (collection : List Repertoire) :
    Decidable (uniqueRepertoireIDs collection) := by
  unfold uniqueRepertoireIDs; infer_instance

mutual
/-- Every child below this node has a FEN different from its parent's. -/
def MoveNode.fenDiffers : MoveNode → Bool
  | .mk fen _ _ _ _ children => MoveNode.childrenDiffer fen children
/-- Every node of the list has a FEN different from `parent` and, below it, every
child has a FEN different from its parent's. -/
def MoveNode.childrenDiffer (parent : String) : List MoveNode → Bool
  | [] => true
  | .mk fen move uci comment main children :: rest =>
    fen != parent && MoveNode.fenDiffers (.mk fen move uci comment main children)
      && MoveNode.childrenDiffer parent rest
end

/-- In every tree of the list each child's FEN differs from its parent's. -/
def fenDiffer (moves : List MoveNode) : Bool :=
  moves.all MoveNode.fenDiffers

/-- The opening `AddOpening` and `UpdateOpening` build from a request. -/
def openingOf (id : ObjectID) (req : AddOpeningRequest) : Opening :=
  { ID := id, Name := req.Name, ECO := req.ECO, StartingFEN := req.StartingFEN,
    Moves := req.Moves }

/-- The identifier `0x…c3` of the sample repertoire, as it appears in a path. -/
def repertoireHex : String := "0000000000000000000000c3"

/-- The identifier `9` of an opening, as it appears in a path. -/
def openingHex : String := "000000000000000000000009"

/-- A move tree whose only child repeats the FEN of its parent. -/
def repeatedFenTree : MoveNode :=
  .mk "fen1" "e4" "e2e4" "" true [.mk "fen1" "e5" "e7e5" "" true []]

/-- A request for an opening with a sound one-node tree. -/
def sampleOpening : AddOpeningRequest :=
  { Name := "Italian", ECO := "C50", StartingFEN := "start",
    Moves := [.mk "fen1" "e4" "e2e4" "" true []] }

/-- A request for an opening whose tree repeats a FEN from parent to child. -/
def repeatedFenOpening : AddOpeningRequest :=
  { Name := "Loop", ECO := "", StartingFEN := "start", Moves := [repeatedFenTree] }

/-- The sample repertoire holding the opening `9` built from `sampleOpening`. -/
def stockedRepertoire : Repertoire :=
  { sampleRepertoire with Openings := [openingOf 9 sampleOpening], UpdatedAt := 2 }

/-- A database holding the stocked sample repertoire and the active sample session. -/
def stockedDB : DB :=
  { repertoires := [stockedRepertoire], practice_sessions := [activeSession] }

/-! ## Labels the statistics know -/

/-- The categories `calculateStats` has a `case` for. -/
def knownLabels : List String :=
  ["repertoire", "book", "best", "good", "inaccuracy", "mistake", "blunder"]

/-- The six counters of a `PracticeStats` added up. -/
def counterSum (stats : PracticeStats) : Nat :=
  stats.BookMoves + stats.BestMoves + stats.GoodMoves + stats.Inaccuracies + stats.Mistakes
    + stats.Blunders

/-- A bare move with the given category. -/
def sampleRecorded (category : String) : PracticeMove :=
  recordedMove 0 (sampleMove category)

/-- The sample start request with an opening identifier that is no object ID. -/
def malformedOpeningStart : StartPracticeRequest :=
  { sampleStart with OpeningID := "not-an-object-id" }

/-- The sample start request with a repertoire identifier that is no object ID. -/
def malformedRepertoireStart : StartPracticeRequest :=
  { sampleStart with RepertoireID := "not-an-object-id" }

/-! ## Ended sessions -/

/-- Every session with an end time carries the stats of its moves. -/
def endedInv (collection : List PracticeSession) : Prop :=
  ∀ s ∈ collection, s.EndedAt ≠ none → s.Stats = calculateStats s.Moves

/-- The collection still holds a session with the identifier of `session`, and
every session with that identifier has the moves and stats of `session` and an
end time. -/
def frozenIn (session : PracticeSession) (collection : List PracticeSession) : Prop :=
  (∃ stored ∈ collection, stored.ID = session.ID) ∧
  ∀ stored ∈ collection, stored.ID = session.ID →
    stored.Moves = session.Moves ∧ stored.Stats = session.Stats ∧ stored.EndedAt ≠ none

/-- The sample session with two moves, ended at tick `5`. -/
def finishedSession : PracticeSession :=
  { playedSession with EndedAt := some 5, Stats := calculateStats playedSession.Moves }

/-! ## Sequences of repertoire requests -/

/-- One request to the repertoire API, with the values its handler reads from the
outside world. -/
inductive RepertoireCall where
  | list (userIDStr : String)
  | create (newID : ObjectID) (createdAt updatedAt : Time) (userIDStr : String)
      (body : Option CreateRepertoireRequest)
  | get (userIDStr id : String)
  | update (now : Time) (userIDStr id : String) (body : Option CreateRepertoireRequest)
  | delete (userIDStr id : String)
  | addOpening (newID : ObjectID) (now : Time) (userIDStr id : String)
      (body : Option AddOpeningRequest)
  | updateOpening (now : Time) (userIDStr id openingId : String)
      (body : Option AddOpeningRequest)
  | deleteOpening (now : Time) (userIDStr id openingId : String)

/-- Serves one repertoire request. -/
def RepertoireCall.serve (db : DB) : RepertoireCall → Response × DB
  | .list userIDStr => RepertoireHandler.List db userIDStr
  | .create newID createdAt updatedAt userIDStr body =>
    RepertoireHandler.Create db newID createdAt updatedAt userIDStr body
  | .get userIDStr id => RepertoireHandler.Get db userIDStr id
  | .update now userIDStr id body => RepertoireHandler.Update db now userIDStr id body
  | .delete userIDStr id => RepertoireHandler.Delete db userIDStr id
  | .addOpening newID now userIDStr id body =>
    RepertoireHandler.AddOpening db newID now userIDStr id body
  | .updateOpening now userIDStr id openingId body =>
    RepertoireHandler.UpdateOpening db now userIDStr id openingId body
  | .deleteOpening now userIDStr id openingId =>
    RepertoireHandler.DeleteOpening db now userIDStr id openingId

/-- Serves repertoire requests one after another and returns the database. -/
def serveRepertoireCalls (db : DB) (calls : List RepertoireCall) : DB :=
  calls.foldl (fun db call => (call.serve db).2) db

/-- The identifier `primitive.NewObjectID()` hands to a `Create` is new: no
repertoire of the collection `initial` carries it. -/
def RepertoireCall.freshFor (initial : List Repertoire) : RepertoireCall → Prop
  | .create newID _ _ _ _ => ∀ r ∈ initial, r.ID ≠ newID
  | _ => True

/-- Every repertoire of `current` whose identifier is that of a repertoire of
`initial` has the owner that repertoire has. -/
def ownersKept (initial current : List Repertoire) : Prop :=
  ∀ r' ∈ current, ∀ r ∈ initial, r'.ID = r.ID → r'.UserID = r.UserID

/-- A request for a repertoire named `Sicilian` played with black. -/
def sampleRename : CreateRepertoireRequest := { Name := "Sicilian", Color := "black" }

/-! ## Tokens (`services/auth_service.go`) -/

/-- The struct `services.Claims`, with the fields of `jwt.RegisteredClaims` the
service fills in; `TokenType` is the field `Type` of the source. -/
structure Claims where
  UserID : String
  Email : String
  TokenType : String
  ExpiresAt : Option Time
  IssuedAt : Option Time
  Subject : String
  deriving DecidableEq

/-- The library `github.com/golang-jwt/jwt/v5` as the service uses it:
`SignedString key claims` is the HS256 token of the claims (`none` on error),
`ParseWithClaims key now token` gives the claims of a token that is well formed,
signed with an HMAC method under `key` and valid at time `now`. -/
structure JWT where
  SignedString : String → Claims → Option String
  ParseWithClaims : String → Time → String → Option Claims

/-- The struct `services.AuthService`; durations are in clock ticks. -/
structure AuthService where
  jwtSecret : String
  accessExpiry : Nat
  refreshExpiry : Nat

/-- The claims `accessClaims` built in `GenerateTokenPair`. -/
def AuthService.accessClaims (s : AuthService) (now : Time) (userID email : String) : Claims :=
  { UserID := userID, Email := email, TokenType := "", ExpiresAt := some (now + s.accessExpiry),
    IssuedAt := some now, Subject := userID }

/-- The claims `refreshClaims` built in `GenerateTokenPair`: the literal sets
`UserID`, `Type` and the registered claims, and no `Email`. -/
def AuthService.refreshClaims (s : AuthService) (now : Time) (userID : String) : Claims :=
  { UserID := userID, Email := "", TokenType := "refresh",
    ExpiresAt := some (now + s.refreshExpiry), IssuedAt := some now, Subject := userID }

/-- The method `AuthService.GenerateTokenPair`; `now` is its `time.Now()`. -/
def AuthService.GenerateTokenPair (s : AuthService) (jwt : JWT) (now : Time)
    (userID email : String) : Option (String × String) :=
  match jwt.SignedString s.jwtSecret (s.accessClaims now userID email) with
  | none => none
  | some accessToken =>
    match jwt.SignedString s.jwtSecret (s.refreshClaims now userID) with
    | none => none
    | some refreshToken => some (accessToken, refreshToken)

/-- The method `AuthService.ValidateToken`; `now` is the time of the check. -/
def AuthService.ValidateToken (s : AuthService) (jwt : JWT) (now : Time)
    (tokenString : String) : Option Claims :=
  jwt.ParseWithClaims s.jwtSecret now tokenString

/-- The method `AuthService.ValidateRefreshToken`. -/
def AuthService.ValidateRefreshToken (s : AuthService) (jwt : JWT) (now : Time)
    (tokenString : String) : Option Claims :=
  match s.ValidateToken jwt now tokenString with
  | none => none
  | some claims => if claims.TokenType ≠ "refresh" then none else some claims

/-! ## Users and the refresh handler (`user_repo.go`, `handlers/auth.go`) -/

/-- One lower-case hexadecimal digit. -/
def hexDigit (n : Nat) : Char :=
  if n < 10 then Char.ofNat ('0'.toNat + n) else Char.ofNat ('a'.toNat + (n - 10))

/-- The method `ObjectID.Hex`: the twelve bytes as 24 hexadecimal digits. -/
def ObjectID.Hex (id : ObjectID) : String :=
  String.mk ((List.range 24).reverse.map fun i => hexDigit (id / 16 ^ i % 16))

/-- The method `UserRepository.FindByEmail`. -/
def UserRepository.FindByEmail (collection : List User) (email : String) : Option User :=
  collection.find? (fun u => u.Email == email)

/-- The call `c.ShouldBindJSON(&req)` for a `RefreshRequest`: a non-empty
`refresh_token`. -/
def bindRefreshRequest (body : Option RefreshRequest) : Option RefreshRequest :=
  match body with
  | none => none
  | some req => if req.RefreshToken ≠ "" then some req else none

/-- The handler `AuthHandler.Refresh`. `validateNow` is the time at which the
token is checked, `generateNow` the `time.Now()` of `GenerateTokenPair`. -/
def AuthHandler.Refresh (db : DB) (s : AuthService) (jwt : JWT)
    (validateNow generateNow : Time) (body : Option RefreshRequest) : Response × DB :=
  match bindRefreshRequest body with
  | none => (⟨StatusBadRequest, .bindError⟩, db)
  | some req =>
    match s.ValidateRefreshToken jwt validateNow req.RefreshToken with
    | none => (⟨StatusUnauthorized, .error "invalid refresh token"⟩, db)
    | some claims =>
      match UserRepository.FindByEmail db.users claims.Email with
      | none => (⟨StatusUnauthorized, .error "user not found"⟩, db)
      | some user =>
        match s.GenerateTokenPair jwt generateNow (ObjectID.Hex user.ID) user.Email with
        | none => (⟨StatusInternalServerError, .error "failed to generate tokens"⟩, db)
        | some (accessToken, refreshToken) =>
          (⟨StatusOK, .auth { AccessToken := accessToken, RefreshToken := refreshToken,
                              User := user }⟩, db)

/-- A service with the secret `secret`, fifteen ticks for access tokens and a
hundred for refresh tokens. -/
def sampleAuth : AuthService := { jwtSecret := "secret", accessExpiry := 15, refreshExpiry := 100 }

/-- A stand-in for the token library: a token spells out the claims it carries,
and parsing knows the refresh token issued to the sample user at tick `1`. -/
def sampleJWT : JWT :=
  { SignedString := fun key claims =>
      some (key ++ "." ++ claims.UserID ++ "." ++ claims.Email ++ "." ++ claims.TokenType),
    ParseWithClaims := fun key _ token =>
      if key = "secret" ∧ token = "secret.0000000000000000000000a1..refresh" then
        some (sampleAuth.refreshClaims 1 aliceHex)
      else none }

/-- The user `0x…a1`, registered with an e-mail address. -/
def sampleUser : User :=
  { ID := 161, Email := "alice@example.org", PasswordHash := "hash", Username := "alice",
    Preferences := { BoardTheme := "default", PieceSet := "cburnett",
                     BoardOrientation := "white" },
    CreatedAt := 0, UpdatedAt := 0 }

/-- The sample database with the sample user. -/
def userDB : DB :=
  { repertoires := [sampleRepertoire], practice_sessions := [], users := [sampleUser] }

/-- Seven `book` moves and eighteen `blunder` moves. -/
def sevenOfTwentyFive : List PracticeMove :=
  List.replicate 7 (recordedMove 0 (sampleMove "book"))
    ++ List.replicate 18 (recordedMove 0 (sampleMove "blunder"))

/-! ## Two `SubmitMove` requests at the same time -/

/-- How far a `SubmitMove` request has got: not started, between its read of the
session (`FindByIDAndUserID`) and its write (`AddMove`), or answered. -/
inductive CallState where
  | idle
  | pending (sessionID : ObjectID) (move : PracticeMove)
  | done (response : Response)
  deriving DecidableEq

/-- The handler `PracticeHandler.SubmitMove` up to the construction of `move`: it
reads the database; either it answers at once or it has a move to hand to
`AddMove`. -/
def PracticeHandler.SubmitMove.read (db : DB) (userIDStr sessionId : String)
    (body : Option SubmitMoveRequest) : CallState :=
  match getUserID userIDStr with
  | none => .done ⟨StatusUnauthorized, .error "unauthorized"⟩
  | some userID =>
    match parseObjectID sessionId with
    | none => .done ⟨StatusBadRequest, .error "invalid session ID"⟩
    | some sessionID =>
      match PracticeRepository.FindByIDAndUserID db.practice_sessions sessionID userID with
      | none => .done ⟨StatusNotFound, .error "session not found"⟩
      | some session =>
        if session.EndedAt ≠ none then
          .done ⟨StatusBadRequest, .error "session already ended"⟩
        else
          match bindSubmitMoveRequest body with
          | none => .done ⟨StatusBadRequest, .bindError⟩
          | some req =>
            .pending sessionID
              { Ply := session.Moves.length + 1, FENBefore := req.FENBefore,
                FENAfter := req.FENAfter, UserMove := req.UserMove,
                ExpectedMove := req.ExpectedMove, Category := req.Category,
                EvalBefore := req.EvalBefore, EvalAfter := req.EvalAfter,
                CentipawnLoss := req.CentipawnLoss }

/-- The rest of `PracticeHandler.SubmitMove`: `AddMove`, a `$push` that the
database applies to the document as it is then, and the answer. -/
def PracticeHandler.SubmitMove.write (db : DB) (sessionID : ObjectID) (move : PracticeMove) :
    Response × DB :=
  (⟨StatusOK, .move move⟩,
    { db with practice_sessions :=
        PracticeRepository.AddMove db.practice_sessions sessionID move })

/-- A `SubmitMove` request. -/
structure SubmitCall where
  userIDStr : String
  sessionId : String
  body : Option SubmitMoveRequest

/-- One step of a request: an idle request reads, a pending one writes and
answers, an answered one does nothing more. -/
def SubmitCall.step (call : SubmitCall) (db : DB) : CallState → CallState × DB
  | .idle => (PracticeHandler.SubmitMove.read db call.userIDStr call.sessionId call.body, db)
  | .pending sessionID move =>
    ((CallState.done (PracticeHandler.SubmitMove.write db sessionID move).1),
      (PracticeHandler.SubmitMove.write db sessionID move).2)
  | .done response => (.done response, db)

/-- Two requests in flight over one database. -/
structure Race where
  db : DB
  first : CallState
  second : CallState

/-- The scheduler lets one of the two requests take its next step. -/
def Race.step (a b : SubmitCall) (race : Race) (pickSecond : Bool) : Race :=
  if pickSecond then
    { race with db := (b.step race.db race.second).2, second := (b.step race.db race.second).1 }
  else
    { race with db := (a.step race.db race.first).2, first := (a.step race.db race.first).1 }

/-- Runs two requests under a schedule: `false` lets the first take a step, `true`
the second. Every interleaving of their reads and writes is some schedule. -/
def runRace (a b : SubmitCall) (schedule : List Bool) (race : Race) : Race :=
  schedule.foldl (Race.step a b) race

/-- The move a request has written so far. -/
def CallState.written : CallState → List PracticeMove
  | .done ⟨_, .move move⟩ => [move]
  | _ => []

/-- The number of steps a request has taken, up to the two it needs. -/
def CallState.rank : CallState → Nat
  | .idle => 0
  | .pending _ _ => 1
  | .done _ => 2

/-- The request is on its way to record `req` in the session `sessionID`. -/
def CallState.carries (req : SubmitMoveRequest) (sessionID : ObjectID) : CallState → Prop
  | .idle => True
  | .pending id move => id = sessionID ∧ ∃ k, move = recordedMove k req
  | .done response => ∃ k, response = ⟨200, .move (recordedMove k req)⟩

/-- What holds all along a race of two owner requests on the active `session`:
the stored session is `session` plus the moves written so far, in the order of
the writes. -/
def raceInv (session : PracticeSession) (sessionID userID : ObjectID)
    (reqA reqB : SubmitMoveRequest) (race : Race) : Prop :=
  uniqueIDs race.db.practice_sessions ∧
  race.first.carries reqA sessionID ∧ race.second.carries reqB sessionID ∧
  ∃ extra : List PracticeMove,
    PracticeRepository.FindByIDAndUserID race.db.practice_sessions sessionID userID =
      some { session with Moves := session.Moves ++ extra } ∧
    (extra = race.first.written ++ race.second.written ∨
      extra = race.second.written ++ race.first.written)

/-- The owner's request to record a `book` move in the sample session. -/
def bookCall : SubmitCall :=
  { userIDStr := aliceHex, sessionId := sessionHex, body := some (sampleMove "book") }

/-- The owner's request to record a `best` move in the sample session. -/
def bestCall : SubmitCall :=
  { userIDStr := aliceHex, sessionId := sessionHex, body := some (sampleMove "best") }

/-! ## The statistics in closed form -/

theorem labelled_nil (labels : List String) : labelled labels [] = 0 := rfl

theorem labelled_cons (labels : List String) (move : PracticeMove)
    (moves : List PracticeMove) :
    labelled labels (move :: moves) =
      labelled labels moves + if move.Category ∈ labels then 1 else 0 := by
  simp [labelled, List.countP_cons]

/-- One iteration of the loop adds one to the counter whose labels the move
carries, if any. -/
theorem countMove_eq (stats : PracticeStats) (move : PracticeMove) :
    countMove stats move =
      { TotalMoves := stats.TotalMoves,
        BookMoves := stats.BookMoves + labelled ["book", "repertoire"] [move],
        BestMoves := stats.BestMoves + labelled ["best"] [move],
        GoodMoves := stats.GoodMoves + labelled ["good"] [move],
        Inaccuracies := stats.Inaccuracies + labelled ["inaccuracy"] [move],
        Mistakes := stats.Mistakes + labelled ["mistake"] [move],
        Blunders := stats.Blunders + labelled ["blunder"] [move],
        AccuracyPercentage := stats.AccuracyPercentage } := by
  unfold countMove
  simp only [labelled_cons, labelled_nil]
  by_cases h1 : move.Category = "repertoire"
  · simp [h1]
  by_cases h2 : move.Category = "mistake"
  · simp [h2]
  by_cases h3 : move.Category = "book"
  · simp [h3]
  by_cases h4 : move.Category = "best"
  · simp [h4]
  by_cases h5 : move.Category = "good"
  · simp [h5]
  by_cases h6 : move.Category = "inaccuracy"
  · simp [h6]
  by_cases h7 : move.Category = "blunder"
  · simp [h7]
  simp [h1, h2, h3, h4, h5, h6, h7]

/-- The loop of `calculateStats` adds to each counter the number of moves that
carry its labels and touches nothing else. -/
theorem foldl_countMove (moves : List PracticeMove) (stats : PracticeStats) :
    moves.foldl countMove stats =
      { TotalMoves := stats.TotalMoves,
        BookMoves := stats.BookMoves + labelled ["book", "repertoire"] moves,
        BestMoves := stats.BestMoves + labelled ["best"] moves,
        GoodMoves := stats.GoodMoves + labelled ["good"] moves,
        Inaccuracies := stats.Inaccuracies + labelled ["inaccuracy"] moves,
        Mistakes := stats.Mistakes + labelled ["mistake"] moves,
        Blunders := stats.Blunders + labelled ["blunder"] moves,
        AccuracyPercentage := stats.AccuracyPercentage } := by
  induction moves generalizing stats with
  | nil => simp [labelled_nil]
  | cons move moves ih =>
    rw [List.foldl_cons, ih, countMove_eq]
    simp only [labelled_cons, labelled_nil]
    simp only [PracticeStats.mk.injEq, true_and, and_true]
    refine ⟨?_, ?_, ?_, ?_, ?_, ?_⟩ <;> omega

theorem foldl_countMove_init (moves : List PracticeMove) :
    moves.foldl countMove { TotalMoves := moves.length } = counters moves := by
  rw [foldl_countMove]; simp [counters]

/-- The result of `calculateStats` in closed form. -/
theorem calculateStats_eq (moves : List PracticeMove) :
    calculateStats moves =
      if moves.length > 0 then
        { counters moves with
          AccuracyPercentage :=
            Float64.ofNat (labelled ["book", "repertoire"] moves + labelled ["best"] moves
              + labelled ["good"] moves) / Float64.ofNat moves.length * 100 }
      else counters moves := by
  unfold calculateStats
  simp only [foldl_countMove_init]
  rfl

theorem labelled_map (labels : List String) (f : PracticeMove → PracticeMove)
    (moves : List PracticeMove)
    (h : ∀ move, (f move).Category ∈ labels ↔ move.Category ∈ labels) :
    labelled labels (moves.map f) = labelled labels moves := by
  induction moves with
  | nil => rfl
  | cons move moves ih => simp only [List.map_cons, labelled_cons, ih, h]

theorem counters_map (f : PracticeMove → PracticeMove) (moves : List PracticeMove)
    (h : ∀ labels ∈ [["book", "repertoire"], ["best"], ["good"], ["inaccuracy"], ["mistake"],
      ["blunder"]], ∀ move, (f move).Category ∈ labels ↔ move.Category ∈ labels) :
    calculateStats (moves.map f) = calculateStats moves := by
  simp only [calculateStats_eq, counters, List.length_map]
  rw [labelled_map _ f moves (h _ (by simp)), labelled_map _ f moves (h _ (by simp)),
    labelled_map _ f moves (h _ (by simp)), labelled_map _ f moves (h _ (by simp)),
    labelled_map _ f moves (h _ (by simp)), labelled_map _ f moves (h _ (by simp))]

/-! ## Statistics: the counters (C3), the two vocabularies (C4), the accuracy (C5) -/

/-- C3: for every list of moves, `calculateStats` returns the length of the list
as `TotalMoves`, the number of moves labelled `book` or `repertoire` as `BookMoves`,
and the number of moves labelled `best`, `good`, `inaccuracy`, `mistake`, `blunder`
as `BestMoves`, `GoodMoves`, `Inaccuracies`, `Mistakes`, `Blunders`. -/
theorem calculateStats_counters (moves : List PracticeMove) :
    (calculateStats moves).TotalMoves = moves.length ∧
    (calculateStats moves).BookMoves =
      moves.countP (fun m => decide (m.Category = "book" ∨ m.Category = "repertoire")) ∧
    (calculateStats moves).BestMoves = moves.countP (fun m => decide (m.Category = "best")) ∧
    (calculateStats moves).GoodMoves = moves.countP (fun m => decide (m.Category = "good")) ∧
    (calculateStats moves).Inaccuracies =
      moves.countP (fun m => decide (m.Category = "inaccuracy")) ∧
    (calculateStats moves).Mistakes =
      moves.countP (fun m => decide (m.Category = "mistake")) ∧
    (calculateStats moves).Blunders =
      moves.countP (fun m => decide (m.Category = "blunder")) := by
  rw [calculateStats_eq]
  split_ifs <;> simp [counters, labelled]

/-- C4: renaming `repertoire` to `book` in every move, or `book` to `repertoire`,
leaves the whole result of `calculateStats` (counters and accuracy) as it was. -/
theorem calculateStats_relabel (moves : List PracticeMove) :
    calculateStats (moves.map (relabel "repertoire" "book")) = calculateStats moves ∧
    calculateStats (moves.map (relabel "book" "repertoire")) = calculateStats moves := by
  constructor
  · apply counters_map
    intro labels hl move
    by_cases h : move.Category = "repertoire"
    · simp only [List.mem_cons, List.mem_singleton, List.not_mem_nil, or_false] at hl
      rcases hl with rfl | rfl | rfl | rfl | rfl | rfl <;> simp [relabel, h]
    · simp [relabel, h]
  · apply counters_map
    intro labels hl move
    by_cases h : move.Category = "book"
    · simp only [List.mem_cons, List.mem_singleton, List.not_mem_nil, or_false] at hl
      rcases hl with rfl | rfl | rfl | rfl | rfl | rfl <;> simp [relabel, h]
    · simp [relabel, h]

/-! ## Binary64: the divisor of the accuracy is not zero -/

theorem bitLog_one (fuel : Nat) : bitLog fuel 1 = 0 := by
  cases fuel <;> simp [bitLog]

theorem bitLog_pow_le (fuel n : Nat) (hn : 1 ≤ n) : 2 ^ bitLog fuel n ≤ n := by
  induction fuel generalizing n with
  | zero => simpa [bitLog] using hn
  | succ fuel ih =>
    unfold bitLog
    by_cases h2 : n ≥ 2
    · rw [if_pos h2, pow_succ]
      have := ih (n / 2) (by omega)
      omega
    · rw [if_neg h2]; simpa using hn

theorem roundQuotient_ge (n den : Nat) : n / den ≤ Float64.roundQuotient n den := by
  unfold Float64.roundQuotient
  simp only
  split_ifs <;> omega

theorem pack_mant (q : Nat) (s e : Int) (h : Float64.pack q s = .finite 0 e) : q = 0 := by
  unfold Float64.pack at h
  simp only at h
  split_ifs at h with h1 h2 <;> simp at h
  exact h.1

theorem spacing_ofNat (n : Nat) (hn : 1 ≤ n) :
    Float64.spacing n 1 0 = (bitLog n n : Int) - 52 := by
  have hpow := bitLog_pow_le n n hn
  unfold Float64.spacing
  simp only [bitLog_one, Nat.cast_zero, sub_zero, Nat.cast_nonneg, if_true, Int.toNat_ofNat,
    one_mul, ge_iff_le, hpow, decide_True, add_zero]
  omega

/-- The conversion of a positive integer never gives a float that is zero. -/
theorem ofNat_ne_zero (n : Nat) (hn : 0 < n) (e : Int) : Float64.ofNat n ≠ .finite 0 e := by
  intro h
  have hpow := bitLog_pow_le n n hn
  unfold Float64.ofNat at h
  rw [if_neg (by omega)] at h
  unfold Float64.round at h
  simp only [spacing_ofNat n hn, zero_sub, neg_sub, one_mul] at h
  have hq := pack_mant _ _ _ h
  by_cases hL : bitLog n n ≤ 52
  · have ht : (52 : Int) - (bitLog n n : Int) ≥ 0 := by omega
    simp only [ht, if_true] at hq
    have hge := roundQuotient_ge (n * 2 ^ ((52 : Int) - (bitLog n n : Int)).toNat) 1
    rw [hq, Nat.div_one] at hge
    have : 0 < n * 2 ^ ((52 : Int) - (bitLog n n : Int)).toNat := by positivity
    omega
  · have ht : ¬ ((52 : Int) - (bitLog n n : Int) ≥ 0) := by omega
    simp only [ht, if_false] at hq
    have hge := roundQuotient_ge n (2 ^ ((bitLog n n : Int) - 52).toNat)
    rw [hq] at hge
    have hexp : ((bitLog n n : Int) - 52).toNat ≤ bitLog n n := by omega
    have hle : 2 ^ ((bitLog n n : Int) - 52).toNat ≤ n :=
      le_trans (Nat.pow_le_pow_right (by norm_num) hexp) hpow
    have : 0 < n / 2 ^ ((bitLog n n : Int) - 52).toNat :=
      Nat.div_pos hle (by positivity)
    omega

/-! ## Statistics: the accuracy (C5) -/

set_option maxRecDepth 10000 in
/-- C5 (counterexample): for seven `book` moves among twenty-five the exact value of
`(BookMoves + BestMoves + GoodMoves) / TotalMoves × 100` is `28`, a float, and yet
`calculateStats` returns the next float above it, `28.000000000000004`: the
quotient `7 / 25` is rounded before it is multiplied by `100`. -/
theorem accuracy_not_exact :
    (calculateStats sevenOfTwentyFive).AccuracyPercentage =
      .finite 7881299347898369 (-48) ∧
    (calculateStats sevenOfTwentyFive).AccuracyPercentage.toRat ≠
      some ((((calculateStats sevenOfTwentyFive).BookMoves
              + (calculateStats sevenOfTwentyFive).BestMoves
              + (calculateStats sevenOfTwentyFive).GoodMoves : Nat) : ℚ)
            / ((calculateStats sevenOfTwentyFive).TotalMoves : ℚ) * 100) := by
  have hacc : (calculateStats sevenOfTwentyFive).AccuracyPercentage =
      .finite 7881299347898369 (-48) := by rfl
  have hbook : (calculateStats sevenOfTwentyFive).BookMoves = 7 := by rfl
  have hbest : (calculateStats sevenOfTwentyFive).BestMoves = 0 := by rfl
  have hgood : (calculateStats sevenOfTwentyFive).GoodMoves = 0 := by rfl
  have htotal : (calculateStats sevenOfTwentyFive).TotalMoves = 25 := by rfl
  refine ⟨hacc, ?_⟩
  rw [hacc, hbook, hbest, hgood, htotal]
  simp [Float64.toRat]
  norm_num

/-- C5 (amended): the accuracy returned by `calculateStats` is the `float64` value
of `float64(BookMoves + BestMoves + GoodMoves) / float64(TotalMoves) * 100`, each
operation rounded, for a non-empty list, where the divisor is never a zero; it is
`0` for the empty list, whose result has total `0` and every counter `0`, and no
division takes place there (`0 / 0 * 100` would be `NaN`). -/
theorem calculateStats_accuracy (moves : List PracticeMove) :
    (calculateStats moves).AccuracyPercentage =
      (if moves = [] then 0
       else Float64.ofNat ((calculateStats moves).BookMoves + (calculateStats moves).BestMoves
              + (calculateStats moves).GoodMoves)
            / Float64.ofNat (calculateStats moves).TotalMoves * 100) ∧
    (moves ≠ [] → ∀ e : Int,
      Float64.ofNat (calculateStats moves).TotalMoves ≠ .finite 0 e) ∧
    calculateStats [] =
      { TotalMoves := 0, BookMoves := 0, BestMoves := 0, GoodMoves := 0, Inaccuracies := 0,
        Mistakes := 0, Blunders := 0, AccuracyPercentage := 0 } ∧
    Float64.ofNat 0 / Float64.ofNat 0 * 100 = Float64.nan := by
  refine ⟨?_, ?_, rfl, rfl⟩
  · rw [calculateStats_eq]
    cases moves with
    | nil => rfl
    | cons move moves => simp [counters]
  · intro hne e
    have hlen : 0 < moves.length := List.length_pos.2 hne
    have htotal : (calculateStats moves).TotalMoves = moves.length := by
      rw [calculateStats_eq]; split_ifs <;> rfl
    rw [htotal]
    exact ofNat_ne_zero moves.length hlen e

theorem calculateStats_accuracy_witness :
    Float64.ofNat (calculateStats [recordedMove 0 (sampleMove "book")]).TotalMoves
      ≠ .finite 0 (-1074) :=
  (calculateStats_accuracy [recordedMove 0 (sampleMove "book")]).2.1 (by simp) (-1074)


/-! ## The collection primitives -/

theorem find_some {collection : List PracticeSession} {id userID : ObjectID}
    {session : PracticeSession}
    (h : PracticeRepository.FindByIDAndUserID collection id userID = some session) :
    session ∈ collection ∧ session.ID = id ∧ session.UserID = userID := by
  unfold PracticeRepository.FindByIDAndUserID at h
  have hp := List.find?_some h
  have hm := List.mem_of_find?_eq_some h
  simp only [Bool.and_eq_true, beq_iff_eq] at hp
  exact ⟨hm, hp.1, hp.2⟩

theorem eq_of_uniqueIDs {collection : List PracticeSession} (hu : uniqueIDs collection)
    {s t : PracticeSession} (hs : s ∈ collection) (ht : t ∈ collection) (h : s.ID = t.ID) :
    s = t :=
  List.inj_on_of_nodup_map hu hs ht h

/-- On a collection with unique identifiers `UpdateOne` filtered by `_id` rewrites
every document carrying the identifier (there is at most one). -/
theorem updateOne_eq_map {collection : List PracticeSession} (hu : uniqueIDs collection)
    (id : ObjectID) (f : PracticeSession → PracticeSession) :
    updateOne (fun s => s.ID == id) f collection =
      collection.map (fun s => if s.ID = id then f s else s) := by
  induction collection with
  | nil => rfl
  | cons d ds ih =>
    have hnd : (d.ID :: ds.map (fun s => s.ID)).Nodup := hu
    rw [List.nodup_cons] at hnd
    by_cases hd : d.ID = id
    · have hrest : ds.map (fun s => if s.ID = id then f s else s) = ds := by
        have : ∀ s ∈ ds, (if s.ID = id then f s else s) = s := by
          intro s hs
          have hne : s.ID ≠ id := by
            intro hc
            exact hnd.1 (List.mem_map.2 ⟨s, hs, by rw [hc, hd]⟩)
          simp [hne]
        rw [List.map_congr_left this]; simp
      simp [updateOne, hd, hrest]
    · have := ih hnd.2
      simp [updateOne, hd, this]

theorem uniqueIDs_map {collection : List PracticeSession} (hu : uniqueIDs collection)
    (g : PracticeSession → PracticeSession) (hg : ∀ s, (g s).ID = s.ID) :
    uniqueIDs (collection.map g) := by
  unfold uniqueIDs at *
  rw [List.map_map]
  have : ((fun s : PracticeSession => s.ID) ∘ g) = fun s => s.ID := by
    funext s; exact hg s
  rw [this]; exact hu

theorem find_map {collection : List PracticeSession} {id userID : ObjectID}
    {session : PracticeSession} (g : PracticeSession → PracticeSession)
    (hid : ∀ s, (g s).ID = s.ID) (huser : ∀ s, (g s).UserID = s.UserID)
    (h : PracticeRepository.FindByIDAndUserID collection id userID = some session) :
    PracticeRepository.FindByIDAndUserID (collection.map g) id userID = some (g session) := by
  unfold PracticeRepository.FindByIDAndUserID at *
  rw [List.find?_map]
  have : ((fun s : PracticeSession => s.ID == id && s.UserID == userID) ∘ g) =
      fun s => s.ID == id && s.UserID == userID := by
    funext s; simp [hid, huser]
  rw [this, h]; rfl

/-- On a collection with unique identifiers, `UpdateOne` filtered by the `_id` of a
document found by identifier and owner rewrites that document and no other. -/
theorem updateOne_found {collection : List PracticeSession} (hwf : uniqueIDs collection)
    {id userID : ObjectID} {session : PracticeSession}
    (hf : PracticeRepository.FindByIDAndUserID collection id userID = some session)
    (f : PracticeSession → PracticeSession) :
    updateOne (fun s => s.ID == id) f collection =
      collection.map (fun s => if s = session then f session else s) := by
  obtain ⟨hmem, hid, -⟩ := find_some hf
  rw [updateOne_eq_map hwf]
  apply List.map_congr_left
  intro s hsmem
  by_cases hsid : s.ID = id
  · have : s = session := eq_of_uniqueIDs hwf hsmem hmem (by rw [hsid, hid])
    simp [this, hid]
  · have : s ≠ session := by
      intro hc; exact hsid (by rw [hc, hid])
    simp [hsid, this]

/-- The document found by identifier and owner after such a rewrite, when the
rewrite keeps identifier and owner. -/
theorem find_rewritten {collection : List PracticeSession} {id userID : ObjectID}
    {session : PracticeSession}
    (hf : PracticeRepository.FindByIDAndUserID collection id userID = some session)
    (f : PracticeSession → PracticeSession)
    (hid : (f session).ID = session.ID) (huser : (f session).UserID = session.UserID) :
    PracticeRepository.FindByIDAndUserID
      (collection.map (fun s => if s = session then f session else s)) id userID
      = some (f session) := by
  have h := find_map (fun s => if s = session then f session else s)
    (by intro s; by_cases h : s = session <;> simp [h, hid])
    (by intro s; by_cases h : s = session <;> simp [h, huser]) hf
  rw [h]; simp

theorem uniqueIDs_rewritten {collection : List PracticeSession} (hwf : uniqueIDs collection)
    (session : PracticeSession) (f : PracticeSession → PracticeSession)
    (hid : (f session).ID = session.ID) :
    uniqueIDs (collection.map (fun s => if s = session then f session else s)) :=
  uniqueIDs_map hwf _ (by intro s; by_cases h : s = session <;> simp [h, hid])

/-! ## The handlers on their success paths -/

theorem Start_eq (db : DB) (newID : ObjectID) (now : Time) (userIDStr : String)
    (body : Option StartPracticeRequest) {userID repertoireID : ObjectID}
    {req : StartPracticeRequest} {repertoire : Repertoire}
    (hu : getUserID userIDStr = some userID)
    (hb : bindStartPracticeRequest body = some req)
    (hr : parseObjectID req.RepertoireID = some repertoireID)
    (hf : RepertoireRepository.FindByIDAndUserID db.repertoires repertoireID userID
      = some repertoire)
    (hnew : ∀ s ∈ db.practice_sessions, s.ID ≠ newID) :
    PracticeHandler.Start db newID now userIDStr body =
      (⟨StatusCreated, .session (createdSession newID now userID repertoireID req repertoire)⟩,
        { db with practice_sessions := db.practice_sessions ++
            [createdSession newID now userID repertoireID req repertoire] }) := by
  have hany : (db.practice_sessions.any fun s => s.ID == newID) = false := by
    rw [Bool.eq_false_iff]
    intro h
    obtain ⟨s, hs, he⟩ := List.any_eq_true.1 h
    exact hnew s hs (by simpa using he)
  unfold PracticeHandler.Start
  simp only [hu, hb, hr, hf, PracticeRepository.Create]
  by_cases ho : req.OpeningID = ""
  · simp [ho, hany, createdSession]
  · cases hp : parseObjectID req.OpeningID <;> simp [ho, hp, hany, createdSession]

theorem SubmitMove_eq (db : DB) (userIDStr sessionId : String)
    (body : Option SubmitMoveRequest) {userID sessionID : ObjectID}
    {session : PracticeSession} {req : SubmitMoveRequest}
    (hu : getUserID userIDStr = some userID)
    (hs : parseObjectID sessionId = some sessionID)
    (hf : PracticeRepository.FindByIDAndUserID db.practice_sessions sessionID userID
      = some session)
    (he : session.EndedAt = none)
    (hb : bindSubmitMoveRequest body = some req) :
    PracticeHandler.SubmitMove db userIDStr sessionId body =
      (⟨StatusOK, .move (recordedMove session.Moves.length req)⟩,
        { db with practice_sessions :=
                    PracticeRepository.AddMove db.practice_sessions sessionID
                      (recordedMove session.Moves.length req) }) := by
  unfold PracticeHandler.SubmitMove
  simp [hu, hs, hf, he, hb, recordedMove]

theorem End_eq (db : DB) (repoNow handlerNow : Time) (userIDStr sessionId : String)
    {userID sessionID : ObjectID} {session : PracticeSession}
    (hu : getUserID userIDStr = some userID)
    (hs : parseObjectID sessionId = some sessionID)
    (hf : PracticeRepository.FindByIDAndUserID db.practice_sessions sessionID userID
      = some session) :
    PracticeHandler.End db repoNow handlerNow userIDStr sessionId =
      (⟨StatusOK, .session { session with Stats := calculateStats session.Moves,
                                          EndedAt := some handlerNow }⟩,
        { db with practice_sessions :=
                    PracticeRepository.EndSession db.practice_sessions sessionID repoNow
                      (calculateStats session.Moves) }) := by
  unfold PracticeHandler.End
  simp [hu, hs, hf]

/-! ## Ended sessions (C1, C2) -/

/-- C1 (the code at the failing input): the sample session is started and ended at
tick `5`; a second `End` at tick `9` answers `200` and overwrites the stored end
time, where the claim asks for a `400` and an unchanged document. -/
theorem End_on_ended_session :
    (serveAll sampleDB [.start 7 1 aliceHex (some sampleStart),
        .endSession 5 5 aliceHex sessionHex]).practice_sessions = [endedSession] ∧
    (PracticeHandler.End endedDB 9 9 aliceHex sessionHex).1.status = 200 ∧
    (PracticeHandler.End endedDB 9 9 aliceHex sessionHex).2.practice_sessions
      = [{ endedSession with EndedAt := some 9 }] := by
  refine ⟨?_, ?_, ?_⟩
  · rfl
  · rfl
  · rfl

/-- C2: `SubmitMove` on a session of the caller whose `EndedAt` is set answers `400`
(session already ended) whatever the request body is, and the database, in
particular the stored session and its moves, stays as it was. -/
theorem SubmitMove_on_ended_session (db : DB) (userIDStr sessionId : String)
    (body : Option SubmitMoveRequest) (userID sessionID : ObjectID)
    (session : PracticeSession) (endedAt : Time)
    (hu : getUserID userIDStr = some userID)
    (hs : parseObjectID sessionId = some sessionID)
    (hf : PracticeRepository.FindByIDAndUserID db.practice_sessions sessionID userID
      = some session)
    (he : session.EndedAt = some endedAt) :
    PracticeHandler.SubmitMove db userIDStr sessionId body =
      (⟨400, .error "session already ended"⟩, db) := by
  unfold PracticeHandler.SubmitMove
  simp [hu, hs, hf, he, StatusBadRequest]

theorem SubmitMove_on_ended_session_witness :
    PracticeHandler.SubmitMove endedDB aliceHex sessionHex (some (sampleMove "book")) =
      (⟨400, .error "session already ended"⟩, endedDB) :=
  SubmitMove_on_ended_session endedDB aliceHex sessionHex (some (sampleMove "book")) 161 7
    endedSession 5 (by decide) (by decide) rfl rfl

/-! ## Appending a move (C8) -/

/-- C8: a `SubmitMove` by the owner on an active session with `k` stored moves and
a request that binds answers `200` with the move it recorded: ply `k + 1` and the
request's FENs, moves, category, evaluations and centipawn loss. The stored
session becomes the former one with that move appended to its moves; every other
session and the repertoires are as before. -/
theorem SubmitMove_appends (db : DB) (userIDStr sessionId : String)
    (body : Option SubmitMoveRequest) (userID sessionID : ObjectID)
    (session : PracticeSession) (req : SubmitMoveRequest)
    (hwf : uniqueIDs db.practice_sessions)
    (hu : getUserID userIDStr = some userID)
    (hs : parseObjectID sessionId = some sessionID)
    (hf : PracticeRepository.FindByIDAndUserID db.practice_sessions sessionID userID
      = some session)
    (he : session.EndedAt = none)
    (hb : bindSubmitMoveRequest body = some req) :
    (PracticeHandler.SubmitMove db userIDStr sessionId body).1 =
      ⟨200, .move { Ply := session.Moves.length + 1, FENBefore := req.FENBefore,
                    FENAfter := req.FENAfter, UserMove := req.UserMove,
                    ExpectedMove := req.ExpectedMove, Category := req.Category,
                    EvalBefore := req.EvalBefore, EvalAfter := req.EvalAfter,
                    CentipawnLoss := req.CentipawnLoss }⟩ ∧
    (PracticeHandler.SubmitMove db userIDStr sessionId body).2.repertoires = db.repertoires ∧
    (PracticeHandler.SubmitMove db userIDStr sessionId body).2.practice_sessions =
      db.practice_sessions.map (fun s =>
        if s = session then
          { session with Moves := session.Moves ++ [recordedMove session.Moves.length req] }
        else s) ∧
    PracticeRepository.FindByIDAndUserID
        (PracticeHandler.SubmitMove db userIDStr sessionId body).2.practice_sessions
        sessionID userID =
      some { session with Moves := session.Moves ++ [recordedMove session.Moves.length req] } := by
  rw [SubmitMove_eq db userIDStr sessionId body hu hs hf he hb]
  have hmap : PracticeRepository.AddMove db.practice_sessions sessionID
        (recordedMove session.Moves.length req) =
      db.practice_sessions.map (fun s =>
        if s = session then
          { session with Moves := session.Moves ++ [recordedMove session.Moves.length req] }
        else s) :=
    updateOne_found hwf hf _
  refine ⟨rfl, rfl, hmap, ?_⟩
  simp only [hmap]
  exact find_rewritten hf
    (fun s => { s with Moves := s.Moves ++ [recordedMove session.Moves.length req] }) rfl rfl

theorem SubmitMove_appends_witness :
    (PracticeHandler.SubmitMove activeDB aliceHex sessionHex (some (sampleMove "book"))).1 =
      ⟨200, .move { Ply := 1, FENBefore := "start", FENAfter := "after", UserMove := "e4",
                    ExpectedMove := "e4", Category := "book", EvalBefore := 0,
                    EvalAfter := 0, CentipawnLoss := 0 }⟩ :=
  (SubmitMove_appends activeDB aliceHex sessionHex (some (sampleMove "book")) 161 7
    activeSession (sampleMove "book") (by decide) (by decide) (by decide) rfl rfl rfl).1

/-! ## Starting a session (C9, C10) -/

/-- C9: a `Start` that succeeds answers with a session that is stored and whose
config is `{max_moves: 30, difficulty: "flexible", allow_variations: false}` when
the request has no config, and the supplied config otherwise. -/
theorem Start_config (db : DB) (newID : ObjectID) (now : Time) (userIDStr : String)
    (body : Option StartPracticeRequest) (userID repertoireID : ObjectID)
    (req : StartPracticeRequest) (repertoire : Repertoire)
    (hu : getUserID userIDStr = some userID)
    (hb : bindStartPracticeRequest body = some req)
    (hr : parseObjectID req.RepertoireID = some repertoireID)
    (hf : RepertoireRepository.FindByIDAndUserID db.repertoires repertoireID userID
      = some repertoire)
    (hnew : ∀ s ∈ db.practice_sessions, s.ID ≠ newID) :
    ∃ session : PracticeSession,
      (PracticeHandler.Start db newID now userIDStr body).1 = ⟨201, .session session⟩ ∧
      session ∈ (PracticeHandler.Start db newID now userIDStr body).2.practice_sessions ∧
      (req.Config = none → session.Config =
        { MaxMoves := 30, Difficulty := "flexible", AllowVariations := false }) ∧
      (∀ config, req.Config = some config → session.Config = config) := by
  refine ⟨createdSession newID now userID repertoireID req repertoire, ?_, ?_, ?_, ?_⟩
  · rw [Start_eq db newID now userIDStr body hu hb hr hf hnew]; rfl
  · rw [Start_eq db newID now userIDStr body hu hb hr hf hnew]; simp
  · intro hc; simp [createdSession, hc, defaultConfig]
  · intro config hc; simp [createdSession, hc]

theorem Start_config_witness :
    ∃ session : PracticeSession,
      (PracticeHandler.Start sampleDB 7 1 aliceHex (some sampleStart)).1
        = ⟨201, .session session⟩ ∧
      session.Config = { MaxMoves := 30, Difficulty := "flexible", AllowVariations := false } := by
  obtain ⟨session, h1, -, h3, -⟩ :=
    Start_config sampleDB 7 1 aliceHex (some sampleStart) 161 195 sampleStart sampleRepertoire
      (by decide) (by decide) (by decide) rfl (by simp [sampleDB])
  exact ⟨session, h1, h3 rfl⟩

/-- C10: a `Start` that succeeds answers `201` with the session it appended to the
collection; its owner is the caller, its repertoire and mode are the requested
ones, its color is the repertoire's, it has no move, zero stats and no end time. -/
theorem Start_session (db : DB) (newID : ObjectID) (now : Time) (userIDStr : String)
    (body : Option StartPracticeRequest) (userID repertoireID : ObjectID)
    (req : StartPracticeRequest) (repertoire : Repertoire)
    (hu : getUserID userIDStr = some userID)
    (hb : bindStartPracticeRequest body = some req)
    (hr : parseObjectID req.RepertoireID = some repertoireID)
    (hf : RepertoireRepository.FindByIDAndUserID db.repertoires repertoireID userID
      = some repertoire)
    (hnew : ∀ s ∈ db.practice_sessions, s.ID ≠ newID) :
    ∃ session : PracticeSession,
      PracticeHandler.Start db newID now userIDStr body =
        (⟨201, .session session⟩,
          { db with practice_sessions := db.practice_sessions ++ [session] }) ∧
      session.UserID = userID ∧ session.RepertoireID = repertoireID ∧
      session.Mode = req.Mode ∧ session.Color = repertoire.Color ∧
      session.Moves = [] ∧
      session.Stats =
        { TotalMoves := 0, BookMoves := 0, BestMoves := 0, GoodMoves := 0, Inaccuracies := 0,
          Mistakes := 0, Blunders := 0, AccuracyPercentage := 0 } ∧
      session.EndedAt = none :=
  ⟨createdSession newID now userID repertoireID req repertoire,
    Start_eq db newID now userIDStr body hu hb hr hf hnew, rfl, rfl, rfl, rfl, rfl, rfl, rfl⟩

theorem Start_session_witness :
    ∃ session : PracticeSession,
      (PracticeHandler.Start sampleDB 7 1 aliceHex (some sampleStart)).1
        = ⟨201, .session session⟩ ∧
      session.UserID = 161 ∧ session.Color = "white" ∧ session.Moves = [] := by
  obtain ⟨session, h1, h2, -, -, h5, h6, -, -⟩ :=
    Start_session sampleDB 7 1 aliceHex (some sampleStart) 161 195 sampleStart sampleRepertoire
      (by decide) (by decide) (by decide) rfl (by simp [sampleDB])
  exact ⟨session, by rw [h1], h2, h5, h6⟩

/-! ## Contiguous plies (C7) -/

theorem contiguousPlies_append {session : PracticeSession} (h : contiguousPlies session)
    (req : SubmitMoveRequest) :
    contiguousPlies
      { session with Moves := session.Moves ++ [recordedMove session.Moves.length req] } := by
  unfold contiguousPlies at *
  simp only [List.map_append, h, List.length_append, List.length_singleton, List.map_cons,
    List.map_nil, List.range'_concat, recordedMove]
  simp [Nat.add_comm]

theorem sessionsInv_rewritten {collection : List PracticeSession}
    (hinv : sessionsInv collection) (session : PracticeSession)
    (f : PracticeSession → PracticeSession) (hid : (f session).ID = session.ID)
    (hc : contiguousPlies (f session)) :
    sessionsInv (collection.map (fun s => if s = session then f session else s)) := by
  refine ⟨uniqueIDs_rewritten hinv.1 session f hid, ?_⟩
  intro t ht
  obtain ⟨s, hs, rfl⟩ := List.mem_map.1 ht
  by_cases h : s = session
  · simpa [h] using hc
  · simpa [h] using hinv.2 s hs

theorem Start_preserves (db : DB) (newID : ObjectID) (now : Time) (userIDStr : String)
    (body : Option StartPracticeRequest) (hinv : sessionsInv db.practice_sessions) :
    sessionsInv (PracticeHandler.Start db newID now userIDStr body).2.practice_sessions := by
  cases hu : getUserID userIDStr with
  | none => simpa [PracticeHandler.Start, hu] using hinv
  | some userID =>
  cases hb : bindStartPracticeRequest body with
  | none => simpa [PracticeHandler.Start, hu, hb] using hinv
  | some req =>
  cases hr : parseObjectID req.RepertoireID with
  | none => simpa [PracticeHandler.Start, hu, hb, hr] using hinv
  | some repertoireID =>
  cases hf : RepertoireRepository.FindByIDAndUserID db.repertoires repertoireID userID with
  | none => simpa [PracticeHandler.Start, hu, hb, hr, hf] using hinv
  | some repertoire =>
  by_cases hany : (db.practice_sessions.any fun s => s.ID == newID) = true
  · simpa [PracticeHandler.Start, hu, hb, hr, hf, PracticeRepository.Create, hany] using hinv
  · have hnew : ∀ s ∈ db.practice_sessions, s.ID ≠ newID := by
      intro s hs hc
      exact hany (List.any_eq_true.2 ⟨s, hs, by simpa using hc⟩)
    rw [Start_eq db newID now userIDStr body hu hb hr hf hnew]
    refine ⟨?_, ?_⟩
    · show ((db.practice_sessions ++ [createdSession newID now userID repertoireID req
        repertoire]).map (fun s => s.ID)).Nodup
      rw [List.map_append, List.nodup_append]
      refine ⟨hinv.1, by simp, ?_⟩
      intro a ha hb
      obtain ⟨s, hs, rfl⟩ := List.mem_map.1 ha
      simp only [List.map_cons, List.map_nil, List.mem_singleton] at hb
      exact hnew s hs hb
    · intro s hs
      rcases List.mem_append.1 hs with h1 | h1
      · exact hinv.2 s h1
      · rw [List.mem_singleton.1 h1]; rfl

theorem SubmitMove_preserves (db : DB) (userIDStr sessionId : String)
    (body : Option SubmitMoveRequest) (hinv : sessionsInv db.practice_sessions) :
    sessionsInv (PracticeHandler.SubmitMove db userIDStr sessionId body).2.practice_sessions := by
  cases hu : getUserID userIDStr with
  | none => simpa [PracticeHandler.SubmitMove, hu] using hinv
  | some userID =>
  cases hs : parseObjectID sessionId with
  | none => simpa [PracticeHandler.SubmitMove, hu, hs] using hinv
  | some sessionID =>
  cases hf : PracticeRepository.FindByIDAndUserID db.practice_sessions sessionID userID with
  | none => simpa [PracticeHandler.SubmitMove, hu, hs, hf] using hinv
  | some session =>
  cases he : session.EndedAt with
  | some t => simpa [PracticeHandler.SubmitMove, hu, hs, hf, he] using hinv
  | none =>
  cases hb : bindSubmitMoveRequest body with
  | none => simpa [PracticeHandler.SubmitMove, hu, hs, hf, he, hb] using hinv
  | some req =>
    rw [SubmitMove_eq db userIDStr sessionId body hu hs hf he hb]
    show sessionsInv (PracticeRepository.AddMove db.practice_sessions sessionID _)
    unfold PracticeRepository.AddMove
    rw [updateOne_found hinv.1 hf]
    exact sessionsInv_rewritten hinv session
      (fun s => { s with Moves := s.Moves ++ [recordedMove session.Moves.length req] }) rfl
      (contiguousPlies_append (hinv.2 session (find_some hf).1) req)

theorem End_preserves (db : DB) (repoNow handlerNow : Time) (userIDStr sessionId : String)
    (hinv : sessionsInv db.practice_sessions) :
    sessionsInv
      (PracticeHandler.End db repoNow handlerNow userIDStr sessionId).2.practice_sessions := by
  cases hu : getUserID userIDStr with
  | none => simpa [PracticeHandler.End, hu] using hinv
  | some userID =>
  cases hs : parseObjectID sessionId with
  | none => simpa [PracticeHandler.End, hu, hs] using hinv
  | some sessionID =>
  cases hf : PracticeRepository.FindByIDAndUserID db.practice_sessions sessionID userID with
  | none => simpa [PracticeHandler.End, hu, hs, hf] using hinv
  | some session =>
    rw [End_eq db repoNow handlerNow userIDStr sessionId hu hs hf]
    show sessionsInv (PracticeRepository.EndSession db.practice_sessions sessionID _ _)
    unfold PracticeRepository.EndSession
    rw [updateOne_found hinv.1 hf]
    exact sessionsInv_rewritten hinv session
      (fun s => { s with EndedAt := some repoNow, Stats := calculateStats session.Moves }) rfl
      (hinv.2 session (find_some hf).1)

theorem serve_preserves (db : DB) (call : PracticeCall)
    (hinv : sessionsInv db.practice_sessions) :
    sessionsInv (call.serve db).2.practice_sessions := by
  cases call with
  | start newID now userIDStr body => exact Start_preserves db newID now userIDStr body hinv
  | submitMove userIDStr sessionId body =>
    exact SubmitMove_preserves db userIDStr sessionId body hinv
  | endSession repoNow handlerNow userIDStr sessionId =>
    exact End_preserves db repoNow handlerNow userIDStr sessionId hinv

theorem serveAll_preserves (calls : List PracticeCall) (db : DB)
    (hinv : sessionsInv db.practice_sessions) :
    sessionsInv (serveAll db calls).practice_sessions := by
  induction calls generalizing db with
  | nil => exact hinv
  | cons call calls ih => exact ih _ (serve_preserves db call hinv)

/-- C7: in every database reached from an empty `practice_sessions` collection by
any sequence of `Start`, `SubmitMove` and `End` requests served one after another,
every stored session has moves with plies `1, 2, ..., N` in sequence order, `N`
being the number of its stored moves. -/
theorem plies_contiguous (repertoires : List Repertoire) (calls : List PracticeCall)
    (session : PracticeSession)
    (h : session ∈ (serveAll { repertoires := repertoires, practice_sessions := [] }
      calls).practice_sessions) :
    session.Moves.map (fun m => m.Ply) = List.range' 1 session.Moves.length :=
  (serveAll_preserves calls { repertoires := repertoires, practice_sessions := [] }
    ⟨List.nodup_nil, by simp⟩).2 session h

theorem plies_contiguous_witness :
    playedSession.Moves.map (fun m => m.Ply) = List.range' 1 playedSession.Moves.length :=
  plies_contiguous [sampleRepertoire]
    [.start 7 1 aliceHex (some sampleStart),
     .submitMove aliceHex sessionHex (some (sampleMove "book")),
     .submitMove bobHex sessionHex (some (sampleMove "blunder")),
     .submitMove aliceHex sessionHex (some (sampleMove "best"))]
    playedSession (List.mem_singleton_self playedSession)

/-! ## A whole run: start, moves, end (C6) -/

theorem recordedMoves_length (reqs : List SubmitMoveRequest) (k : Nat) :
    (recordedMoves k reqs).length = reqs.length := by
  induction reqs generalizing k with
  | nil => rfl
  | cons req reqs ih => simp [recordedMoves, ih]

theorem calculateStats_total (moves : List PracticeMove) :
    (calculateStats moves).TotalMoves = moves.length := by
  rw [calculateStats_eq]; split_ifs <;> rfl

/-- Submitting a run of requests that bind, by the owner of an active session,
appends the moves recorded for them. -/
theorem serveAll_submits (userIDStr sessionId : String) {userID sessionID : ObjectID}
    (hu : getUserID userIDStr = some userID)
    (hs : parseObjectID sessionId = some sessionID)
    (reqs : List SubmitMoveRequest)
    (hreqs : ∀ req ∈ reqs, bindSubmitMoveRequest (some req) = some req)
    (db : DB) (session : PracticeSession)
    (hwf : uniqueIDs db.practice_sessions)
    (hf : PracticeRepository.FindByIDAndUserID db.practice_sessions sessionID userID
      = some session)
    (he : session.EndedAt = none) :
    uniqueIDs (serveAll db
        (reqs.map fun req => .submitMove userIDStr sessionId (some req))).practice_sessions ∧
    PracticeRepository.FindByIDAndUserID
        (serveAll db
          (reqs.map fun req => .submitMove userIDStr sessionId (some req))).practice_sessions
        sessionID userID =
      some { session with
        Moves := session.Moves ++ recordedMoves session.Moves.length reqs } := by
  induction reqs generalizing db session with
  | nil => simpa [serveAll, recordedMoves] using ⟨hwf, hf⟩
  | cons req reqs ih =>
    have hb := hreqs req (List.mem_cons_self _ _)
    have hstep : (PracticeCall.serve db (.submitMove userIDStr sessionId (some req))).2 =
        { db with practice_sessions := db.practice_sessions.map (fun s =>
            if s = session then
              { session with Moves := session.Moves ++ [recordedMove session.Moves.length req] }
            else s) } := by
      show (PracticeHandler.SubmitMove db userIDStr sessionId (some req)).2 = _
      rw [SubmitMove_eq db userIDStr sessionId (some req) hu hs hf he hb]
      show DB.mk _ _ _ = DB.mk _ _ _
      congr 1
      exact updateOne_found hwf hf _
    have hwf2 := uniqueIDs_rewritten hwf session
      (fun s => { s with Moves := s.Moves ++ [recordedMove session.Moves.length req] }) rfl
    have hf2 := find_rewritten hf
      (fun s => { s with Moves := s.Moves ++ [recordedMove session.Moves.length req] }) rfl rfl
    have := ih (fun r hr => hreqs r (List.mem_cons_of_mem _ hr))
      (PracticeCall.serve db (.submitMove userIDStr sessionId (some req))).2
      { session with Moves := session.Moves ++ [recordedMove session.Moves.length req] }
      (by rw [hstep]; exact hwf2) (by rw [hstep]; exact hf2) he
    simp only [List.map_cons, serveAll, List.foldl_cons] at this ⊢
    refine ⟨this.1, ?_⟩
    rw [this.2]
    simp [recordedMoves, List.append_assoc]

theorem uniqueIDs_append {collection : List PracticeSession} (hwf : uniqueIDs collection)
    (session : PracticeSession) (hnew : ∀ s ∈ collection, s.ID ≠ session.ID) :
    uniqueIDs (collection ++ [session]) := by
  unfold uniqueIDs at *
  rw [List.map_append, List.nodup_append]
  refine ⟨hwf, by simp, ?_⟩
  intro a ha hb
  obtain ⟨s, hs, rfl⟩ := List.mem_map.1 ha
  simp only [List.map_cons, List.map_nil, List.mem_singleton] at hb
  exact hnew s hs hb

theorem find_append {collection : List PracticeSession} (session : PracticeSession)
    (hnew : ∀ s ∈ collection, s.ID ≠ session.ID) :
    PracticeRepository.FindByIDAndUserID (collection ++ [session]) session.ID session.UserID
      = some session := by
  unfold PracticeRepository.FindByIDAndUserID
  rw [List.find?_append]
  have : collection.find? (fun s => s.ID == session.ID && s.UserID == session.UserID) = none := by
    rw [List.find?_eq_none]
    intro s hs
    simp [hnew s hs]
  simp [this]

set_option maxRecDepth 10000 in
theorem calculateStats_scenario (reqs : List SubmitMoveRequest)
    (h : reqs.map (fun req => req.Category) = ["book", "mistake", "best"]) :
    calculateStats (recordedMoves 0 reqs) =
      { TotalMoves := 3, BookMoves := 1, BestMoves := 1, GoodMoves := 0, Inaccuracies := 0,
        Mistakes := 1, Blunders := 0,
        AccuracyPercentage := .finite 4691249611844266 (-46) } := by
  obtain _ | ⟨r1, _ | ⟨r2, _ | ⟨r3, _ | ⟨r4, rest⟩⟩⟩⟩ := reqs <;>
    simp only [List.map_cons, List.map_nil, List.cons.injEq, and_true, and_false,
      reduceCtorEq] at h
  obtain ⟨h1, h2, h3⟩ := h
  have hacc : Float64.ofNat 2 / Float64.ofNat 3 * 100 = .finite 4691249611844266 (-46) := by
    rfl
  simp [recordedMoves, recordedMove, calculateStats, countMove, h1, h2, h3]
  exact hacc

set_option maxRecDepth 10000 in
/-- C6 (counterexample): the session is started on the sample database, three moves
classified `book`, `mistake`, `best` are submitted and `End` is called. The
accuracy returned is the float `66.66666666666666`, which is not `200/3`. -/
theorem End_accuracy_not_exact :
    (PracticeHandler.End
        (serveAll (PracticeHandler.Start sampleDB 7 1 aliceHex (some sampleStart)).2
          ([sampleMove "book", sampleMove "mistake", sampleMove "best"].map
            fun r => .submitMove aliceHex sessionHex (some r)))
        5 6 aliceHex sessionHex).1 =
      ⟨200, .session { activeSession with
        Moves := recordedMoves 0 [sampleMove "book", sampleMove "mistake", sampleMove "best"],
        Stats := { TotalMoves := 3, BookMoves := 1, BestMoves := 1, GoodMoves := 0,
                   Inaccuracies := 0, Mistakes := 1, Blunders := 0,
                   AccuracyPercentage := .finite 4691249611844266 (-46) },
        EndedAt := some 6 }⟩ ∧
    Float64.toRat (.finite 4691249611844266 (-46)) ≠ some (200 / 3) := by
  refine ⟨rfl, ?_⟩
  simp [Float64.toRat]
  norm_num


/-- C6 (amended): a session is started, `n` requests that bind are submitted one
after another by its owner, then `End` is called. `End` answers `200` with, and
stores, the stats `calculateStats` gives for exactly the `n` recorded moves, whose
`total_moves` is `n`. For three moves classified `book`, `mistake`, `best` these
stats are total 3, book 1, best 1, mistakes 1, the other counters 0, and the
accuracy is the float `66.66666666666666`: below `200/3`, by less than `10⁻¹⁴`. -/
theorem End_after_moves (db : DB) (newID : ObjectID) (now repoNow handlerNow : Time)
    (userIDStr sessionId : String) (body : Option StartPracticeRequest)
    (userID repertoireID : ObjectID) (req : StartPracticeRequest) (repertoire : Repertoire)
    (reqs : List SubmitMoveRequest)
    (hwf : uniqueIDs db.practice_sessions)
    (hu : getUserID userIDStr = some userID)
    (hb : bindStartPracticeRequest body = some req)
    (hr : parseObjectID req.RepertoireID = some repertoireID)
    (hf : RepertoireRepository.FindByIDAndUserID db.repertoires repertoireID userID
      = some repertoire)
    (hnew : ∀ s ∈ db.practice_sessions, s.ID ≠ newID)
    (hs : parseObjectID sessionId = some newID)
    (hreqs : ∀ r ∈ reqs, bindSubmitMoveRequest (some r) = some r) :
    ∃ session : PracticeSession,
      (PracticeHandler.Start db newID now userIDStr body).1 = ⟨201, .session session⟩ ∧
      (PracticeHandler.End
          (serveAll (PracticeHandler.Start db newID now userIDStr body).2
            (reqs.map fun r => .submitMove userIDStr sessionId (some r)))
          repoNow handlerNow userIDStr sessionId).1 =
        ⟨200, .session { session with
          Moves := recordedMoves 0 reqs, Stats := calculateStats (recordedMoves 0 reqs),
          EndedAt := some handlerNow }⟩ ∧
      PracticeRepository.FindByIDAndUserID
          (PracticeHandler.End
            (serveAll (PracticeHandler.Start db newID now userIDStr body).2
              (reqs.map fun r => .submitMove userIDStr sessionId (some r)))
            repoNow handlerNow userIDStr sessionId).2.practice_sessions newID userID =
        some { session with
          Moves := recordedMoves 0 reqs, Stats := calculateStats (recordedMoves 0 reqs),
          EndedAt := some repoNow } ∧
      (calculateStats (recordedMoves 0 reqs)).TotalMoves = reqs.length ∧
      (reqs.map (fun r => r.Category) = ["book", "mistake", "best"] →
        calculateStats (recordedMoves 0 reqs) =
          { TotalMoves := 3, BookMoves := 1, BestMoves := 1, GoodMoves := 0, Inaccuracies := 0,
            Mistakes := 1, Blunders := 0,
            AccuracyPercentage := .finite 4691249611844266 (-46) }) ∧
      (∃ q : ℚ, Float64.toRat (.finite 4691249611844266 (-46)) = some q ∧
        q < 200 / 3 ∧ 200 / 3 - q < 1 / 10 ^ 14) := by
  have hstart := Start_eq db newID now userIDStr body hu hb hr hf hnew
  refine ⟨createdSession newID now userID repertoireID req repertoire, ?_, ?_, ?_, ?_, ?_, ?_⟩
  · rw [hstart]; rfl
  all_goals
    have hrun := serveAll_submits userIDStr sessionId hu hs reqs hreqs
      (PracticeHandler.Start db newID now userIDStr body).2
      (createdSession newID now userID repertoireID req repertoire)
      (by rw [hstart]; exact uniqueIDs_append hwf _ hnew)
      (by rw [hstart]; exact find_append (createdSession newID now userID repertoireID req
            repertoire) hnew)
      rfl
    obtain ⟨hwf2, hf2⟩ := hrun
    have hmoves : (createdSession newID now userID repertoireID req repertoire).Moves = [] := rfl
    simp only [hmoves, List.nil_append, List.length_nil] at hf2
  · rw [End_eq _ repoNow handlerNow userIDStr sessionId hu hs hf2]
    rfl
  · rw [End_eq _ repoNow handlerNow userIDStr sessionId hu hs hf2]
    show PracticeRepository.FindByIDAndUserID
      (PracticeRepository.EndSession _ newID repoNow _) newID userID = _
    unfold PracticeRepository.EndSession
    rw [updateOne_found hwf2 hf2]
    exact find_rewritten hf2
      (fun s => { s with EndedAt := some repoNow,
                         Stats := calculateStats (recordedMoves 0 reqs) }) rfl rfl
  · rw [calculateStats_total, recordedMoves_length]
  · exact calculateStats_scenario reqs
  · refine ⟨(4691249611844266 : ℚ) / 2 ^ 46, ?_, ?_, ?_⟩
    · simp [Float64.toRat]
    · norm_num
    · norm_num

theorem End_after_moves_witness :
    ∃ session : PracticeSession,
      (PracticeHandler.End
          (serveAll (PracticeHandler.Start sampleDB 7 1 aliceHex (some sampleStart)).2
            ([sampleMove "book", sampleMove "mistake", sampleMove "best"].map
              fun r => .submitMove aliceHex sessionHex (some r)))
          5 6 aliceHex sessionHex).1 =
        ⟨200, .session { session with
          Moves := recordedMoves 0 [sampleMove "book", sampleMove "mistake", sampleMove "best"],
          Stats := { TotalMoves := 3, BookMoves := 1, BestMoves := 1, GoodMoves := 0,
                     Inaccuracies := 0, Mistakes := 1, Blunders := 0,
                     AccuracyPercentage := .finite 4691249611844266 (-46) },
          EndedAt := some 6 }⟩ := by
  obtain ⟨session, -, h2, -, -, h5, -⟩ :=
    End_after_moves sampleDB 7 1 5 6 aliceHex sessionHex (some sampleStart) 161 195 sampleStart
      sampleRepertoire [sampleMove "book", sampleMove "mistake", sampleMove "best"]
      (by decide) (by decide) (by decide) (by decide) rfl (by simp [sampleDB]) (by decide)
      (by decide)
  rw [h5 rfl] at h2
  exact ⟨session, h2⟩

/-! ## Generic facts on `UpdateOne` -/

theorem updateOne_none {α : Type} (p : α → Bool) (f : α → α) (l : List α)
    (h : ∀ x ∈ l, p x = false) : updateOne p f l = l := by
  induction l with
  | nil => rfl
  | cons d ds ih =>
    have hd := h d (List.mem_cons_self _ _)
    simp [updateOne, hd, ih (fun x hx => h x (List.mem_cons_of_mem _ hx))]

theorem updateOne_split {α : Type} (p : α → Bool) (f : α → α) (pre : List α) (x : α)
    (post : List α) (hpre : ∀ y ∈ pre, p y = false) (hx : p x = true) :
    updateOne p f (pre ++ x :: post) = pre ++ f x :: post := by
  induction pre with
  | nil => simp [updateOne, hx]
  | cons d ds ih =>
    have hd := hpre d (List.mem_cons_self _ _)
    simp [updateOne, hd, ih (fun y hy => hpre y (List.mem_cons_of_mem _ hy))]

/-- With unique keys, an `UpdateOne` whose filter asks for the key of a stored
document `x` and for a further condition rewrites `x` alone, and only when `x`
meets the condition. -/
theorem updateOne_key_cond {α : Type} [DecidableEq α] (key : α → ObjectID) {l : List α}
    (hnd : (l.map key).Nodup) {x : α} (hx : x ∈ l) (c : α → Bool) (f : α → α) :
    updateOne (fun y => key y == key x && c y) f l =
      if c x then l.map (fun y => if y = x then f x else y) else l := by
  induction l with
  | nil => simp [updateOne]
  | cons d ds ih =>
    rw [List.map_cons, List.nodup_cons] at hnd
    by_cases hdx : d = x
    · subst hdx
      have hne : ∀ y ∈ ds, key y ≠ key d := fun y hy hc =>
        hnd.1 (List.mem_map.2 ⟨y, hy, hc⟩)
      have h1 : updateOne (fun y => key y == key d && c y) f ds = ds :=
        updateOne_none _ _ _ (fun y hy => by simp [hne y hy])
      have h2 : ds.map (fun y => if y = d then f d else y) = ds := by
        have : ∀ y ∈ ds, (if y = d then f d else y) = y := by
          intro y hy
          have : y ≠ d := fun hc => hne y hy (by rw [hc])
          simp [this]
        rw [List.map_congr_left this]; simp
      by_cases hc : c d = true
      · simp [updateOne, hc, h2]
      · simp [updateOne, hc, h1]
    · have hxds : x ∈ ds := by
        rcases List.mem_cons.1 hx with h | h
        · exact absurd h.symm hdx
        · exact h
      have hkey : key d ≠ key x := fun hc =>
        hnd.1 (List.mem_map.2 ⟨x, hxds, hc.symm⟩)
      have := ih hnd.2 hxds
      by_cases hc : c x = true
      · simp only [hc, if_true] at this ⊢
        simp [updateOne, hkey, hdx, this]
      · simp only [hc] at this ⊢
        simp [updateOne, hkey, this]

theorem updateOne_key {α : Type} [DecidableEq α] (key : α → ObjectID) {l : List α}
    (hnd : (l.map key).Nodup) {x : α} (hx : x ∈ l) (f : α → α) :
    updateOne (fun y => key y == key x) f l = l.map (fun y => if y = x then f x else y) := by
  have h := updateOne_key_cond key hnd hx (fun _ => true) f
  simpa using h

/-! ## The repertoire collection -/

theorem repertoire_find_some {collection : List Repertoire} {id userID : ObjectID}
    {repertoire : Repertoire}
    (h : RepertoireRepository.FindByIDAndUserID collection id userID = some repertoire) :
    repertoire ∈ collection ∧ repertoire.ID = id ∧ repertoire.UserID = userID := by
  unfold RepertoireRepository.FindByIDAndUserID at h
  have hp := List.find?_some h
  have hm := List.mem_of_find?_eq_some h
  simp only [Bool.and_eq_true, beq_iff_eq] at hp
  exact ⟨hm, hp.1, hp.2⟩

theorem repertoire_find_rewritten {collection : List Repertoire} {id userID : ObjectID}
    {repertoire : Repertoire}
    (hf : RepertoireRepository.FindByIDAndUserID collection id userID = some repertoire)
    (f : Repertoire → Repertoire)
    (hid : (f repertoire).ID = repertoire.ID)
    (huser : (f repertoire).UserID = repertoire.UserID) :
    RepertoireRepository.FindByIDAndUserID
      (collection.map (fun r => if r = repertoire then f repertoire else r)) id userID
      = some (f repertoire) := by
  unfold RepertoireRepository.FindByIDAndUserID at *
  rw [List.find?_map]
  have : ((fun r : Repertoire => r.ID == id && r.UserID == userID) ∘
      fun r => if r = repertoire then f repertoire else r) =
      fun r => r.ID == id && r.UserID == userID := by
    funext r
    by_cases h : r = repertoire <;> simp [h, hid, huser]
  rw [this, hf]; simp

/-- A repertoire stored under another owner is not found for the caller. -/
theorem repertoire_find_foreign {collection : List Repertoire}
    (hwf : uniqueRepertoireIDs collection) {repertoire : Repertoire}
    (hmem : repertoire ∈ collection) {caller : ObjectID}
    (howner : repertoire.UserID ≠ caller) :
    RepertoireRepository.FindByIDAndUserID collection repertoire.ID caller = none := by
  unfold RepertoireRepository.FindByIDAndUserID
  rw [List.find?_eq_none]
  intro r hr
  by_cases hid : r.ID = repertoire.ID
  · have : r = repertoire := List.inj_on_of_nodup_map hwf hr hmem hid
    simp [this, howner]
  · simp [hid]

/-- A session stored under another owner is not found for the caller. -/
theorem find_foreign {collection : List PracticeSession} (hwf : uniqueIDs collection)
    {session : PracticeSession} (hmem : session ∈ collection) {caller : ObjectID}
    (howner : session.UserID ≠ caller) :
    PracticeRepository.FindByIDAndUserID collection session.ID caller = none := by
  unfold PracticeRepository.FindByIDAndUserID
  rw [List.find?_eq_none]
  intro s hs
  by_cases hid : s.ID = session.ID
  · have : s = session := eq_of_uniqueIDs hwf hs hmem hid
    simp [this, howner]
  · simp [hid]

/-! ## Tenant isolation (C11, C12, C13) -/

/-- C11: a `Start` whose repertoire identifier names no repertoire of the caller
(none has that identifier, or those that have it belong to other users) answers
`404` and leaves the database, in particular the session collection, as it was. -/
theorem Start_unknown_repertoire (db : DB) (newID : ObjectID) (now : Time)
    (userIDStr : String) (body : Option StartPracticeRequest)
    (userID repertoireID : ObjectID) (req : StartPracticeRequest)
    (hu : getUserID userIDStr = some userID)
    (hb : bindStartPracticeRequest body = some req)
    (hr : parseObjectID req.RepertoireID = some repertoireID)
    (hnone : ∀ r ∈ db.repertoires, r.ID = repertoireID → r.UserID ≠ userID) :
    PracticeHandler.Start db newID now userIDStr body =
      (⟨404, .error "repertoire not found"⟩, db) := by
  have hf : RepertoireRepository.FindByIDAndUserID db.repertoires repertoireID userID
      = none := by
    unfold RepertoireRepository.FindByIDAndUserID
    rw [List.find?_eq_none]
    intro r hmem
    by_cases hid : r.ID = repertoireID
    · simp [hid, hnone r hmem hid]
    · simp [hid]
  unfold PracticeHandler.Start
  simp [hu, hb, hr, hf, StatusNotFound]

theorem Start_unknown_repertoire_witness :
    PracticeHandler.Start sampleDB 7 1 bobHex (some sampleStart) =
      (⟨404, .error "repertoire not found"⟩, sampleDB) :=
  Start_unknown_repertoire sampleDB 7 1 bobHex (some sampleStart) 178 195 sampleStart
    (by decide) (by decide) (by decide) (by simp [sampleDB, sampleRepertoire])

/-- C12 (counterexample): the stocked repertoire belongs to user `0x…a1`; user
`0x…b2` addresses it by its identifier with the opening identifier
`not-an-object-id`. `UpdateOpening` and `DeleteOpening` answer `400`, not `404`. -/
theorem foreign_malformed_opening_id :
    stockedRepertoire ∈ stockedDB.repertoires ∧
    getUserID bobHex = some 178 ∧ stockedRepertoire.UserID ≠ 178 ∧
    parseObjectID repertoireHex = some stockedRepertoire.ID ∧
    RepertoireHandler.UpdateOpening stockedDB 3 bobHex repertoireHex "not-an-object-id"
        (some sampleOpening) = (⟨400, .error "invalid opening ID"⟩, stockedDB) ∧
    RepertoireHandler.DeleteOpening stockedDB 3 bobHex repertoireHex "not-an-object-id"
      = (⟨400, .error "invalid opening ID"⟩, stockedDB) := by
  refine ⟨List.mem_singleton_self _, by decide, by decide, by decide, rfl, rfl⟩

/-- C12 (amended): a repertoire is stored under owner `A`; a caller `B ≠ A`
addresses it by its identifier. `Get`, `Update`, `Delete` and `AddOpening` answer
`404` with an error body and leave the database as it was, whatever the request
body is. `UpdateOpening` and `DeleteOpening` do the same when the opening
identifier of the path is a well-formed object ID, and answer `400` (invalid
opening ID) when it is not; the database is as it was in both cases and the
repertoire is never returned. -/
theorem foreign_repertoire_not_found (db : DB) (newID : ObjectID) (now : Time)
    (callerStr id openingId : String) (body : Option CreateRepertoireRequest)
    (openingBody : Option AddOpeningRequest) (caller : ObjectID)
    (repertoire : Repertoire)
    (hwf : uniqueRepertoireIDs db.repertoires)
    (hmem : repertoire ∈ db.repertoires)
    (howner : repertoire.UserID ≠ caller)
    (hu : getUserID callerStr = some caller)
    (hid : parseObjectID id = some repertoire.ID) :
    RepertoireHandler.Get db callerStr id = (⟨404, .error "repertoire not found"⟩, db) ∧
    RepertoireHandler.Update db now callerStr id body
      = (⟨404, .error "repertoire not found"⟩, db) ∧
    RepertoireHandler.Delete db callerStr id = (⟨404, .error "repertoire not found"⟩, db) ∧
    RepertoireHandler.AddOpening db newID now callerStr id openingBody
      = (⟨404, .error "repertoire not found"⟩, db) ∧
    RepertoireHandler.UpdateOpening db now callerStr id openingId openingBody
      = (if (parseObjectID openingId).isSome then ⟨404, .error "repertoire not found"⟩
         else ⟨400, .error "invalid opening ID"⟩, db) ∧
    RepertoireHandler.DeleteOpening db now callerStr id openingId
      = (if (parseObjectID openingId).isSome then ⟨404, .error "repertoire not found"⟩
         else ⟨400, .error "invalid opening ID"⟩, db) := by
  have hf := repertoire_find_foreign hwf hmem howner
  refine ⟨?_, ?_, ?_, ?_, ?_, ?_⟩
  · simp [RepertoireHandler.Get, hu, hid, hf, StatusNotFound]
  · simp [RepertoireHandler.Update, hu, hid, hf, StatusNotFound]
  · simp [RepertoireHandler.Delete, hu, hid, hf, StatusNotFound]
  · simp [RepertoireHandler.AddOpening, hu, hid, hf, StatusNotFound]
  · cases ho : parseObjectID openingId <;>
      simp [RepertoireHandler.UpdateOpening, hu, hid, ho, hf, StatusNotFound, StatusBadRequest]
  · cases ho : parseObjectID openingId <;>
      simp [RepertoireHandler.DeleteOpening, hu, hid, ho, hf, StatusNotFound, StatusBadRequest]

theorem foreign_repertoire_not_found_witness :
    RepertoireHandler.Get stockedDB bobHex repertoireHex
      = (⟨404, .error "repertoire not found"⟩, stockedDB) ∧
    RepertoireHandler.UpdateOpening stockedDB 3 bobHex repertoireHex openingHex
        (some sampleOpening)
      = (⟨404, .error "repertoire not found"⟩, stockedDB) :=
  have h := foreign_repertoire_not_found stockedDB 8 3 bobHex repertoireHex openingHex none
    (some sampleOpening) 178 stockedRepertoire (by decide) (List.mem_singleton_self _)
    (by decide) (by decide) (by decide)
  ⟨h.1, h.2.2.2.2.1⟩

/-- C13: a session is stored under owner `A`; a caller `B ≠ A` addresses it by its
identifier. `GetSession`, `SubmitMove` (for every body) and `End` answer `404` and
leave the database as it was: no move appended, no stats or end time written. -/
theorem foreign_session_not_found (db : DB) (repoNow handlerNow : Time)
    (callerStr sessionId : String) (body : Option SubmitMoveRequest) (caller : ObjectID)
    (session : PracticeSession)
    (hwf : uniqueIDs db.practice_sessions)
    (hmem : session ∈ db.practice_sessions)
    (howner : session.UserID ≠ caller)
    (hu : getUserID callerStr = some caller)
    (hs : parseObjectID sessionId = some session.ID) :
    PracticeHandler.GetSession db callerStr sessionId
      = (⟨404, .error "session not found"⟩, db) ∧
    PracticeHandler.SubmitMove db callerStr sessionId body
      = (⟨404, .error "session not found"⟩, db) ∧
    PracticeHandler.End db repoNow handlerNow callerStr sessionId
      = (⟨404, .error "session not found"⟩, db) := by
  have hf := find_foreign hwf hmem howner
  refine ⟨?_, ?_, ?_⟩
  · simp [PracticeHandler.GetSession, hu, hs, hf, StatusNotFound]
  · simp [PracticeHandler.SubmitMove, hu, hs, hf, StatusNotFound]
  · simp [PracticeHandler.End, hu, hs, hf, StatusNotFound]

theorem foreign_session_not_found_witness :
    PracticeHandler.SubmitMove stockedDB bobHex sessionHex (some (sampleMove "book"))
      = (⟨404, .error "session not found"⟩, stockedDB) :=
  (foreign_session_not_found stockedDB 5 6 bobHex sessionHex (some (sampleMove "book")) 178
    activeSession (by decide) (List.mem_singleton_self _) (by decide) (by decide)
    (by decide)).2.1

/-! ## Openings of a repertoire (C14 to C17, C20) -/

theorem AddOpening_eq (db : DB) (newID : ObjectID) (now : Time) (userIDStr id : String)
    (body : Option AddOpeningRequest) {userID repertoireID : ObjectID}
    {repertoire : Repertoire} {req : AddOpeningRequest}
    (hwf : uniqueRepertoireIDs db.repertoires)
    (hu : getUserID userIDStr = some userID)
    (hid : parseObjectID id = some repertoireID)
    (hf : RepertoireRepository.FindByIDAndUserID db.repertoires repertoireID userID
      = some repertoire)
    (hb : bindAddOpeningRequest body = some req) :
    RepertoireHandler.AddOpening db newID now userIDStr id body =
      (⟨StatusCreated, .opening (openingOf NilObjectID req)⟩,
        { db with repertoires := db.repertoires.map (fun r =>
            if r = repertoire then
              { repertoire with Openings := repertoire.Openings ++ [openingOf newID req],
                                UpdatedAt := now }
            else r) }) := by
  obtain ⟨hmem, hrid, -⟩ := repertoire_find_some hf
  subst hrid
  have hupd := updateOne_key (fun r : Repertoire => r.ID) hwf hmem
    (fun r => { r with Openings := r.Openings ++ [openingOf newID req], UpdatedAt := now })
  unfold RepertoireHandler.AddOpening
  simp only [hu, hid, hf, hb, RepertoireRepository.AddOpening]
  rw [← hupd]
  rfl

theorem UpdateOpening_eq (db : DB) (now : Time) (userIDStr id openingId : String)
    (body : Option AddOpeningRequest) {userID repertoireID openingID : ObjectID}
    {repertoire : Repertoire} {req : AddOpeningRequest}
    (hwf : uniqueRepertoireIDs db.repertoires)
    (hu : getUserID userIDStr = some userID)
    (hid : parseObjectID id = some repertoireID)
    (ho : parseObjectID openingId = some openingID)
    (hf : RepertoireRepository.FindByIDAndUserID db.repertoires repertoireID userID
      = some repertoire)
    (hb : bindAddOpeningRequest body = some req) :
    RepertoireHandler.UpdateOpening db now userIDStr id openingId body =
      (⟨StatusOK, .opening (openingOf openingID req)⟩,
        { db with repertoires :=
            if repertoire.Openings.any (fun o => o.ID == openingID) then
              db.repertoires.map (fun r =>
                if r = repertoire then
                  { repertoire with
                    Openings := updateOne (fun o => o.ID == openingID)
                      (fun _ => openingOf openingID req) repertoire.Openings,
                    UpdatedAt := now }
                else r)
            else db.repertoires }) := by
  obtain ⟨hmem, hrid, -⟩ := repertoire_find_some hf
  subst hrid
  have hupd := updateOne_key_cond (fun r : Repertoire => r.ID) hwf hmem
    (fun r => r.Openings.any (fun o => o.ID == openingID))
    (fun r => { r with
      Openings := updateOne (fun o => o.ID == openingID) (fun _ => openingOf openingID req)
        r.Openings,
      UpdatedAt := now })
  unfold RepertoireHandler.UpdateOpening
  simp only [hu, hid, ho, hf, hb, RepertoireRepository.UpdateOpening]
  rw [← hupd]
  rfl

theorem DeleteOpening_eq (db : DB) (now : Time) (userIDStr id openingId : String)
    {userID repertoireID openingID : ObjectID} {repertoire : Repertoire}
    (hwf : uniqueRepertoireIDs db.repertoires)
    (hu : getUserID userIDStr = some userID)
    (hid : parseObjectID id = some repertoireID)
    (ho : parseObjectID openingId = some openingID)
    (hf : RepertoireRepository.FindByIDAndUserID db.repertoires repertoireID userID
      = some repertoire) :
    RepertoireHandler.DeleteOpening db now userIDStr id openingId =
      (⟨StatusOK, .message "opening deleted"⟩,
        { db with repertoires := db.repertoires.map (fun r =>
            if r = repertoire then
              { repertoire with
                Openings := repertoire.Openings.filter (fun o => !(o.ID == openingID)),
                UpdatedAt := now }
            else r) }) := by
  obtain ⟨hmem, hrid, -⟩ := repertoire_find_some hf
  subst hrid
  have hupd := updateOne_key (fun r : Repertoire => r.ID) hwf hmem
    (fun r => { r with
      Openings := r.Openings.filter (fun o => !(o.ID == openingID)), UpdatedAt := now })
  unfold RepertoireHandler.DeleteOpening
  simp only [hu, hid, ho, hf, RepertoireRepository.DeleteOpening]
  rw [← hupd]

/-- C14 (the code at the failing input): the owner adds `sampleOpening` to the
sample repertoire. The response carries the nil identifier, the opening stored and
returned by `Get` carries the fresh identifier `9`: the two identities differ. -/
theorem AddOpening_response_identity :
    (RepertoireHandler.AddOpening sampleDB 9 2 aliceHex repertoireHex
        (some sampleOpening)).1 = ⟨201, .opening (openingOf 0 sampleOpening)⟩ ∧
    (RepertoireHandler.Get
        (RepertoireHandler.AddOpening sampleDB 9 2 aliceHex repertoireHex
          (some sampleOpening)).2 aliceHex repertoireHex).1 =
      ⟨200, .repertoire { sampleRepertoire with
        Openings := [openingOf 9 sampleOpening], UpdatedAt := 2 }⟩ ∧
    (openingOf 0 sampleOpening).ID ≠ (openingOf 9 sampleOpening).ID := by
  refine ⟨rfl, rfl, by decide⟩

theorem UpdateOpening_matched (db : DB) (now : Time) (userIDStr id openingId : String)
    (body : Option AddOpeningRequest) {userID repertoireID openingID : ObjectID}
    {repertoire : Repertoire} {req : AddOpeningRequest}
    {pre post : List Opening} {old : Opening}
    (hwf : uniqueRepertoireIDs db.repertoires)
    (hu : getUserID userIDStr = some userID)
    (hid : parseObjectID id = some repertoireID)
    (ho : parseObjectID openingId = some openingID)
    (hf : RepertoireRepository.FindByIDAndUserID db.repertoires repertoireID userID
      = some repertoire)
    (hb : bindAddOpeningRequest body = some req)
    (hsplit : repertoire.Openings = pre ++ old :: post)
    (hold : old.ID = openingID)
    (hpre : ∀ o ∈ pre, o.ID ≠ openingID) :
    RepertoireHandler.UpdateOpening db now userIDStr id openingId body =
      (⟨StatusOK, .opening (openingOf openingID req)⟩,
        { db with repertoires := db.repertoires.map (fun r =>
            if r = repertoire then
              { repertoire with Openings := pre ++ openingOf openingID req :: post,
                                UpdatedAt := now }
            else r) }) := by
  have hany : repertoire.Openings.any (fun o => o.ID == openingID) = true := by
    rw [hsplit]
    exact List.any_eq_true.2 ⟨old, by simp, by simpa using hold⟩
  have hrepl : updateOne (fun o => o.ID == openingID) (fun _ => openingOf openingID req)
      repertoire.Openings = pre ++ openingOf openingID req :: post := by
    rw [hsplit]
    exact updateOne_split _ _ pre old post (fun o hmem => by simpa using hpre o hmem)
      (by simpa using hold)
  rw [UpdateOpening_eq db now userIDStr id openingId body hwf hu hid ho hf hb, if_pos hany,
    hrepl]

/-- C15: `UpdateOpening` by the owner with an opening identifier that no opening
of the repertoire carries changes nothing in the database (opening set and
`updated_at` included) and still answers `200` with the submitted opening. -/
theorem UpdateOpening_no_match (db : DB) (now : Time) (userIDStr id openingId : String)
    (body : Option AddOpeningRequest) (userID repertoireID openingID : ObjectID)
    (repertoire : Repertoire) (req : AddOpeningRequest)
    (hwf : uniqueRepertoireIDs db.repertoires)
    (hu : getUserID userIDStr = some userID)
    (hid : parseObjectID id = some repertoireID)
    (ho : parseObjectID openingId = some openingID)
    (hf : RepertoireRepository.FindByIDAndUserID db.repertoires repertoireID userID
      = some repertoire)
    (hb : bindAddOpeningRequest body = some req)
    (hno : ∀ o ∈ repertoire.Openings, o.ID ≠ openingID) :
    RepertoireHandler.UpdateOpening db now userIDStr id openingId body =
      (⟨200, .opening { ID := openingID, Name := req.Name, ECO := req.ECO,
                        StartingFEN := req.StartingFEN, Moves := req.Moves }⟩, db) := by
  have hany : repertoire.Openings.any (fun o => o.ID == openingID) = false := by
    rw [Bool.eq_false_iff]
    intro h
    obtain ⟨o, hmem, he⟩ := List.any_eq_true.1 h
    exact hno o hmem (by simpa using he)
  rw [UpdateOpening_eq db now userIDStr id openingId body hwf hu hid ho hf hb]
  simp [hany, StatusOK, openingOf]

theorem UpdateOpening_no_match_witness :
    RepertoireHandler.UpdateOpening stockedDB 3 aliceHex repertoireHex sessionHex
        (some repeatedFenOpening) =
      (⟨200, .opening { ID := 7, Name := "Loop", ECO := "", StartingFEN := "start",
                        Moves := [repeatedFenTree] }⟩, stockedDB) :=
  UpdateOpening_no_match stockedDB 3 aliceHex repertoireHex sessionHex
    (some repeatedFenOpening) 161 195 7 stockedRepertoire repeatedFenOpening
    (by decide) (by decide) (by decide) (by decide) rfl rfl (by decide)

/-- C16: `UpdateOpening` by the owner with an opening identifier carried by a
stored opening (`old`, the first such) answers `200` with the opening built from
the request under that identifier and puts it in the place of `old`: the openings
before and after it, the owner, name and color of the repertoire, every other
repertoire and the sessions are as before. -/
theorem UpdateOpening_replaces (db : DB) (now : Time) (userIDStr id openingId : String)
    (body : Option AddOpeningRequest) (userID repertoireID openingID : ObjectID)
    (repertoire : Repertoire) (req : AddOpeningRequest)
    (pre post : List Opening) (old : Opening)
    (hwf : uniqueRepertoireIDs db.repertoires)
    (hu : getUserID userIDStr = some userID)
    (hid : parseObjectID id = some repertoireID)
    (ho : parseObjectID openingId = some openingID)
    (hf : RepertoireRepository.FindByIDAndUserID db.repertoires repertoireID userID
      = some repertoire)
    (hb : bindAddOpeningRequest body = some req)
    (hsplit : repertoire.Openings = pre ++ old :: post)
    (hold : old.ID = openingID)
    (hpre : ∀ o ∈ pre, o.ID ≠ openingID) :
    (RepertoireHandler.UpdateOpening db now userIDStr id openingId body).1 =
      ⟨200, .opening { ID := openingID, Name := req.Name, ECO := req.ECO,
                       StartingFEN := req.StartingFEN, Moves := req.Moves }⟩ ∧
    (RepertoireHandler.UpdateOpening db now userIDStr id openingId body).2.repertoires =
      db.repertoires.map (fun r =>
        if r = repertoire then
          { repertoire with
            Openings := pre ++ { ID := openingID, Name := req.Name, ECO := req.ECO,
                                 StartingFEN := req.StartingFEN, Moves := req.Moves } :: post,
            UpdatedAt := now }
        else r) ∧
    RepertoireRepository.FindByIDAndUserID
        (RepertoireHandler.UpdateOpening db now userIDStr id openingId body).2.repertoires
        repertoireID userID =
      some { repertoire with
        Openings := pre ++ { ID := openingID, Name := req.Name, ECO := req.ECO,
                             StartingFEN := req.StartingFEN, Moves := req.Moves } :: post,
        UpdatedAt := now } ∧
    (RepertoireHandler.UpdateOpening db now userIDStr id openingId body).2.practice_sessions =
      db.practice_sessions := by
  rw [UpdateOpening_matched db now userIDStr id openingId body hwf hu hid ho hf hb hsplit
    hold hpre]
  refine ⟨rfl, rfl, ?_, rfl⟩
  exact repertoire_find_rewritten hf
    (fun r => { r with Openings := pre ++ openingOf openingID req :: post, UpdatedAt := now })
    rfl rfl

theorem UpdateOpening_replaces_witness :
    (RepertoireHandler.UpdateOpening stockedDB 3 aliceHex repertoireHex openingHex
        (some repeatedFenOpening)).2.repertoires =
      [{ stockedRepertoire with
          Openings := [{ ID := 9, Name := "Loop", ECO := "", StartingFEN := "start",
                         Moves := [repeatedFenTree] }],
          UpdatedAt := 3 }] :=
  (UpdateOpening_replaces stockedDB 3 aliceHex repertoireHex openingHex
    (some repeatedFenOpening) 161 195 9 stockedRepertoire repeatedFenOpening [] []
    (openingOf 9 sampleOpening) (by decide) (by decide) (by decide) (by decide) rfl rfl rfl
    rfl (by simp)).2.1

/-- C17: after a `DeleteOpening` by the owner the repertoire's openings are the
former ones without those carrying the given identifier, in their former order:
none with that identifier is left, every other one is kept unchanged. Owner, name
and color of the repertoire, the other repertoires and the sessions are as before. -/
theorem DeleteOpening_removes (db : DB) (now : Time) (userIDStr id openingId : String)
    (userID repertoireID openingID : ObjectID) (repertoire : Repertoire)
    (hwf : uniqueRepertoireIDs db.repertoires)
    (hu : getUserID userIDStr = some userID)
    (hid : parseObjectID id = some repertoireID)
    (ho : parseObjectID openingId = some openingID)
    (hf : RepertoireRepository.FindByIDAndUserID db.repertoires repertoireID userID
      = some repertoire) :
    ∃ stored : Repertoire,
      RepertoireHandler.DeleteOpening db now userIDStr id openingId =
        (⟨200, .message "opening deleted"⟩,
          { db with repertoires :=
              db.repertoires.map (fun r => if r = repertoire then stored else r) }) ∧
      RepertoireRepository.FindByIDAndUserID
          (RepertoireHandler.DeleteOpening db now userIDStr id openingId).2.repertoires
          repertoireID userID = some stored ∧
      stored.Openings = repertoire.Openings.filter (fun o => decide (o.ID ≠ openingID)) ∧
      (∀ o ∈ stored.Openings, o.ID ≠ openingID) ∧
      (∀ o ∈ repertoire.Openings, o.ID ≠ openingID → o ∈ stored.Openings) ∧
      stored.Openings.Sublist repertoire.Openings ∧
      stored.ID = repertoire.ID ∧ stored.UserID = repertoire.UserID ∧
      stored.Name = repertoire.Name ∧ stored.Color = repertoire.Color := by
  have heq := DeleteOpening_eq db now userIDStr id openingId hwf hu hid ho hf
  have hfilter : repertoire.Openings.filter (fun o => !(o.ID == openingID)) =
      repertoire.Openings.filter (fun o => decide (o.ID ≠ openingID)) := by
    congr 1; funext o
    by_cases h : o.ID = openingID <;> simp [h]
  refine ⟨{ repertoire with
      Openings := repertoire.Openings.filter (fun o => !(o.ID == openingID)),
      UpdatedAt := now }, heq, ?_, hfilter, ?_, ?_, ?_, rfl, rfl, rfl, rfl⟩
  · rw [heq]
    exact repertoire_find_rewritten hf
      (fun r => { r with
        Openings := repertoire.Openings.filter (fun o => !(o.ID == openingID)),
        UpdatedAt := now }) rfl rfl
  · intro o hmem
    have := (List.mem_filter.1 hmem).2
    simpa using this
  · intro o hmem hne
    exact List.mem_filter.2 ⟨hmem, by simpa using hne⟩
  · exact List.filter_sublist _

theorem DeleteOpening_removes_witness :
    ∃ stored : Repertoire,
      (RepertoireHandler.DeleteOpening stockedDB 3 aliceHex repertoireHex openingHex).1 =
        ⟨200, .message "opening deleted"⟩ ∧
      stored.Openings = stockedRepertoire.Openings.filter (fun o => decide (o.ID ≠ 9)) := by
  obtain ⟨stored, h1, -, h3, -⟩ :=
    DeleteOpening_removes stockedDB 3 aliceHex repertoireHex openingHex 161 195 9
      stockedRepertoire (by decide) (by decide) (by decide) (by decide) rfl
  exact ⟨stored, by rw [h1], h3⟩

/-- C20 (counterexample): the owner adds an opening whose tree has a child with
the FEN of its parent; the request is answered `201` and the tree is stored. -/
theorem repeated_fen_is_stored :
    fenDiffer repeatedFenOpening.Moves = false ∧
    (RepertoireHandler.AddOpening sampleDB 9 2 aliceHex repertoireHex
      (some repeatedFenOpening)).1.status = 201 ∧
    RepertoireRepository.FindByIDAndUserID
        (RepertoireHandler.AddOpening sampleDB 9 2 aliceHex repertoireHex
          (some repeatedFenOpening)).2.repertoires 195 161 =
      some { sampleRepertoire with
        Openings := [{ ID := 9, Name := "Loop", ECO := "", StartingFEN := "start",
                       Moves := [repeatedFenTree] }],
        UpdatedAt := 2 } := by
  refine ⟨by decide, rfl, rfl⟩

/-- C20 (amended): an opening stored through `AddOpening` or `UpdateOpening` carries
the move tree of the request as it was sent, whatever its FENs are; so in the
stored tree each child's FEN differs from its parent's exactly when it does in
the request, and no request is turned away for its tree. -/
theorem openings_keep_request_tree (db : DB) (newID : ObjectID) (now : Time)
    (userIDStr id : String) (body : Option AddOpeningRequest)
    (userID repertoireID : ObjectID) (repertoire : Repertoire) (req : AddOpeningRequest)
    (hwf : uniqueRepertoireIDs db.repertoires)
    (hu : getUserID userIDStr = some userID)
    (hid : parseObjectID id = some repertoireID)
    (hf : RepertoireRepository.FindByIDAndUserID db.repertoires repertoireID userID
      = some repertoire)
    (hb : bindAddOpeningRequest body = some req) :
    (∃ stored : Opening,
      RepertoireRepository.FindByIDAndUserID
          (RepertoireHandler.AddOpening db newID now userIDStr id body).2.repertoires
          repertoireID userID =
        some { repertoire with Openings := repertoire.Openings ++ [stored],
                               UpdatedAt := now } ∧
      stored.Moves = req.Moves ∧ fenDiffer stored.Moves = fenDiffer req.Moves) ∧
    (∀ (openingId : String) (openingID : ObjectID) (pre post : List Opening) (old : Opening),
      parseObjectID openingId = some openingID →
      repertoire.Openings = pre ++ old :: post → old.ID = openingID →
      (∀ o ∈ pre, o.ID ≠ openingID) →
      ∃ stored : Opening,
        RepertoireRepository.FindByIDAndUserID
            (RepertoireHandler.UpdateOpening db now userIDStr id openingId body).2.repertoires
            repertoireID userID =
          some { repertoire with Openings := pre ++ stored :: post, UpdatedAt := now } ∧
        stored.Moves = req.Moves ∧ fenDiffer stored.Moves = fenDiffer req.Moves) := by
  constructor
  · refine ⟨openingOf newID req, ?_, rfl, rfl⟩
    rw [AddOpening_eq db newID now userIDStr id body hwf hu hid hf hb]
    exact repertoire_find_rewritten hf
      (fun r => { r with Openings := repertoire.Openings ++ [openingOf newID req],
                         UpdatedAt := now }) rfl rfl
  · intro openingId openingID pre post old ho hsplit hold hpre
    refine ⟨openingOf openingID req, ?_, rfl, rfl⟩
    rw [UpdateOpening_matched db now userIDStr id openingId body hwf hu hid ho hf hb hsplit
      hold hpre]
    exact repertoire_find_rewritten hf
      (fun r => { r with Openings := pre ++ openingOf openingID req :: post,
                         UpdatedAt := now }) rfl rfl

theorem openings_keep_request_tree_witness :
    ∃ stored : Opening,
      RepertoireRepository.FindByIDAndUserID
          (RepertoireHandler.AddOpening stockedDB 10 3 aliceHex repertoireHex
            (some repeatedFenOpening)).2.repertoires 195 161 =
        some { stockedRepertoire with
          Openings := stockedRepertoire.Openings ++ [stored], UpdatedAt := 3 } ∧
      stored.Moves = [repeatedFenTree] :=
  have h := (openings_keep_request_tree stockedDB 10 3 aliceHex repertoireHex
    (some repeatedFenOpening) 161 195 stockedRepertoire repeatedFenOpening
    (by decide) (by decide) (by decide) rfl rfl).1
  h.elim fun stored hs => ⟨stored, hs.1, hs.2.1⟩

/-! ## History (C18) -/

/-- C18: `History` answers `200` with sessions that are all stored and owned by the
caller, in descending order of start time, `min 50 n` of the caller's `n` stored
sessions; every session of the caller that is left out started no later than
every session returned; when the caller owns no session the list is empty. -/
theorem History_recent (db : DB) (userIDStr : String) (userID : ObjectID)
    (hu : getUserID userIDStr = some userID) :
    ∃ sessions : List PracticeSession,
      PracticeHandler.History db userIDStr = (⟨200, .sessions sessions⟩, db) ∧
      (∀ s ∈ sessions, s ∈ db.practice_sessions ∧ s.UserID = userID) ∧
      sessions.Pairwise (fun a b => a.StartedAt ≥ b.StartedAt) ∧
      sessions.length ≤ 50 ∧
      sessions.length =
        min 50 (db.practice_sessions.filter (fun s => s.UserID == userID)).length ∧
      (∀ s ∈ db.practice_sessions, s.UserID = userID → s ∉ sessions →
        ∀ t ∈ sessions, s.StartedAt ≤ t.StartedAt) ∧
      ((∀ s ∈ db.practice_sessions, s.UserID ≠ userID) → sessions = []) := by
  haveI : IsTotal PracticeSession (fun a b => a.StartedAt ≥ b.StartedAt) :=
    ⟨fun a b => Nat.le_total b.StartedAt a.StartedAt⟩
  haveI : IsTrans PracticeSession (fun a b => a.StartedAt ≥ b.StartedAt) :=
    ⟨fun a b c hab hbc => Nat.le_trans hbc hab⟩
  have hsorted := List.sorted_insertionSort (fun a b : PracticeSession => a.StartedAt ≥ b.StartedAt)
    (db.practice_sessions.filter (fun s => s.UserID == userID))
  have hperm := List.perm_insertionSort (fun a b : PracticeSession => a.StartedAt ≥ b.StartedAt)
    (db.practice_sessions.filter (fun s => s.UserID == userID))
  generalize hsd : (db.practice_sessions.filter (fun s => s.UserID == userID)).insertionSort
    (fun a b => a.StartedAt ≥ b.StartedAt) = sorted at hsorted hperm
  have hres : PracticeHandler.History db userIDStr = (⟨200, .sessions (sorted.take 50)⟩, db) := by
    simp [PracticeHandler.History, hu, PracticeRepository.FindByUserID, hsd, StatusOK]
  refine ⟨sorted.take 50, hres, ?_, ?_, ?_, ?_, ?_, ?_⟩
  · intro s hs
    have h1 : s ∈ sorted := List.mem_of_mem_take hs
    have h2 := List.mem_filter.1 (hperm.mem_iff.1 h1)
    exact ⟨h2.1, by simpa using h2.2⟩
  · exact List.Pairwise.sublist (List.take_sublist 50 sorted) hsorted
  · exact List.length_take_le 50 sorted
  · rw [List.length_take, hperm.length_eq]
  · intro s hs howner hnot t ht
    have h1 : s ∈ sorted :=
      hperm.mem_iff.2 (List.mem_filter.2 ⟨hs, by simpa using howner⟩)
    rw [← List.take_append_drop 50 sorted] at h1 hsorted
    have h2 : s ∈ sorted.drop 50 := by
      rcases List.mem_append.1 h1 with h | h
      · exact absurd h hnot
      · exact h
    exact (List.pairwise_append.1 hsorted).2.2 t ht s h2
  · intro hnone
    have : db.practice_sessions.filter (fun s => s.UserID == userID) = [] := by
      rw [List.filter_eq_nil_iff]
      intro s hs
      simpa using hnone s hs
    rw [this] at hperm
    rw [List.Perm.eq_nil hperm]
    rfl

theorem History_recent_witness :
    ∃ sessions : List PracticeSession,
      PracticeHandler.History stockedDB aliceHex = (⟨200, .sessions sessions⟩, stockedDB) ∧
      sessions.length ≤ 50 := by
  obtain ⟨sessions, h1, -, -, h4, -⟩ := History_recent stockedDB aliceHex 161 (by decide)
  exact ⟨sessions, h1, h4⟩

/-! ## Statistics: sum of the counters (C23), order of the moves (C24) -/

theorem calculateStats_fields (moves : List PracticeMove) :
    (calculateStats moves).TotalMoves = moves.length ∧
    (calculateStats moves).BookMoves = labelled ["book", "repertoire"] moves ∧
    (calculateStats moves).BestMoves = labelled ["best"] moves ∧
    (calculateStats moves).GoodMoves = labelled ["good"] moves ∧
    (calculateStats moves).Inaccuracies = labelled ["inaccuracy"] moves ∧
    (calculateStats moves).Mistakes = labelled ["mistake"] moves ∧
    (calculateStats moves).Blunders = labelled ["blunder"] moves := by
  rw [calculateStats_eq]
  split_ifs <;> simp [counters]

/-- The six label classes are disjoint and make up the known labels. -/
theorem labelled_sum (moves : List PracticeMove) :
    labelled ["book", "repertoire"] moves + labelled ["best"] moves + labelled ["good"] moves
      + labelled ["inaccuracy"] moves + labelled ["mistake"] moves
      + labelled ["blunder"] moves = labelled knownLabels moves := by
  induction moves with
  | nil => rfl
  | cons move moves ih =>
    simp only [labelled_cons]
    have hstep : ((if move.Category ∈ ["book", "repertoire"] then 1 else 0)
        + (if move.Category ∈ ["best"] then 1 else 0)
        + (if move.Category ∈ ["good"] then 1 else 0)
        + (if move.Category ∈ ["inaccuracy"] then 1 else 0)
        + (if move.Category ∈ ["mistake"] then 1 else 0)
        + (if move.Category ∈ ["blunder"] then 1 else 0) : Nat)
        = if move.Category ∈ knownLabels then 1 else 0 := by
      unfold knownLabels
      by_cases h1 : move.Category = "repertoire"
      · simp [h1]
      by_cases h2 : move.Category = "mistake"
      · simp [h2]
      by_cases h3 : move.Category = "book"
      · simp [h3]
      by_cases h4 : move.Category = "best"
      · simp [h4]
      by_cases h5 : move.Category = "good"
      · simp [h5]
      by_cases h6 : move.Category = "inaccuracy"
      · simp [h6]
      by_cases h7 : move.Category = "blunder"
      · simp [h7]
      simp [h1, h2, h3, h4, h5, h6, h7]
    omega

theorem counterSum_eq (moves : List PracticeMove) :
    counterSum (calculateStats moves) = labelled knownLabels moves := by
  obtain ⟨-, h2, h3, h4, h5, h6, h7⟩ := calculateStats_fields moves
  unfold counterSum
  rw [h2, h3, h4, h5, h6, h7, labelled_sum]

theorem labelled_insert_unknown (labels : List String) (pre post : List PracticeMove)
    (move : PracticeMove) (h : move.Category ∉ labels) :
    labelled labels (pre ++ move :: post) = labelled labels (pre ++ post) := by
  simp [labelled, List.countP_append, List.countP_cons, h]

/-- C23: the six counters of `calculateStats` add up to at most `TotalMoves`, and to
exactly `TotalMoves` when and only when every move carries one of the labels
`repertoire`, `book`, `best`, `good`, `inaccuracy`, `mistake`, `blunder`. A move
with any other label, wherever it stands in the list, adds one to `TotalMoves` and
leaves every counter as it is without that move. -/
theorem calculateStats_counter_sum (moves : List PracticeMove) :
    counterSum (calculateStats moves) ≤ (calculateStats moves).TotalMoves ∧
    (counterSum (calculateStats moves) = (calculateStats moves).TotalMoves ↔
      ∀ m ∈ moves, m.Category ∈
        ["repertoire", "book", "best", "good", "inaccuracy", "mistake", "blunder"]) ∧
    (∀ (pre post : List PracticeMove) (m : PracticeMove), moves = pre ++ m :: post →
      m.Category ∉ ["repertoire", "book", "best", "good", "inaccuracy", "mistake", "blunder"] →
      (calculateStats moves).TotalMoves = (calculateStats (pre ++ post)).TotalMoves + 1 ∧
      (calculateStats moves).BookMoves = (calculateStats (pre ++ post)).BookMoves ∧
      (calculateStats moves).BestMoves = (calculateStats (pre ++ post)).BestMoves ∧
      (calculateStats moves).GoodMoves = (calculateStats (pre ++ post)).GoodMoves ∧
      (calculateStats moves).Inaccuracies = (calculateStats (pre ++ post)).Inaccuracies ∧
      (calculateStats moves).Mistakes = (calculateStats (pre ++ post)).Mistakes ∧
      (calculateStats moves).Blunders = (calculateStats (pre ++ post)).Blunders) := by
  have htotal := (calculateStats_fields moves).1
  refine ⟨?_, ?_, ?_⟩
  · rw [counterSum_eq, htotal]
    exact List.countP_le_length _
  · rw [counterSum_eq, htotal]
    unfold labelled
    rw [List.countP_eq_length]
    simp [knownLabels]
  · intro pre post m hsplit hm
    subst hsplit
    obtain ⟨a1, a2, a3, a4, a5, a6, a7⟩ := calculateStats_fields (pre ++ m :: post)
    obtain ⟨b1, b2, b3, b4, b5, b6, b7⟩ := calculateStats_fields (pre ++ post)
    simp only [List.mem_cons, List.mem_singleton, List.not_mem_nil, or_false, not_or] at hm
    obtain ⟨m1, m2, m3, m4, m5, m6, m7⟩ := hm
    rw [a1, a2, a3, a4, a5, a6, a7, b1, b2, b3, b4, b5, b6, b7]
    refine ⟨by simp; omega, ?_, ?_, ?_, ?_, ?_, ?_⟩ <;>
      apply labelled_insert_unknown <;> simp [m1, m2, m3, m4, m5, m6, m7]

theorem calculateStats_counter_sum_witness :
    (calculateStats [sampleRecorded "book", sampleRecorded "Book"]).TotalMoves =
      (calculateStats [sampleRecorded "book"]).TotalMoves + 1 ∧
    (calculateStats [sampleRecorded "book", sampleRecorded "Book"]).BookMoves =
      (calculateStats [sampleRecorded "book"]).BookMoves :=
  have h := (calculateStats_counter_sum [sampleRecorded "book", sampleRecorded "Book"]).2.2
    [sampleRecorded "book"] [] (sampleRecorded "Book") rfl (by decide)
  ⟨h.1, h.2.1⟩

theorem labelled_perm (labels : List String) (moves₁ moves₂ : List PracticeMove)
    (h : (moves₁.map fun m => m.Category).Perm (moves₂.map fun m => m.Category)) :
    labelled labels moves₁ = labelled labels moves₂ := by
  have h1 := h.countP_eq (fun c => decide (c ∈ labels))
  rw [List.countP_map, List.countP_map] at h1
  exact h1

/-- C24: two lists of moves whose sequences of categories are permutations of each
other get the same result from `calculateStats`, counters and accuracy, whatever
their plies, FENs, moves, evaluations and centipawn losses are. -/
theorem calculateStats_perm (moves₁ moves₂ : List PracticeMove)
    (h : (moves₁.map fun m => m.Category).Perm (moves₂.map fun m => m.Category)) :
    calculateStats moves₁ = calculateStats moves₂ := by
  have hlen : moves₁.length = moves₂.length := by
    simpa using h.length_eq
  simp only [calculateStats_eq, counters, hlen,
    labelled_perm ["book", "repertoire"] moves₁ moves₂ h, labelled_perm ["best"] moves₁ moves₂ h,
    labelled_perm ["good"] moves₁ moves₂ h, labelled_perm ["inaccuracy"] moves₁ moves₂ h,
    labelled_perm ["mistake"] moves₁ moves₂ h, labelled_perm ["blunder"] moves₁ moves₂ h]

theorem calculateStats_perm_witness :
    calculateStats [recordedMove 0 (sampleMove "book"), recordedMove 1 (sampleMove "blunder")] =
      calculateStats [recordedMove 5 (sampleMove "blunder"), recordedMove 3 (sampleMove "book")] :=
  calculateStats_perm _ _ (List.Perm.swap _ _ _)

/-! ## Malformed identifiers in `Start` (C22) -/

/-- C22 (counterexample): a `Start` whose `opening_id` is the non-empty string
`not-an-object-id` is answered `201` and a session without opening reference is
stored, where the claim asks for a `400`. -/
theorem Start_accepts_malformed_opening :
    malformedOpeningStart.OpeningID ≠ "" ∧
    parseObjectID malformedOpeningStart.OpeningID = none ∧
    (PracticeHandler.Start sampleDB 7 1 aliceHex (some malformedOpeningStart)).1.status = 201 ∧
    (PracticeHandler.Start sampleDB 7 1 aliceHex
      (some malformedOpeningStart)).2.practice_sessions = [activeSession] := by
  refine ⟨by decide, by decide, rfl, rfl⟩

/-- C22 (amended): a `Start` whose `repertoire_id` is no object ID answers `400` and
leaves the database as it was. An `opening_id` that is no object ID is not
rejected: it is ignored, and a `Start` that succeeds answers `201` and stores a
session whose opening reference is the nil identifier. -/
theorem Start_malformed_identifiers (db : DB) (newID : ObjectID) (now : Time)
    (userIDStr : String) (body : Option StartPracticeRequest) (userID : ObjectID)
    (req : StartPracticeRequest)
    (hu : getUserID userIDStr = some userID)
    (hb : bindStartPracticeRequest body = some req) :
    (parseObjectID req.RepertoireID = none →
      PracticeHandler.Start db newID now userIDStr body =
        (⟨400, .error "invalid repertoire ID"⟩, db)) ∧
    (∀ (repertoireID : ObjectID) (repertoire : Repertoire),
      parseObjectID req.RepertoireID = some repertoireID →
      RepertoireRepository.FindByIDAndUserID db.repertoires repertoireID userID
        = some repertoire →
      (∀ s ∈ db.practice_sessions, s.ID ≠ newID) →
      parseObjectID req.OpeningID = none →
      ∃ session : PracticeSession,
        PracticeHandler.Start db newID now userIDStr body =
          (⟨201, .session session⟩,
            { db with practice_sessions := db.practice_sessions ++ [session] }) ∧
        session.OpeningID = NilObjectID) := by
  constructor
  · intro hr
    unfold PracticeHandler.Start
    simp [hu, hb, hr, StatusBadRequest]
  · intro repertoireID repertoire hr hf hnew ho
    refine ⟨createdSession newID now userID repertoireID req repertoire,
      Start_eq db newID now userIDStr body hu hb hr hf hnew, ?_⟩
    simp [createdSession, ho]

theorem Start_malformed_identifiers_witness :
    PracticeHandler.Start sampleDB 7 1 aliceHex (some malformedRepertoireStart) =
      (⟨400, .error "invalid repertoire ID"⟩, sampleDB) :=
  (Start_malformed_identifiers sampleDB 7 1 aliceHex (some malformedRepertoireStart) 161
    malformedRepertoireStart (by decide) (by decide)).1 (by decide)

/-! ## Ended sessions stay as they are (C25) -/

/-- What one request can do to the session collection: nothing, append a fresh
active session without moves, append a move to an active session, or write end
time and stats of a session. -/
theorem serve_effect (db : DB) (call : PracticeCall) (hwf : uniqueIDs db.practice_sessions) :
    (call.serve db).2.practice_sessions = db.practice_sessions ∨
    (∃ created : PracticeSession, created.EndedAt = none ∧
      (∀ t ∈ db.practice_sessions, t.ID ≠ created.ID) ∧
      (call.serve db).2.practice_sessions = db.practice_sessions ++ [created]) ∨
    (∃ (session : PracticeSession) (move : PracticeMove),
      session ∈ db.practice_sessions ∧ session.EndedAt = none ∧
      (call.serve db).2.practice_sessions = db.practice_sessions.map (fun x =>
        if x = session then { session with Moves := session.Moves ++ [move] } else x)) ∨
    (∃ (session : PracticeSession) (endedAt : Time), session ∈ db.practice_sessions ∧
      (call.serve db).2.practice_sessions = db.practice_sessions.map (fun x =>
        if x = session then
          { session with EndedAt := some endedAt, Stats := calculateStats session.Moves }
        else x)) := by
  cases call with
  | start newID now userIDStr body =>
    show _ ∨ _ ∨ _ ∨ _
    simp only [PracticeCall.serve]
    cases hu : getUserID userIDStr with
    | none => left; simp [PracticeHandler.Start, hu]
    | some userID =>
    cases hb : bindStartPracticeRequest body with
    | none => left; simp [PracticeHandler.Start, hu, hb]
    | some req =>
    cases hr : parseObjectID req.RepertoireID with
    | none => left; simp [PracticeHandler.Start, hu, hb, hr]
    | some repertoireID =>
    cases hf : RepertoireRepository.FindByIDAndUserID db.repertoires repertoireID userID with
    | none => left; simp [PracticeHandler.Start, hu, hb, hr, hf]
    | some repertoire =>
    by_cases hany : (db.practice_sessions.any fun s => s.ID == newID) = true
    · left; simp [PracticeHandler.Start, hu, hb, hr, hf, PracticeRepository.Create, hany]
    · have hnew : ∀ s ∈ db.practice_sessions, s.ID ≠ newID := by
        intro s hs hc
        exact hany (List.any_eq_true.2 ⟨s, hs, by simpa using hc⟩)
      right; left
      rw [Start_eq db newID now userIDStr body hu hb hr hf hnew]
      exact ⟨createdSession newID now userID repertoireID req repertoire, rfl, hnew, rfl⟩
  | submitMove userIDStr sessionId body =>
    simp only [PracticeCall.serve]
    cases hu : getUserID userIDStr with
    | none => left; simp [PracticeHandler.SubmitMove, hu]
    | some userID =>
    cases hs : parseObjectID sessionId with
    | none => left; simp [PracticeHandler.SubmitMove, hu, hs]
    | some sessionID =>
    cases hf : PracticeRepository.FindByIDAndUserID db.practice_sessions sessionID userID with
    | none => left; simp [PracticeHandler.SubmitMove, hu, hs, hf]
    | some session =>
    cases he : session.EndedAt with
    | some t => left; simp [PracticeHandler.SubmitMove, hu, hs, hf, he]
    | none =>
    cases hb : bindSubmitMoveRequest body with
    | none => left; simp [PracticeHandler.SubmitMove, hu, hs, hf, he, hb]
    | some req =>
      right; right; left
      refine ⟨session, recordedMove session.Moves.length req, (find_some hf).1, he, ?_⟩
      rw [SubmitMove_eq db userIDStr sessionId body hu hs hf he hb]
      exact updateOne_found hwf hf _
  | endSession repoNow handlerNow userIDStr sessionId =>
    simp only [PracticeCall.serve]
    cases hu : getUserID userIDStr with
    | none => left; simp [PracticeHandler.End, hu]
    | some userID =>
    cases hs : parseObjectID sessionId with
    | none => left; simp [PracticeHandler.End, hu, hs]
    | some sessionID =>
    cases hf : PracticeRepository.FindByIDAndUserID db.practice_sessions sessionID userID with
    | none => left; simp [PracticeHandler.End, hu, hs, hf]
    | some session =>
      right; right; right
      refine ⟨session, repoNow, (find_some hf).1, ?_⟩
      rw [End_eq db repoNow handlerNow userIDStr sessionId hu hs hf]
      exact updateOne_found hwf hf _

theorem mem_rewritten {collection : List PracticeSession} {session t new : PracticeSession}
    (h : t ∈ collection.map (fun x => if x = session then new else x)) :
    (t = new ∧ session ∈ collection) ∨ (t ∈ collection ∧ t ≠ session) := by
  obtain ⟨x, hx, rfl⟩ := List.mem_map.1 h
  by_cases hxs : x = session
  · left; subst hxs; simp [hx]
  · right; simp [hxs, hx]

/-- One request keeps identifiers unique, keeps the stats of ended sessions equal
to the stats of their moves, and keeps every frozen session frozen. -/
theorem serve_keeps (db : DB) (call : PracticeCall) (hwf : uniqueIDs db.practice_sessions)
    (hinv : endedInv db.practice_sessions) :
    uniqueIDs (call.serve db).2.practice_sessions ∧
    endedInv (call.serve db).2.practice_sessions ∧
    ∀ target : PracticeSession, frozenIn target db.practice_sessions →
      frozenIn target (call.serve db).2.practice_sessions := by
  rcases serve_effect db call hwf with h | ⟨created, hce, hnew, h⟩ |
    ⟨session, move, hmem, hse, h⟩ | ⟨session, endedAt, hmem, h⟩
  · rw [h]; exact ⟨hwf, hinv, fun _ hf => hf⟩
  · rw [h]
    refine ⟨uniqueIDs_append hwf created hnew, ?_, ?_⟩
    · intro t ht hte
      rcases List.mem_append.1 ht with h1 | h1
      · exact hinv t h1 hte
      · rw [List.mem_singleton.1 h1] at hte; exact absurd hce hte
    · intro target ⟨⟨stored, hs, hsid⟩, hall⟩
      refine ⟨⟨stored, List.mem_append_left _ hs, hsid⟩, ?_⟩
      intro t ht htid
      rcases List.mem_append.1 ht with h1 | h1
      · exact hall t h1 htid
      · rw [List.mem_singleton.1 h1] at htid
        exact absurd (hsid.trans htid.symm) (hnew stored hs)
  · rw [h]
    refine ⟨uniqueIDs_rewritten hwf session
      (fun x => { x with Moves := x.Moves ++ [move] }) rfl, ?_, ?_⟩
    · intro t ht hte
      rcases mem_rewritten ht with ⟨rfl, -⟩ | ⟨h1, -⟩
      · exact absurd hse hte
      · exact hinv t h1 hte
    · intro target ⟨⟨stored, hs, hsid⟩, hall⟩
      constructor
      · refine ⟨if stored = session then { session with Moves := session.Moves ++ [move] }
          else stored, List.mem_map.2 ⟨stored, hs, rfl⟩, ?_⟩
        by_cases hc : stored = session
        · simp only [hc, if_true]; rw [← hsid, hc]
        · simp only [hc, if_false]; exact hsid
      · intro t ht htid
        rcases mem_rewritten ht with ⟨rfl, -⟩ | ⟨h1, -⟩
        · exact absurd hse (hall session hmem htid).2.2
        · exact hall t h1 htid
  · rw [h]
    refine ⟨uniqueIDs_rewritten hwf session
      (fun x => { x with EndedAt := some endedAt, Stats := calculateStats session.Moves })
      rfl, ?_, ?_⟩
    · intro t ht hte
      rcases mem_rewritten ht with ⟨rfl, -⟩ | ⟨h1, -⟩
      · rfl
      · exact hinv t h1 hte
    · intro target ⟨⟨stored, hs, hsid⟩, hall⟩
      constructor
      · refine ⟨if stored = session then
            { session with EndedAt := some endedAt, Stats := calculateStats session.Moves }
          else stored, List.mem_map.2 ⟨stored, hs, rfl⟩, ?_⟩
        by_cases hc : stored = session
        · simp only [hc, if_true]; rw [← hsid, hc]
        · simp only [hc, if_false]; exact hsid
      · intro t ht htid
        rcases mem_rewritten ht with ⟨rfl, -⟩ | ⟨h1, -⟩
        · obtain ⟨hm, hst, hen⟩ := hall session hmem htid
          refine ⟨hm, ?_, by simp⟩
          show calculateStats session.Moves = target.Stats
          rw [← hinv session hmem hen, hst]
        · exact hall t h1 htid

theorem serveAll_keeps (calls : List PracticeCall) (db : DB)
    (hwf : uniqueIDs db.practice_sessions) (hinv : endedInv db.practice_sessions) :
    uniqueIDs (serveAll db calls).practice_sessions ∧
    endedInv (serveAll db calls).practice_sessions ∧
    ∀ target : PracticeSession, frozenIn target db.practice_sessions →
      frozenIn target (serveAll db calls).practice_sessions := by
  induction calls generalizing db with
  | nil => exact ⟨hwf, hinv, fun _ h => h⟩
  | cons call calls ih =>
    obtain ⟨h1, h2, h3⟩ := serve_keeps db call hwf hinv
    obtain ⟨k1, k2, k3⟩ := ih (call.serve db).2 h1 h2
    exact ⟨k1, k2, fun target ht => k3 target (h3 target ht)⟩

/-- C25: a session reached from an empty collection by any requests has an end
time stored. Whatever `Start`, `SubmitMove` and `End` requests, by whatever users,
are then served one after another, the collection still holds a session with its
identifier, and every session with that identifier has the same moves, the same
stats and an end time. -/
theorem ended_session_frozen (repertoires : List Repertoire)
    (before after : List PracticeCall) (session : PracticeSession)
    (hmem : session ∈ (serveAll { repertoires := repertoires, practice_sessions := [] }
      before).practice_sessions)
    (hended : session.EndedAt ≠ none) :
    (∃ stored ∈ (serveAll (serveAll { repertoires := repertoires, practice_sessions := [] }
        before) after).practice_sessions, stored.ID = session.ID) ∧
    ∀ stored ∈ (serveAll (serveAll { repertoires := repertoires, practice_sessions := [] }
        before) after).practice_sessions, stored.ID = session.ID →
      stored.Moves = session.Moves ∧ stored.Stats = session.Stats ∧
        stored.EndedAt ≠ none := by
  obtain ⟨hwf, hinv, -⟩ := serveAll_keeps before
    { repertoires := repertoires, practice_sessions := [] } List.nodup_nil
    (fun s hs => absurd hs (List.not_mem_nil s))
  have hfrozen : frozenIn session
      (serveAll { repertoires := repertoires, practice_sessions := [] }
        before).practice_sessions := by
    refine ⟨⟨session, hmem, rfl⟩, ?_⟩
    intro stored hs hid
    rw [eq_of_uniqueIDs hwf hs hmem hid]
    exact ⟨rfl, rfl, hended⟩
  exact (serveAll_keeps after _ hwf hinv).2.2 session hfrozen

theorem ended_session_frozen_witness :
    ∃ stored ∈ (serveAll (serveAll { repertoires := [sampleRepertoire], practice_sessions := [] }
        [.start 7 1 aliceHex (some sampleStart),
         .submitMove aliceHex sessionHex (some (sampleMove "book")),
         .submitMove aliceHex sessionHex (some (sampleMove "best")),
         .endSession 5 5 aliceHex sessionHex])
        [.submitMove aliceHex sessionHex (some (sampleMove "blunder")),
         .endSession 9 9 aliceHex sessionHex]).practice_sessions,
      stored.ID = finishedSession.ID :=
  (ended_session_frozen [sampleRepertoire]
    [.start 7 1 aliceHex (some sampleStart),
     .submitMove aliceHex sessionHex (some (sampleMove "book")),
     .submitMove aliceHex sessionHex (some (sampleMove "best")),
     .endSession 5 5 aliceHex sessionHex]
    [.submitMove aliceHex sessionHex (some (sampleMove "blunder")),
     .endSession 9 9 aliceHex sessionHex]
    finishedSession (List.mem_singleton_self finishedSession) (by decide)).1

/-! ## Updating a repertoire, owners of repertoires (C21) -/

theorem Update_eq (db : DB) (now : Time) (userIDStr id : String)
    (body : Option CreateRepertoireRequest) {userID repertoireID : ObjectID}
    {repertoire : Repertoire} {req : CreateRepertoireRequest}
    (hwf : uniqueRepertoireIDs db.repertoires)
    (hu : getUserID userIDStr = some userID)
    (hid : parseObjectID id = some repertoireID)
    (hf : RepertoireRepository.FindByIDAndUserID db.repertoires repertoireID userID
      = some repertoire)
    (hb : bindCreateRepertoireRequest body = some req) :
    RepertoireHandler.Update db now userIDStr id body =
      (⟨StatusOK, .repertoire
          { repertoire with Name := req.Name, Color := req.Color, UpdatedAt := now }⟩,
        { db with repertoires := db.repertoires.map (fun r =>
            if r = repertoire then
              { repertoire with Name := req.Name, Color := req.Color, UpdatedAt := now }
            else r) }) := by
  obtain ⟨hmem, -, -⟩ := repertoire_find_some hf
  have hupd := updateOne_key (fun r : Repertoire => r.ID) hwf hmem
    (fun _ => { repertoire with Name := req.Name, Color := req.Color, UpdatedAt := now })
  unfold RepertoireHandler.Update
  simp only [hu, hid, hf, hb, RepertoireRepository.Update]
  rw [← hupd]

theorem uniqueRepertoireIDs_rewritten {collection : List Repertoire}
    (hwf : uniqueRepertoireIDs collection) (repertoire new : Repertoire)
    (hid : new.ID = repertoire.ID) :
    uniqueRepertoireIDs (collection.map (fun r => if r = repertoire then new else r)) := by
  unfold uniqueRepertoireIDs at *
  rw [List.map_map]
  have : ((fun r : Repertoire => r.ID) ∘ fun r => if r = repertoire then new else r)
      = fun r => r.ID := by
    funext r
    by_cases h : r = repertoire <;> simp [h, hid]
  rw [this]; exact hwf

theorem ownersKept_rewritten {initial collection : List Repertoire}
    (hown : ownersKept initial collection) {repertoire : Repertoire}
    (hmem : repertoire ∈ collection) (new : Repertoire)
    (hid : new.ID = repertoire.ID) (huser : new.UserID = repertoire.UserID) :
    ownersKept initial (collection.map (fun r => if r = repertoire then new else r)) := by
  intro r' hr' r hr hsame
  obtain ⟨x, hx, rfl⟩ := List.mem_map.1 hr'
  by_cases h : x = repertoire
  · simp only [h, if_true] at hsame ⊢
    rw [huser]
    exact hown repertoire hmem r hr (hid ▸ hsame)
  · simp only [h, if_false] at hsame ⊢
    exact hown x hx r hr hsame

/-- One repertoire request keeps identifiers unique and keeps the owners of the
repertoires of `initial`, when a `Create` gets an identifier new for `initial`. -/
theorem repertoire_serve_keeps (initial : List Repertoire) (db : DB) (call : RepertoireCall)
    (hfresh : call.freshFor initial)
    (hwf : uniqueRepertoireIDs db.repertoires) (hown : ownersKept initial db.repertoires) :
    uniqueRepertoireIDs (call.serve db).2.repertoires ∧
    ownersKept initial (call.serve db).2.repertoires := by
  cases call with
  | list userIDStr =>
    simp only [RepertoireCall.serve]
    cases hu : getUserID userIDStr <;> simpa [RepertoireHandler.List, hu] using ⟨hwf, hown⟩
  | get userIDStr id =>
    simp only [RepertoireCall.serve]
    cases hu : getUserID userIDStr with
    | none => simpa [RepertoireHandler.Get, hu] using ⟨hwf, hown⟩
    | some userID =>
    cases hid : parseObjectID id with
    | none => simpa [RepertoireHandler.Get, hu, hid] using ⟨hwf, hown⟩
    | some repertoireID =>
    cases hf : RepertoireRepository.FindByIDAndUserID db.repertoires repertoireID userID <;>
      simpa [RepertoireHandler.Get, hu, hid, hf] using ⟨hwf, hown⟩
  | create newID createdAt updatedAt userIDStr body =>
    simp only [RepertoireCall.serve]
    cases hu : getUserID userIDStr with
    | none => simpa [RepertoireHandler.Create, hu] using ⟨hwf, hown⟩
    | some userID =>
    cases hb : bindCreateRepertoireRequest body with
    | none => simpa [RepertoireHandler.Create, hu, hb] using ⟨hwf, hown⟩
    | some req =>
    by_cases hany : (db.repertoires.any fun r => r.ID == newID) = true
    · simpa [RepertoireHandler.Create, hu, hb, RepertoireRepository.Create, hany]
        using ⟨hwf, hown⟩
    · have hnew : ∀ r ∈ db.repertoires, r.ID ≠ newID := by
        intro r hr hc
        exact hany (List.any_eq_true.2 ⟨r, hr, by simpa using hc⟩)
      simp only [RepertoireHandler.Create, hu, hb, RepertoireRepository.Create, hany]
      constructor
      · show ((db.repertoires ++ [_]).map (fun r : Repertoire => r.ID)).Nodup
        rw [List.map_append, List.nodup_append]
        refine ⟨hwf, by simp, ?_⟩
        intro a ha hb'
        obtain ⟨r, hr, rfl⟩ := List.mem_map.1 ha
        simp only [List.map_cons, List.map_nil, List.mem_singleton] at hb'
        exact hnew r hr hb'
      · intro r' hr' r hr hsame
        rcases List.mem_append.1 hr' with h1 | h1
        · exact hown r' h1 r hr hsame
        · rw [List.mem_singleton.1 h1] at hsame
          exact absurd hsame.symm (hfresh r hr)
  | update now userIDStr id body =>
    simp only [RepertoireCall.serve]
    cases hu : getUserID userIDStr with
    | none => simpa [RepertoireHandler.Update, hu] using ⟨hwf, hown⟩
    | some userID =>
    cases hid : parseObjectID id with
    | none => simpa [RepertoireHandler.Update, hu, hid] using ⟨hwf, hown⟩
    | some repertoireID =>
    cases hf : RepertoireRepository.FindByIDAndUserID db.repertoires repertoireID userID with
    | none => simpa [RepertoireHandler.Update, hu, hid, hf] using ⟨hwf, hown⟩
    | some repertoire =>
    cases hb : bindCreateRepertoireRequest body with
    | none => simpa [RepertoireHandler.Update, hu, hid, hf, hb] using ⟨hwf, hown⟩
    | some req =>
      rw [Update_eq db now userIDStr id body hwf hu hid hf hb]
      exact ⟨uniqueRepertoireIDs_rewritten hwf repertoire _ rfl,
        ownersKept_rewritten hown (repertoire_find_some hf).1 _ rfl rfl⟩
  | delete userIDStr id =>
    simp only [RepertoireCall.serve]
    cases hu : getUserID userIDStr with
    | none => simpa [RepertoireHandler.Delete, hu] using ⟨hwf, hown⟩
    | some userID =>
    cases hid : parseObjectID id with
    | none => simpa [RepertoireHandler.Delete, hu, hid] using ⟨hwf, hown⟩
    | some repertoireID =>
    cases hf : RepertoireRepository.FindByIDAndUserID db.repertoires repertoireID userID with
    | none => simpa [RepertoireHandler.Delete, hu, hid, hf] using ⟨hwf, hown⟩
    | some repertoire =>
      simp only [RepertoireHandler.Delete, hu, hid, hf, RepertoireRepository.Delete]
      have hsub := List.eraseP_sublist (p := fun r : Repertoire => r.ID == repertoireID)
        db.repertoires
      exact ⟨List.Nodup.sublist (hsub.map _) hwf,
        fun r' hr' r hr hsame => hown r' (hsub.subset hr') r hr hsame⟩
  | addOpening newID now userIDStr id body =>
    simp only [RepertoireCall.serve]
    cases hu : getUserID userIDStr with
    | none => simpa [RepertoireHandler.AddOpening, hu] using ⟨hwf, hown⟩
    | some userID =>
    cases hid : parseObjectID id with
    | none => simpa [RepertoireHandler.AddOpening, hu, hid] using ⟨hwf, hown⟩
    | some repertoireID =>
    cases hf : RepertoireRepository.FindByIDAndUserID db.repertoires repertoireID userID with
    | none => simpa [RepertoireHandler.AddOpening, hu, hid, hf] using ⟨hwf, hown⟩
    | some repertoire =>
    cases hb : bindAddOpeningRequest body with
    | none => simpa [RepertoireHandler.AddOpening, hu, hid, hf, hb] using ⟨hwf, hown⟩
    | some req =>
      rw [AddOpening_eq db newID now userIDStr id body hwf hu hid hf hb]
      exact ⟨uniqueRepertoireIDs_rewritten hwf repertoire _ rfl,
        ownersKept_rewritten hown (repertoire_find_some hf).1 _ rfl rfl⟩
  | updateOpening now userIDStr id openingId body =>
    simp only [RepertoireCall.serve]
    cases hu : getUserID userIDStr with
    | none => simpa [RepertoireHandler.UpdateOpening, hu] using ⟨hwf, hown⟩
    | some userID =>
    cases hid : parseObjectID id with
    | none => simpa [RepertoireHandler.UpdateOpening, hu, hid] using ⟨hwf, hown⟩
    | some repertoireID =>
    cases ho : parseObjectID openingId with
    | none => simpa [RepertoireHandler.UpdateOpening, hu, hid, ho] using ⟨hwf, hown⟩
    | some openingID =>
    cases hf : RepertoireRepository.FindByIDAndUserID db.repertoires repertoireID userID with
    | none => simpa [RepertoireHandler.UpdateOpening, hu, hid, ho, hf] using ⟨hwf, hown⟩
    | some repertoire =>
    cases hb : bindAddOpeningRequest body with
    | none => simpa [RepertoireHandler.UpdateOpening, hu, hid, ho, hf, hb] using ⟨hwf, hown⟩
    | some req =>
      rw [UpdateOpening_eq db now userIDStr id openingId body hwf hu hid ho hf hb]
      by_cases hany : repertoire.Openings.any (fun o => o.ID == openingID) = true
      · rw [if_pos hany]
        exact ⟨uniqueRepertoireIDs_rewritten hwf repertoire _ rfl,
          ownersKept_rewritten hown (repertoire_find_some hf).1 _ rfl rfl⟩
      · rw [if_neg hany]; exact ⟨hwf, hown⟩
  | deleteOpening now userIDStr id openingId =>
    simp only [RepertoireCall.serve]
    cases hu : getUserID userIDStr with
    | none => simpa [RepertoireHandler.DeleteOpening, hu] using ⟨hwf, hown⟩
    | some userID =>
    cases hid : parseObjectID id with
    | none => simpa [RepertoireHandler.DeleteOpening, hu, hid] using ⟨hwf, hown⟩
    | some repertoireID =>
    cases ho : parseObjectID openingId with
    | none => simpa [RepertoireHandler.DeleteOpening, hu, hid, ho] using ⟨hwf, hown⟩
    | some openingID =>
    cases hf : RepertoireRepository.FindByIDAndUserID db.repertoires repertoireID userID with
    | none => simpa [RepertoireHandler.DeleteOpening, hu, hid, ho, hf] using ⟨hwf, hown⟩
    | some repertoire =>
      rw [DeleteOpening_eq db now userIDStr id openingId hwf hu hid ho hf]
      exact ⟨uniqueRepertoireIDs_rewritten hwf repertoire _ rfl,
        ownersKept_rewritten hown (repertoire_find_some hf).1 _ rfl rfl⟩

theorem serveRepertoireCalls_keeps (initial : List Repertoire) (calls : List RepertoireCall)
    (hfresh : ∀ call ∈ calls, call.freshFor initial) (db : DB)
    (hwf : uniqueRepertoireIDs db.repertoires) (hown : ownersKept initial db.repertoires) :
    uniqueRepertoireIDs (serveRepertoireCalls db calls).repertoires ∧
    ownersKept initial (serveRepertoireCalls db calls).repertoires := by
  induction calls generalizing db with
  | nil => exact ⟨hwf, hown⟩
  | cons call calls ih =>
    obtain ⟨h1, h2⟩ := repertoire_serve_keeps initial db call
      (hfresh call (List.mem_cons_self _ _)) hwf hown
    exact ih (fun c hc => hfresh c (List.mem_cons_of_mem _ hc)) _ h1 h2

/-- C21: an `Update` by the owner answers `200` with, and stores in place of the
repertoire, the repertoire with the request's name and color and the new update
time; identifier, owner, openings and creation time are the former ones, the other
repertoires and the sessions are untouched. Whatever repertoire requests are
served one after another (a `Create` getting an identifier that no repertoire of
the database had), a repertoire that carries the identifier of a repertoire of the
database has that repertoire's owner. -/
theorem Update_keeps_owner (db : DB) (now : Time) (userIDStr id : String)
    (body : Option CreateRepertoireRequest) (userID repertoireID : ObjectID)
    (repertoire : Repertoire) (req : CreateRepertoireRequest)
    (hwf : uniqueRepertoireIDs db.repertoires)
    (hu : getUserID userIDStr = some userID)
    (hid : parseObjectID id = some repertoireID)
    (hf : RepertoireRepository.FindByIDAndUserID db.repertoires repertoireID userID
      = some repertoire)
    (hb : bindCreateRepertoireRequest body = some req) :
    (∃ stored : Repertoire,
      RepertoireHandler.Update db now userIDStr id body =
        (⟨200, .repertoire stored⟩,
          { db with repertoires :=
              db.repertoires.map (fun r => if r = repertoire then stored else r) }) ∧
      RepertoireRepository.FindByIDAndUserID
          (RepertoireHandler.Update db now userIDStr id body).2.repertoires repertoireID userID
        = some stored ∧
      stored.Name = req.Name ∧ stored.Color = req.Color ∧ stored.UpdatedAt = now ∧
      stored.ID = repertoire.ID ∧ stored.UserID = repertoire.UserID ∧
      stored.Openings = repertoire.Openings ∧ stored.CreatedAt = repertoire.CreatedAt) ∧
    (∀ calls : List RepertoireCall, (∀ call ∈ calls, call.freshFor db.repertoires) →
      ∀ r ∈ db.repertoires, ∀ r' ∈ (serveRepertoireCalls db calls).repertoires,
        r'.ID = r.ID → r'.UserID = r.UserID) := by
  constructor
  · have heq := Update_eq db now userIDStr id body hwf hu hid hf hb
    refine ⟨{ repertoire with Name := req.Name, Color := req.Color, UpdatedAt := now },
      heq, ?_, rfl, rfl, rfl, rfl, rfl, rfl, rfl⟩
    rw [heq]
    exact repertoire_find_rewritten hf
      (fun r => { r with Name := req.Name, Color := req.Color, UpdatedAt := now }) rfl rfl
  · intro calls hfresh r hr r' hr' hsame
    have hown : ownersKept db.repertoires db.repertoires := by
      intro a ha b hb' hab
      rw [List.inj_on_of_nodup_map hwf ha hb' hab]
    exact (serveRepertoireCalls_keeps db.repertoires calls hfresh db hwf hown).2 r' hr' r hr
      hsame

theorem Update_keeps_owner_witness :
    ∃ stored : Repertoire,
      (RepertoireHandler.Update stockedDB 4 aliceHex repertoireHex (some sampleRename)).1 =
        ⟨200, .repertoire stored⟩ ∧
      stored.Name = "Sicilian" ∧ stored.UserID = 161 ∧
      stored.Openings = stockedRepertoire.Openings := by
  obtain ⟨stored, h1, -, h3, -, -, -, h7, h8, -⟩ :=
    (Update_keeps_owner stockedDB 4 aliceHex repertoireHex (some sampleRename) 161 195
      stockedRepertoire sampleRename (by decide) (by decide) (by decide) rfl rfl).1
  exact ⟨stored, by rw [h1], h3, h7, h8⟩

/-! ## Refresh tokens (C26) -/

/-- C26: the refresh token of `GenerateTokenPair` signs claims with type `refresh`,
the user identifier and an empty e-mail, whatever e-mail was passed. `Refresh`
looks the user up by the e-mail of the claims: when validating the token gives
back the claims that were signed and no stored user has an empty e-mail, `Refresh`
with that token answers `401` (user not found) and changes nothing. -/
theorem Refresh_rejects_issued_token (db : DB) (s : AuthService) (jwt : JWT)
    (now validateNow generateNow : Time) (userID email accessToken refreshToken : String)
    (hgen : s.GenerateTokenPair jwt now userID email = some (accessToken, refreshToken))
    (hvalid : s.ValidateToken jwt validateNow refreshToken = some (s.refreshClaims now userID))
    (hne : refreshToken ≠ "")
    (husers : ∀ u ∈ db.users, u.Email ≠ "") :
    jwt.SignedString s.jwtSecret (s.refreshClaims now userID) = some refreshToken ∧
    (s.refreshClaims now userID).TokenType = "refresh" ∧
    (s.refreshClaims now userID).UserID = userID ∧
    (s.refreshClaims now userID).Email = "" ∧
    AuthHandler.Refresh db s jwt validateNow generateNow (some { RefreshToken := refreshToken })
      = (⟨401, .error "user not found"⟩, db) := by
  have hsigned : jwt.SignedString s.jwtSecret (s.refreshClaims now userID)
      = some refreshToken := by
    unfold AuthService.GenerateTokenPair at hgen
    cases ha : jwt.SignedString s.jwtSecret (s.accessClaims now userID email) with
    | none => simp [ha] at hgen
    | some a =>
      cases hr : jwt.SignedString s.jwtSecret (s.refreshClaims now userID) with
      | none => simp [ha, hr] at hgen
      | some r =>
        simp only [ha, hr, Option.some.injEq, Prod.mk.injEq] at hgen
        rw [hgen.2]
  have hfind : UserRepository.FindByEmail db.users "" = none := by
    unfold UserRepository.FindByEmail
    rw [List.find?_eq_none]
    intro u hu
    simpa using husers u hu
  refine ⟨hsigned, rfl, rfl, rfl, ?_⟩
  simp [AuthHandler.Refresh, bindRefreshRequest, hne, AuthService.ValidateRefreshToken, hvalid,
    AuthService.refreshClaims, hfind, StatusUnauthorized]

theorem Refresh_rejects_issued_token_witness :
    AuthHandler.Refresh userDB sampleAuth sampleJWT 2 3
        (some { RefreshToken := "secret.0000000000000000000000a1..refresh" })
      = (⟨401, .error "user not found"⟩, userDB) :=
  (Refresh_rejects_issued_token userDB sampleAuth sampleJWT 1 2 3 aliceHex "alice@example.org"
    "secret.0000000000000000000000a1.alice@example.org."
    "secret.0000000000000000000000a1..refresh" rfl rfl (by decide) (by decide)).2.2.2.2

/-! ## Two `SubmitMove` requests at the same time (C19) -/

/-- The handler is its read followed at once by its write. -/
theorem SubmitMove_read_write (db : DB) (userIDStr sessionId : String)
    (body : Option SubmitMoveRequest) :
    PracticeHandler.SubmitMove db userIDStr sessionId body =
      match PracticeHandler.SubmitMove.read db userIDStr sessionId body with
      | .idle => (⟨StatusOK, .bindError⟩, db)
      | .pending sessionID move => PracticeHandler.SubmitMove.write db sessionID move
      | .done response => (response, db) := by
  cases hu : getUserID userIDStr with
  | none => simp [PracticeHandler.SubmitMove, PracticeHandler.SubmitMove.read, hu]
  | some userID =>
  cases hs : parseObjectID sessionId with
  | none => simp [PracticeHandler.SubmitMove, PracticeHandler.SubmitMove.read, hu, hs]
  | some sessionID =>
  cases hf : PracticeRepository.FindByIDAndUserID db.practice_sessions sessionID userID with
  | none => simp [PracticeHandler.SubmitMove, PracticeHandler.SubmitMove.read, hu, hs, hf]
  | some session =>
  cases he : session.EndedAt with
  | some t => simp [PracticeHandler.SubmitMove, PracticeHandler.SubmitMove.read, hu, hs, hf, he]
  | none =>
  cases hb : bindSubmitMoveRequest body with
  | none =>
    simp [PracticeHandler.SubmitMove, PracticeHandler.SubmitMove.read, hu, hs, hf, he, hb]
  | some req =>
    simp [PracticeHandler.SubmitMove, PracticeHandler.SubmitMove.read,
      PracticeHandler.SubmitMove.write, hu, hs, hf, he, hb]

theorem read_active (db : DB) (call : SubmitCall) {userID sessionID : ObjectID}
    {session : PracticeSession} {req : SubmitMoveRequest}
    (hu : getUserID call.userIDStr = some userID)
    (hs : parseObjectID call.sessionId = some sessionID)
    (hf : PracticeRepository.FindByIDAndUserID db.practice_sessions sessionID userID
      = some session)
    (he : session.EndedAt = none)
    (hb : bindSubmitMoveRequest call.body = some req) :
    PracticeHandler.SubmitMove.read db call.userIDStr call.sessionId call.body =
      .pending sessionID (recordedMove session.Moves.length req) := by
  unfold PracticeHandler.SubmitMove.read
  simp [hu, hs, hf, he, hb, recordedMove]

/-- One step of an owner's request on the active session: identifiers stay unique,
the request stays on its way, it advances by one step, and the stored session
gains exactly the move the step wrote, if it wrote one. -/
theorem call_step_keeps (call : SubmitCall) (db : DB) (st : CallState)
    {session : PracticeSession} {userID sessionID : ObjectID} {req : SubmitMoveRequest}
    (extra : List PracticeMove)
    (hu : getUserID call.userIDStr = some userID)
    (hs : parseObjectID call.sessionId = some sessionID)
    (hb : bindSubmitMoveRequest call.body = some req)
    (he : session.EndedAt = none)
    (hwf : uniqueIDs db.practice_sessions)
    (hf : PracticeRepository.FindByIDAndUserID db.practice_sessions sessionID userID =
      some { session with Moves := session.Moves ++ extra })
    (hc : st.carries req sessionID) :
    uniqueIDs (call.step db st).2.practice_sessions ∧
    (call.step db st).1.carries req sessionID ∧
    (call.step db st).1.rank = min 2 (st.rank + 1) ∧
    ∃ added : List PracticeMove,
      PracticeRepository.FindByIDAndUserID (call.step db st).2.practice_sessions sessionID
          userID = some { session with Moves := session.Moves ++ (extra ++ added) } ∧
      (call.step db st).1.written = st.written ++ added ∧
      (added = [] ∨ st.written = []) := by
  cases st with
  | idle =>
    have hread := read_active db call hu hs hf he hb
    simp only [SubmitCall.step, hread]
    refine ⟨hwf, ⟨rfl, _, rfl⟩, rfl, [], ?_, rfl, Or.inl rfl⟩
    simpa using hf
  | pending id move =>
    obtain ⟨hid, k, hmove⟩ := hc
    subst hid
    simp only [SubmitCall.step, PracticeHandler.SubmitMove.write, PracticeRepository.AddMove]
    rw [updateOne_found hwf hf]
    refine ⟨uniqueIDs_rewritten hwf _ (fun x => { x with Moves := x.Moves ++ [move] }) rfl,
      ⟨k, by rw [hmove]; rfl⟩, rfl, [move], ?_, rfl, Or.inr rfl⟩
    have := find_rewritten hf (fun x => { x with Moves := x.Moves ++ [move] }) rfl rfl
    simpa [List.append_assoc] using this
  | done response =>
    simp only [SubmitCall.step]
    refine ⟨hwf, hc, rfl, [], ?_, ?_, Or.inl rfl⟩
    · simpa using hf
    · simp

theorem rank_le_two (st : CallState) : st.rank ≤ 2 := by
  cases st <;> simp [CallState.rank]

theorem race_step_keeps (a b : SubmitCall) (race : Race) (pickSecond : Bool)
    {session : PracticeSession} {userID sessionID : ObjectID} {reqA reqB : SubmitMoveRequest}
    (hua : getUserID a.userIDStr = some userID) (hsa : parseObjectID a.sessionId = some sessionID)
    (hba : bindSubmitMoveRequest a.body = some reqA)
    (hub : getUserID b.userIDStr = some userID) (hsb : parseObjectID b.sessionId = some sessionID)
    (hbb : bindSubmitMoveRequest b.body = some reqB)
    (he : session.EndedAt = none)
    (hinv : raceInv session sessionID userID reqA reqB race) :
    raceInv session sessionID userID reqA reqB (Race.step a b race pickSecond) ∧
    (Race.step a b race pickSecond).first.rank =
      (if pickSecond then race.first.rank else min 2 (race.first.rank + 1)) ∧
    (Race.step a b race pickSecond).second.rank =
      (if pickSecond then min 2 (race.second.rank + 1) else race.second.rank) := by
  obtain ⟨hwf, hca, hcb, extra, hf, hextra⟩ := hinv
  cases pickSecond with
  | false =>
    obtain ⟨h1, h2, h3, added, h4, h5, h6⟩ :=
      call_step_keeps a race.db race.first extra hua hsa hba he hwf hf hca
    simp only [Race.step, Bool.false_eq_true, if_false]
    refine ⟨⟨h1, h2, hcb, extra ++ added, h4, ?_⟩, h3, trivial⟩
    show _ = (a.step race.db race.first).1.written ++ race.second.written ∨
      _ = race.second.written ++ (a.step race.db race.first).1.written
    rw [h5]
    rcases h6 with h6 | h6
    · subst h6
      simpa using hextra
    · rw [h6] at hextra ⊢
      right
      rcases hextra with h | h <;> simp [h]
  | true =>
    obtain ⟨h1, h2, h3, added, h4, h5, h6⟩ :=
      call_step_keeps b race.db race.second extra hub hsb hbb he hwf hf hcb
    simp only [Race.step, if_true]
    refine ⟨⟨h1, hca, h2, extra ++ added, h4, ?_⟩, trivial, h3⟩
    show _ = race.first.written ++ (b.step race.db race.second).1.written ∨
      _ = (b.step race.db race.second).1.written ++ race.first.written
    rw [h5]
    rcases h6 with h6 | h6
    · subst h6
      simpa using hextra
    · rw [h6] at hextra ⊢
      left
      rcases hextra with h | h <;> simp [h]

theorem runRace_keeps (a b : SubmitCall) (schedule : List Bool)
    {session : PracticeSession} {userID sessionID : ObjectID} {reqA reqB : SubmitMoveRequest}
    (hua : getUserID a.userIDStr = some userID) (hsa : parseObjectID a.sessionId = some sessionID)
    (hba : bindSubmitMoveRequest a.body = some reqA)
    (hub : getUserID b.userIDStr = some userID) (hsb : parseObjectID b.sessionId = some sessionID)
    (hbb : bindSubmitMoveRequest b.body = some reqB)
    (he : session.EndedAt = none) (race : Race)
    (hinv : raceInv session sessionID userID reqA reqB race) :
    raceInv session sessionID userID reqA reqB (runRace a b schedule race) ∧
    (runRace a b schedule race).first.rank = min 2 (race.first.rank + schedule.count false) ∧
    (runRace a b schedule race).second.rank =
      min 2 (race.second.rank + schedule.count true) := by
  induction schedule generalizing race with
  | nil =>
    have hr1 := rank_le_two race.first
    have hr2 := rank_le_two race.second
    refine ⟨hinv, ?_, ?_⟩
    · simp only [runRace, List.foldl_nil, List.count_nil, Nat.add_zero]; omega
    · simp only [runRace, List.foldl_nil, List.count_nil, Nat.add_zero]; omega
  | cons pick schedule ih =>
    obtain ⟨h1, h2, h3⟩ := race_step_keeps a b race pick hua hsa hba hub hsb hbb he hinv
    obtain ⟨k1, k2, k3⟩ := ih (Race.step a b race pick) h1
    have hrun : runRace a b (pick :: schedule) race
        = runRace a b schedule (Race.step a b race pick) := rfl
    rw [hrun]
    refine ⟨k1, ?_, ?_⟩
    · rw [k2, h2]
      cases pick <;> simp [List.count_cons] <;> omega
    · rw [k3, h3]
      cases pick <;> simp [List.count_cons] <;> omega

theorem done_of_rank {st : CallState} {req : SubmitMoveRequest} {sessionID : ObjectID}
    (hrank : st.rank = 2) (hc : st.carries req sessionID) :
    ∃ k, st = .done ⟨200, .move (recordedMove k req)⟩ := by
  cases st with
  | idle => simp [CallState.rank] at hrank
  | pending id move => simp [CallState.rank] at hrank
  | done response =>
    obtain ⟨k, hk⟩ := hc
    exact ⟨k, by rw [hk]⟩

/-- C19: two `SubmitMove` requests of the owner on the same active session run at
the same time: their reads of the session and their `AddMove` writes interleave
in any order, each request reading before it writes. Once both have taken their
two steps both are answered `200`, each with the move recorded for its request,
and the stored session is the former one with exactly these two moves appended,
in the order of the writes: two moves more than before, none lost. -/
theorem concurrent_submits_kept (db : DB) (a b : SubmitCall) (schedule : List Bool)
    (session : PracticeSession) (userID sessionID : ObjectID)
    (reqA reqB : SubmitMoveRequest)
    (hwf : uniqueIDs db.practice_sessions)
    (hua : getUserID a.userIDStr = some userID)
    (hsa : parseObjectID a.sessionId = some sessionID)
    (hba : bindSubmitMoveRequest a.body = some reqA)
    (hub : getUserID b.userIDStr = some userID)
    (hsb : parseObjectID b.sessionId = some sessionID)
    (hbb : bindSubmitMoveRequest b.body = some reqB)
    (hf : PracticeRepository.FindByIDAndUserID db.practice_sessions sessionID userID
      = some session)
    (he : session.EndedAt = none)
    (hfirst : 2 ≤ schedule.count false) (hsecond : 2 ≤ schedule.count true) :
    ∃ moveA moveB : PracticeMove,
      (runRace a b schedule { db := db, first := .idle, second := .idle }).first
        = .done ⟨200, .move moveA⟩ ∧
      (runRace a b schedule { db := db, first := .idle, second := .idle }).second
        = .done ⟨200, .move moveB⟩ ∧
      (∃ k, moveA = recordedMove k reqA) ∧ (∃ k, moveB = recordedMove k reqB) ∧
      ∃ stored : PracticeSession,
        PracticeRepository.FindByIDAndUserID
          (runRace a b schedule { db := db, first := .idle, second := .idle }).db.practice_sessions
          sessionID userID = some stored ∧
        stored.Moves.length = session.Moves.length + 2 ∧
        (stored = { session with Moves := session.Moves ++ [moveA, moveB] } ∨
          stored = { session with Moves := session.Moves ++ [moveB, moveA] }) := by
  have hinit : raceInv session sessionID userID reqA reqB
      { db := db, first := .idle, second := .idle } :=
    ⟨hwf, trivial, trivial, [], by simpa using hf, Or.inl rfl⟩
  obtain ⟨⟨-, hca, hcb, extra, hfind, hextra⟩, hr1, hr2⟩ :=
    runRace_keeps a b schedule hua hsa hba hub hsb hbb he _ hinit
  have hrank1 : (runRace a b schedule { db := db, first := .idle, second := .idle }).first.rank
      = 2 := by
    rw [hr1]; simp only [CallState.rank]; omega
  have hrank2 : (runRace a b schedule { db := db, first := .idle, second := .idle }).second.rank
      = 2 := by
    rw [hr2]; simp only [CallState.rank]; omega
  obtain ⟨ka, hda⟩ := done_of_rank hrank1 hca
  obtain ⟨kb, hdb⟩ := done_of_rank hrank2 hcb
  rw [hda, hdb] at hextra
  simp only [CallState.written, List.singleton_append] at hextra
  refine ⟨recordedMove ka reqA, recordedMove kb reqB, hda, hdb, ⟨ka, rfl⟩, ⟨kb, rfl⟩,
    { session with Moves := session.Moves ++ extra }, hfind, ?_, ?_⟩
  · rcases hextra with h | h <;> simp [h]
  · rcases hextra with h | h
    · left; rw [h]
    · right; rw [h]

theorem concurrent_submits_kept_witness :
    ∃ moveA moveB : PracticeMove,
      (runRace bookCall bestCall [false, true, true, false]
        { db := activeDB, first := .idle, second := .idle }).first
        = .done ⟨200, .move moveA⟩ ∧
      (runRace bookCall bestCall [false, true, true, false]
        { db := activeDB, first := .idle, second := .idle }).second
        = .done ⟨200, .move moveB⟩ := by
  obtain ⟨moveA, moveB, h1, h2, -⟩ :=
    concurrent_submits_kept activeDB bookCall bestCall [false, true, true, false]
      activeSession 161 7 (sampleMove "book") (sampleMove "best") (by decide) (by decide)
      (by decide) rfl (by decide) (by decide) rfl rfl rfl (by decide) (by decide)
  exact ⟨moveA, moveB, h1, h2⟩

end OpeningMaster
